import Mathlib

/-!
# FTL API reports (`src/api/api.c`): a shallow embedding

The report functions of `api.c` read the in-memory tables of the recorder and
write either formatted text lines (`ssend`, line mode) or tagged binary values
(`pack_*`, binary mode) to a socket.  Here the tables are an explicit
`Snapshot`, the C library and the uninitialised stack are an explicit
`Platform`, and a report returns the list of values it writes, grouped by the
loop iteration that wrote them.
-/

namespace FTL

/-! ## Constants declared in headers that are not part of the translated sources -/

/-- Modelled from the spec: `PRIVACY_SHOW_ALL` of `enums.h` (missing), the lowest
element of the ordered enumeration SHOW_ALL, HIDE_DOMAINS, HIDE_DOMAINS_CLIENTS, MAXIMUM. -/
def PRIVACY_SHOW_ALL : Int := 0

/-- Modelled from the spec: `PRIVACY_HIDE_DOMAINS` of `enums.h` (missing), second
element of the ordered privacy enumeration. -/
def PRIVACY_HIDE_DOMAINS : Int := 1

/-- Modelled from the spec: `PRIVACY_HIDE_DOMAINS_CLIENTS` of `enums.h` (missing),
third element of the ordered privacy enumeration. -/
def PRIVACY_HIDE_DOMAINS_CLIENTS : Int := 2

/-- Modelled from the spec: `PRIVACY_MAXIMUM` of `enums.h` (missing), the highest
element of the ordered privacy enumeration. -/
def PRIVACY_MAXIMUM : Int := 3

/-- Modelled from the spec: `HIDDEN_DOMAIN` of `FTL.h` (missing), the placeholder
"hidden" string shown instead of a domain name. -/
def HIDDEN_DOMAIN : String := "hidden"

/-- Modelled from the spec: `HIDDEN_CLIENT` of `FTL.h` (missing), the placeholder
shown instead of a client address. -/
def HIDDEN_CLIENT : String := "0.0.0.0"

/-- Modelled from the spec: `TYPE_A` of `enums.h` (missing), the first query type
code; `getQueryTypes` indexes its sixteen counters by `type - 1` from `TYPE_A`. -/
def TYPE_A : Int := 1

/-- Modelled from the spec: `TYPE_OTHER` of `enums.h` (missing), the type code of a
query whose numeric type has no code of its own (fourteenth in `getQueryTypes`). -/
def TYPE_OTHER : Int := 14

/-- Modelled from the spec: `TYPE_MAX` of `enums.h` (missing), one past the last of
the sixteen type codes that `getQueryTypes` reports. -/
def TYPE_MAX : Int := 17

/-- Modelled from the spec: `QUERY_UNKNOWN` of `enums.h` (missing), status "unknown". -/
def QUERY_UNKNOWN : Int := 0

/-- Modelled from the spec: `QUERY_CACHE` of `enums.h` (missing), status
"answered from cache". -/
def QUERY_CACHE : Int := 3

/-- Modelled from the spec: `QUERY_REGEX` of `enums.h` (missing), status
"blocked by a regex". -/
def QUERY_REGEX : Int := 4

/-- Modelled from the spec: `QUERY_REGEX_CNAME` of `enums.h` (missing), status
"blocked by a regex during CNAME inspection". -/
def QUERY_REGEX_CNAME : Int := 10

/-- Modelled from the spec: `QUERY_RETRIED` of `enums.h` (missing), status "retried". -/
def QUERY_RETRIED : Int := 12

/-- Modelled from the spec: `QUERY_IN_PROGRESS` of `enums.h` (missing), status
"still in progress". -/
def QUERY_IN_PROGRESS : Int := 14

/-- Modelled from the spec: `REPLY_UNKNOWN` of `enums.h` (missing), reply type
"unknown". -/
def REPLY_UNKNOWN : Int := 0

/-! ## Output values -/

/-- One variadic argument of an `ssend` call. -/
inductive Arg where
  | int (v : Int)
  | str (s : String)
  deriving DecidableEq, Repr

/-- One write to the socket: a formatted line-mode write or one binary value. -/
inductive Out where
  | ssend (fmt : String) (args : List Arg)
  | pack_int32 (v : Int)
  | pack_uint8 (v : Int)
  | pack_bool (b : Bool)
  | pack_fixstr (s : String)
  | pack_str32 (s : String)
  | pack_map16_start (n : Int)
  deriving DecidableEq, Repr

/-- The writes of one loop iteration.  `id` is the loop's record id (domain, client
or query id); `complete` is false when an encoder failure ended the report inside
this iteration, in which case `out` holds what had been written before the failure. -/
structure Row where
  id : Int
  out : List Out
  complete : Bool
  deriving DecidableEq, Repr

/-- What a report writes: the values written before its main loop and the writes of
the loop, one `Row` per iteration that wrote something. -/
structure Report where
  header : List Out
  rows : List Row
  deriving DecidableEq, Repr

/-- The byte-sink view of a report: every value in the order written. -/
def Report.wire (r : Report) : List Out :=
  r.header ++ (r.rows.map Row.out).flatten

/-- The rows that were written in full. -/
def Report.sent (r : Report) : List Row :=
  r.rows.filter Row.complete

/-! ## Records of the shared-memory tables -/

/-- `domainsData`: the fields read by `api.c`. -/
structure domainsData where
  domainpos : Nat
  count : Int
  blockedcount : Int
  deriving DecidableEq, Repr

/-- `clientsData`: the fields read by `api.c`. `aliasclient` is `flags.aliasclient`. -/
structure clientsData where
  ippos : Nat
  namepos : Nat
  count : Int
  blockedcount : Int
  aliasclient : Bool
  aliasclient_id : Int
  overTime : List Int
  deriving DecidableEq, Repr

/-- `upstreamsData`: the fields read by `api.c`. -/
structure upstreamsData where
  ippos : Nat
  namepos : Nat
  port : Int
  overTime : List Int
  deriving DecidableEq, Repr

/-- `queriesData`: the fields read by `api.c`; `blocked`, `complete` and
`response_calculated` are the bits of `flags`. -/
structure queriesData where
  timestamp : Int
  type : Int
  qtype : Nat
  status : Int
  domainID : Int
  CNAME_domainID : Int
  clientID : Int
  upstreamID : Int
  id : Int
  dnssec : Int
  reply : Int
  response : Int
  ede : Int
  privacylevel : Int
  blocked : Bool
  complete : Bool
  response_calculated : Bool
  deriving DecidableEq, Repr

/-- One slot of the global `overTime` array. -/
structure overTimeData where
  timestamp : Int
  total : Int
  blocked : Int
  deriving DecidableEq, Repr

/-- `DNSCacheData`: the field read by `api.c`. -/
structure DNSCacheData where
  black_regex_idx : Int
  deriving DecidableEq, Repr

/-- The tables, counters and settings a report reads.  `counters->domains`,
`counters->clients`, `counters->upstreams` and `counters->queries` are the lengths
of the respective tables; an absent record (`getDomain` etc. returning `NULL`) is
`none`.  The three `API_*` fields are the results of `read_setupVarsconf`, the two
exclusion lists already split by `getSetupVarsArray`. -/
structure Snapshot where
  privacylevel : Int
  debug_api : Bool
  getstr : Nat → String
  domains : List (Option domainsData)
  clients : List (Option clientsData)
  upstreams : List (Option upstreamsData)
  queries : List (Option queriesData)
  overTime : List overTimeData
  blocked_queries : Int
  in_auditlist : String → Int
  findCacheID : Int → Int → Int → Nat
  getDNSCache : Nat → Option DNSCacheData
  API_QUERY_LOG_SHOW : Option String
  API_EXCLUDE_DOMAINS : Option (List String)
  API_EXCLUDE_CLIENTS : Option (List String)

/-- One `int[2]` element of `temparray`: `(id, score)`. -/
abbrev TempRow := Int × Int

/-- What the reports take from outside the repository: libc `qsort`, the
indeterminate initial contents of the stack array `temparray`, the clock, and
whether the binary encoder accepts a string. -/
structure Platform where
  qsort : (TempRow → TempRow → Int) → List TempRow → List TempRow
  stack : Nat → TempRow
  time : Int
  pack_str32 : String → Bool
  pack_fixstr : String → Bool
  querytypes : Int → String
  querystr : Nat → Option String
  get_edestr : Int → String

/-- Record lookup by index: absent for an id outside the table and for a slot
whose record is invalid. -/
def lookup {α : Type} (table : List (Option α)) (id : Int) : Option α :=
  if id < 0 then none else (table.get? id.toNat).join

/-- `getDomain(domainID, true)`. -/
def getDomain (S : Snapshot) (domainID : Int) : Option domainsData := lookup S.domains domainID

/-- `getClient(clientID, true)`. -/
def getClient (S : Snapshot) (clientID : Int) : Option clientsData := lookup S.clients clientID

/-- `getUpstream(upstreamID, true)`. -/
def getUpstream (S : Snapshot) (upstreamID : Int) : Option upstreamsData :=
  lookup S.upstreams upstreamID

/-- `getQuery(queryID, true)`. -/
def getQuery (S : Snapshot) (queryID : Int) : Option queriesData := lookup S.queries queryID

/-- Modelled from the spec: `insetupVarsArray` of `setupVars.c` (missing), the
case-sensitive membership test against the loaded exclusion set. -/
def insetupVarsArray (setupVarsArray : List String) (str : String) : Bool :=
  setupVarsArray.contains str

/-- The test `list != NULL && insetupVarsArray(str)` on an exclusion list that may
not be configured. -/
def excludedBy (list : Option (List String)) (str : String) : Bool :=
  match list with
  | none => false
  | some arr => insetupVarsArray arr str

/-! ## Command strings -/

/-- libc `strstr(haystack, needle) != NULL` on character lists. -/
def strstr : List Char → List Char → Bool
  | [], needle => needle.isEmpty
  | h :: hs, needle => needle.isPrefixOf (h :: hs) || strstr hs needle

/-- Modelled from the spec: `command` of `request.c` (missing), the substring scan
for a literal keyword in the command string. -/
def command (client_message cmd : String) : Bool :=
  strstr client_message.data cmd.data

/-- libc `isspace` in the C locale. -/
def isspace (c : Char) : Bool :=
  c = ' ' || c = '\t' || c = '\n' || c = '\r' || c.toNat = 11 || c.toNat = 12

/-- Input white space skipped by a conversion. -/
def skipSpace : List Char → List Char
  | [] => []
  | c :: cs => if isspace c then skipSpace cs else c :: cs

/-- Value of a digit character in the given base. -/
def digitVal (base : Nat) (c : Char) : Option Nat :=
  let v : Option Nat :=
    if '0' ≤ c ∧ c ≤ '9' then some (c.toNat - 48)
    else if 'a' ≤ c ∧ c ≤ 'f' then some (c.toNat - 87)
    else if 'A' ≤ c ∧ c ≤ 'F' then some (c.toNat - 55)
    else none
  match v with
  | some d => if d < base then some d else none
  | none => none

/-- Longest run of digits: the accumulated value, how many were read, the rest. -/
def scanDigits (base : Nat) : List Char → Nat → Nat → Nat × Nat × List Char
  | [], acc, k => (acc, k, [])
  | c :: cs, acc, k =>
    match digitVal base c with
    | some d => scanDigits base cs (acc * base + d) (k + 1)
    | none => (acc, k, c :: cs)

/-- Optional sign in front of a number: whether it is negative, and the rest. -/
def scanSign : List Char → Bool × List Char
  | '-' :: cs => (true, cs)
  | '+' :: cs => (false, cs)
  | cs => (false, cs)

/-- Conversion of a 64-bit `long` holding `v` (saturated by `strtol`) to `int`. -/
def toInt32 (v : Int) : Int :=
  let l := max (-(2 ^ 63)) (min v (2 ^ 63 - 1))
  (l + 2 ^ 31) % 2 ^ 32 - 2 ^ 31

/-- Conversion of a 64-bit `unsigned long` (saturated by `strtoul`, a minus sign
negating modulo 2^64) to `unsigned int`. -/
def toUInt32 (neg : Bool) (v : Nat) : Int :=
  let u : Nat := min v (2 ^ 64 - 1)
  let w : Nat := if neg then (2 ^ 64 - u) % 2 ^ 64 else u
  ((w % 2 ^ 32 : Nat) : Int)

/-- The `%i` conversion: white space, optional sign, then a hexadecimal (`0x`),
octal (leading `0`) or decimal integer.  `none` on a matching failure. -/
def scan_i (s : List Char) : Option (Int × List Char) :=
  let (neg, t) := scanSign (skipSpace s)
  let (base, u) : Nat × List Char :=
    match t with
    | '0' :: 'x' :: r => (16, r)
    | '0' :: 'X' :: r => (16, r)
    | '0' :: r => (8, '0' :: r)
    | r => (10, r)
  let (v, k, rest) := scanDigits base u 0 0
  if k = 0 then none
  else some (toInt32 (if neg then -(v : Int) else (v : Int)), rest)

/-- The `%u` conversion: white space, optional sign, decimal digits. -/
def scan_u (s : List Char) : Option (Int × List Char) :=
  let (neg, t) := scanSign (skipSpace s)
  let (v, k, rest) := scanDigits 10 t 0 0
  if k = 0 then none else some (toUInt32 neg v, rest)

/-- `sscanf(client_message, "%*[^(](%i)", &num) > 0`: a non-empty run of characters
other than `(`, then `(`, then an integer.  `some num` exactly when `num` was
assigned. -/
def sscanf_count (client_message : String) : Option Int :=
  let s := client_message.data
  let pre := s.takeWhile (fun c => c != '(')
  match s.dropWhile (fun c => c != '(') with
  | '(' :: rest => if pre.isEmpty then none else (scan_i rest).map Prod.fst
  | _ => none

/-! ## Sorting -/

/-- `cmpasc`: qsort comparison on the count field, ascending. -/
def cmpasc (a b : TempRow) : Int :=
  if a.2 < b.2 then -1
  else if a.2 > b.2 then 1
  else 0

/-- `cmpdesc`: qsort comparison on the count field, descending. -/
def cmpdesc (a b : TempRow) : Int :=
  if a.2 > b.2 then -1
  else if a.2 < b.2 then 1
  else 0

/-- What C guarantees of `qsort` for the two comparison functions of this file:
the array is rearranged, and afterwards no element compares greater than a later
one.  The order of elements that compare equal is left open. -/
structure QsortContract (qsort : (TempRow → TempRow → Int) → List TempRow → List TempRow) :
    Prop where
  perm : ∀ cmp l, (qsort cmp l).Perm l
  sorted_asc : ∀ l, (qsort cmpasc l).Pairwise (fun a b => cmpasc a b ≤ 0)
  sorted_desc : ∀ l, (qsort cmpdesc l).Pairwise (fun a b => cmpdesc a b ≤ 0)

/-- Insertion of one element in front of the first element it does not exceed. -/
def insertBy (cmp : TempRow → TempRow → Int) (x : TempRow) : List TempRow → List TempRow
  | [] => [x]
  | y :: ys => if cmp x y ≤ 0 then x :: y :: ys else y :: insertBy cmp x ys

/-- A reference `qsort` (insertion sort), used to run the reports on examples. -/
def qsortRef (cmp : TempRow → TempRow → Int) : List TempRow → List TempRow
  | [] => []
  | x :: xs => insertBy cmp x (qsortRef cmp xs)

/-! ## Ranking reports -/

/-- How one iteration of a ranking loop ends: `skip` is a `continue`, `emit` a row
written in full (`n++`), `pass` an iteration that writes nothing and falls through
to the `n == count` test, `abort` a `return` after an encoder failure (with what had
been written before it). -/
inductive Step where
  | skip
  | emit (out : List Out)
  | pass
  | abort (out : List Out)
  deriving DecidableEq, Repr

/-- The emission loop shared by `getTopDomains` and `getTopClients`:
`for(i...) { body; if(n == count) break; }` over the sorted `temparray`, `n` being
the number of rows written so far. -/
def topLoop (body : Int → TempRow → Step) (count : Int) : List TempRow → Int → List Row
  | [], _ => []
  | e :: rest, n =>
    match body n e with
    | .skip => topLoop body count rest n
    | .abort out => [⟨e.1, out, false⟩]
    | .emit out =>
      ⟨e.1, out, true⟩ :: (if n + 1 = count then [] else topLoop body count rest (n + 1))
    | .pass => if n = count then [] else topLoop body count rest n

/-- `showblocked` after reading the `API_QUERY_LOG_SHOW` setting. -/
def showblocked_of (filter : Option String) : Bool :=
  match filter with
  | none => true
  | some f => if f = "permittedonly" then false
              else if f = "blockedonly" then true
              else if f = "nothing" then false
              else true

/-- `showpermitted` after reading the `API_QUERY_LOG_SHOW` setting. -/
def showpermitted_of (filter : Option String) : Bool :=
  match filter with
  | none => true
  | some f => if f = "permittedonly" then true
              else if f = "blockedonly" then false
              else if f = "nothing" then false
              else true

/-- One iteration of the first loop of `getTopDomains`: `temparray[domainID]` is
`(domainID, score)` for a present domain and keeps its indeterminate initial
contents for an absent one. -/
def getTopDomains_slot (S : Snapshot) (P : Platform) (blocked : Bool) (domainID : Nat) :
    TempRow :=
  match getDomain S domainID with
  | none => P.stack domainID
  | some domain =>
    ((domainID : Int),
      if blocked then domain.blockedcount else domain.count - domain.blockedcount)

/-- First loop of `getTopDomains`: the contents of `temparray` before sorting. -/
def getTopDomains_temparray (S : Snapshot) (P : Platform) (blocked : Bool) : List TempRow :=
  (List.range S.domains.length).map (getTopDomains_slot S P blocked)

/-- Body of the emission loop of `getTopDomains`. -/
def getTopDomains_body (S : Snapshot) (P : Platform) (istelnet blocked audit : Bool)
    (showblocked showpermitted : Bool) (excludedomains : Option (List String))
    (n : Int) (e : TempRow) : Step :=
  let domainID := e.1
  match getDomain S domainID with
  | none => .skip
  | some domain =>
    let name := S.getstr domain.domainpos
    if excludedBy excludedomains name then .skip
    else if audit && decide (S.in_auditlist name > 0) then .skip
    else if name = HIDDEN_DOMAIN then .skip
    else if blocked && showblocked && decide (domain.blockedcount > 0) then
      if istelnet then
        .emit [.ssend "%i %i %s\n" [.int n, .int domain.blockedcount, .str name]]
      else if !P.pack_str32 name then .abort []
      else .emit [.pack_str32 name, .pack_int32 domain.blockedcount]
    else if !blocked && showpermitted
        && decide (domain.count - domain.blockedcount > 0) then
      if istelnet then
        .emit [.ssend "%i %i %s\n"
          [.int n, .int (domain.count - domain.blockedcount), .str name]]
      else if !P.pack_str32 name then .abort []
      else .emit [.pack_str32 name, .pack_int32 (domain.count - domain.blockedcount)]
    else .pass

/-- `getTopDomains`: the `>top-domains` and `>top-ads` reports. -/
def getTopDomains (S : Snapshot) (P : Platform) (client_message : String)
    (istelnet : Bool) : Report :=
  let blocked := command client_message ">top-ads"
  if S.privacylevel ≥ PRIVACY_HIDE_DOMAINS then
    ⟨if !istelnet then [.pack_int32 0] else [], []⟩
  else
    let count : Int := (sscanf_count client_message).getD 10
    let audit := command client_message " for audit"
    let asc := command client_message " asc"
    let temparray := getTopDomains_temparray S P blocked
    let sorted := if asc then P.qsort cmpasc temparray else P.qsort cmpdesc temparray
    let showblocked := showblocked_of S.API_QUERY_LOG_SHOW
    let showpermitted := showpermitted_of S.API_QUERY_LOG_SHOW
    let excludedomains := if !audit then S.API_EXCLUDE_DOMAINS else none
    ⟨if !istelnet then
        [.pack_int32 (if blocked then S.blocked_queries else (S.queries.length : Int))]
      else [],
     topLoop (getTopDomains_body S P istelnet blocked audit showblocked showpermitted
       excludedomains) count sorted 0⟩

/-- One iteration of the first loop of `getTopClients`: an absent client and a
client managed by an alias-client get id `-1` (the score keeps its indeterminate
initial contents); every other client gets `(clientID, score)`. -/
def getTopClients_slot (S : Snapshot) (P : Platform) (blockedonly : Bool) (clientID : Nat) :
    TempRow :=
  match getClient S clientID with
  | none => (-1, (P.stack clientID).2)
  | some client =>
    if !client.aliasclient && decide (client.aliasclient_id ≥ 0) then
      (-1, (P.stack clientID).2)
    else
      ((clientID : Int), if blockedonly then client.blockedcount else client.count)

/-- First loop of `getTopClients`: the contents of `temparray` before sorting. -/
def getTopClients_temparray (S : Snapshot) (P : Platform) (blockedonly : Bool) :
    List TempRow :=
  (List.range S.clients.length).map (getTopClients_slot S P blockedonly)

/-- Body of the emission loop of `getTopClients`. -/
def getTopClients_body (S : Snapshot) (P : Platform) (istelnet includezeroclients : Bool)
    (excludeclients : Option (List String)) (n : Int) (e : TempRow) : Step :=
  let clientID := e.1
  let ccount := e.2
  if clientID < 0 then .skip
  else
    match getClient S clientID with
    | none => .skip
    | some client =>
      let client_ip := S.getstr client.ippos
      let client_name := S.getstr client.namepos
      if excludedBy excludeclients client_ip || excludedBy excludeclients client_name
      then .skip
      else if client_ip = HIDDEN_CLIENT then .skip
      else if includezeroclients || decide (ccount > 0) then
        if istelnet then
          .emit [.ssend "%i %i %s %s\n"
            [.int n, .int ccount, .str client_ip, .str client_name]]
        else if !P.pack_str32 "" then .abort []
        else if !P.pack_str32 client_ip then .abort [.pack_str32 ""]
        else .emit [.pack_str32 "", .pack_str32 client_ip, .pack_int32 ccount]
      else .pass

/-- `getTopClients`: the `>top-clients` report. -/
def getTopClients (S : Snapshot) (P : Platform) (client_message : String)
    (istelnet : Bool) : Report :=
  if S.privacylevel ≥ PRIVACY_HIDE_DOMAINS_CLIENTS then
    ⟨if !istelnet then [.pack_int32 0] else [], []⟩
  else
    let count : Int := (sscanf_count client_message).getD 10
    let includezeroclients := command client_message " withzero"
    let blockedonly := command client_message " blocked"
    let temparray := getTopClients_temparray S P blockedonly
    let asc := command client_message " asc"
    let sorted := if asc then P.qsort cmpasc temparray else P.qsort cmpdesc temparray
    let excludeclients := S.API_EXCLUDE_CLIENTS
    ⟨if !istelnet then [.pack_int32 (S.queries.length : Int)] else [],
     topLoop (getTopClients_body S P istelnet includezeroclients excludeclients)
       count sorted 0⟩

/-! ## Display strings of a query -/

/-- Modelled from the spec: `getDomainString` of `datastructure.c` (missing), the
domain display string of a query, subject to the privacy level recorded in the query
itself: the "hidden" placeholder from HIDE_DOMAINS on, otherwise the interned name
of the query's domain; absent when the domain record is. -/
def getDomainString (S : Snapshot) (query : queriesData) : Option String :=
  if query.privacylevel < PRIVACY_HIDE_DOMAINS then
    (getDomain S query.domainID).map fun domain => S.getstr domain.domainpos
  else some HIDDEN_DOMAIN

/-- Modelled from the spec: `getCNAMEDomainString` of `datastructure.c` (missing),
the display string of the CNAME-target domain, subject to the query's own privacy
level like `getDomainString`; an absent record displays as the empty string. -/
def getCNAMEDomainString (S : Snapshot) (query : queriesData) : String :=
  if query.privacylevel < PRIVACY_HIDE_DOMAINS then
    match getDomain S query.CNAME_domainID with
    | some domain => S.getstr domain.domainpos
    | none => ""
  else HIDDEN_DOMAIN

/-- Modelled from the spec: `getClientIPString` of `datastructure.c` (missing), the
client display string (address), subject to the query's own privacy level: the
placeholder from HIDE_DOMAINS_CLIENTS on. -/
def getClientIPString (S : Snapshot) (query : queriesData) : String :=
  if query.privacylevel < PRIVACY_HIDE_DOMAINS_CLIENTS then
    match getClient S query.clientID with
    | some client => S.getstr client.ippos
    | none => ""
  else HIDDEN_CLIENT

/-- Modelled from the spec: `getClientNameString` of `datastructure.c` (missing),
the client display string (host name), subject to the query's own privacy level:
the placeholder from HIDE_DOMAINS_CLIENTS on. -/
def getClientNameString (S : Snapshot) (query : queriesData) : String :=
  if query.privacylevel < PRIVACY_HIDE_DOMAINS_CLIENTS then
    match getClient S query.clientID with
    | some client => S.getstr client.namepos
    | none => ""
  else HIDDEN_CLIENT

/-- A `pack_str32` call whose result is not looked at: the string is written when the
encoder accepts it and nothing is written otherwise. -/
def packStr32 (P : Platform) (s : String) : List Out :=
  if P.pack_str32 s then [.pack_str32 s] else []

/-! ## Most recently blocked domains -/

/-- The loop of `getRecentBlocked` over the query ids still to visit (in the order
visited), `found` being the number of rows written so far. -/
def getRecentBlocked_loop (S : Snapshot) (P : Platform) (istelnet : Bool) (num : Int) :
    List Nat → Int → List Row
  | [], _ => []
  | queryID :: rest, found =>
    match getQuery S queryID with
    | none => getRecentBlocked_loop S P istelnet num rest found
    | some query =>
      if query.blocked then
        match getDomainString S query with
        | none => getRecentBlocked_loop S P istelnet num rest found
        | some domain =>
          if istelnet then
            ⟨queryID, [.ssend "%s\n" [.str domain]], true⟩ ::
              (if found + 1 ≥ num then []
               else getRecentBlocked_loop S P istelnet num rest (found + 1))
          else if !P.pack_str32 domain then [⟨queryID, [], false⟩]
          else
            ⟨queryID, [.pack_str32 domain], true⟩ ::
              (if found + 1 ≥ num then []
               else getRecentBlocked_loop S P istelnet num rest (found + 1))
      else if found ≥ num then []
      else getRecentBlocked_loop S P istelnet num rest found

/-- `getRecentBlocked`: the `>recentBlocked` report.  The loop runs
`queryID = counters->queries - 1` down to `1` (`queryID > 0`). -/
def getRecentBlocked (S : Snapshot) (P : Platform) (client_message : String)
    (istelnet : Bool) : Report :=
  let num : Int :=
    match sscanf_count client_message with
    | some num => if num ≥ (S.queries.length : Int) then 0 else num
    | none => 1
  ⟨[], getRecentBlocked_loop S P istelnet num
    ((List.range S.queries.length).reverse.filter fun queryID => decide (queryID > 0)) 0⟩

/-! ## Per-client reports -/

/-- Index of the first element from position `slot` on that satisfies `p`. -/
def firstSlot {α : Type} (p : α → Bool) : List α → Nat → Option Nat
  | [], _ => none
  | x :: xs, slot => if p x then some slot else firstSlot p xs (slot + 1)

/-- The `skipclient` array of `getClientsOverTime` and `getClientNames`: all false
when no exclusion list is configured. -/
def skipclient (S : Snapshot) (clientID : Nat) : Bool :=
  match S.API_EXCLUDE_CLIENTS with
  | none => false
  | some arr =>
    match getClient S clientID with
    | none => false
    | some client =>
      insetupVarsArray arr (S.getstr client.ippos) ||
      insetupVarsArray arr (S.getstr client.namepos) ||
      (!client.aliasclient && decide (client.aliasclient_id > -1))

/-- The clients a per-client report loops over and does not `continue` on. -/
def shownClients (S : Snapshot) : List (Nat × clientsData) :=
  (List.range S.clients.length).filterMap fun (clientID : Nat) =>
    if skipclient S clientID then none
    else
      match getClient S clientID with
      | none => none
      | some client =>
        if client.aliasclient_id ≥ 0 then none
        else if client.count = 0 then none
        else some (clientID, client)

/-- `getClientsOverTime`: the `>ClientsoverTime` report, one row per slot. -/
def getClientsOverTime (S : Snapshot) (P : Platform) (istelnet : Bool) : Report :=
  if S.privacylevel ≥ PRIVACY_HIDE_DOMAINS_CLIENTS then ⟨[], []⟩
  else
    let t0 : Int := (S.overTime.head?.map overTimeData.timestamp).getD 0
    match firstSlot (fun o => (decide (o.total > 0) || decide (o.blocked > 0))
        && decide (o.timestamp ≥ t0)) S.overTime 0 with
    | none => ⟨[], []⟩
    | some sendit =>
      let until_ : Nat :=
        (firstSlot (fun o => decide (o.timestamp ≥ P.time)) S.overTime 0).getD
          S.overTime.length
      ⟨[], (List.range' sendit (until_ - sendit)).map fun (slot : Nat) =>
        let timestamp : Int := ((S.overTime.get? slot).map overTimeData.timestamp).getD 0
        let counts : List Int :=
          (shownClients S).map fun c => c.2.overTime.getD slot 0
        if istelnet then
          ⟨slot, [Out.ssend "%lli" [.int timestamp]]
            ++ counts.map (fun thisclient => Out.ssend " %i" [.int thisclient])
            ++ [Out.ssend "\n" []], true⟩
        else
          ⟨slot, [Out.pack_int32 (toInt32 timestamp)]
            ++ counts.map (fun thisclient => Out.pack_int32 thisclient)
            ++ [Out.pack_int32 (-1)], true⟩⟩

/-- `getClientNames`: the `>client-names` report, one row per shown client. -/
def getClientNames (S : Snapshot) (P : Platform) (istelnet : Bool) : Report :=
  if S.privacylevel ≥ PRIVACY_HIDE_DOMAINS_CLIENTS then ⟨[], []⟩
  else
    ⟨[], (shownClients S).map fun c =>
      let client_ip := S.getstr c.2.ippos
      let client_name := S.getstr c.2.namepos
      if istelnet then ⟨c.1, [.ssend "%s %s\n" [.str client_name, .str client_ip]], true⟩
      else ⟨c.1, packStr32 P client_name ++ packStr32 P client_ip, true⟩⟩

/-! ## Unknown queries -/

/-- Body of the loop of `getUnknownQueries`. -/
def getUnknownQueries_body (S : Snapshot) (P : Platform) (istelnet : Bool)
    (queryID : Nat) : Step :=
  match getQuery S queryID with
  | none => .skip
  | some query =>
    if query.status ≠ QUERY_UNKNOWN && query.complete then .skip
    else
      let type : String := if query.type = TYPE_A then "IPv4" else "IPv6"
      match getDomain S query.domainID, getClient S query.clientID with
      | some domain, some client =>
        let clientIP := S.getstr client.ippos
        if istelnet then
          .emit [.ssend "%lli %i %i %s %s %s %i %s\n"
            [.int query.timestamp, .int queryID, .int query.id, .str type,
             .str (S.getstr domain.domainpos), .str clientIP, .int query.status,
             .str (if query.complete then "true" else "false")]]
        else if !P.pack_fixstr type then
          .abort [.pack_int32 (toInt32 query.timestamp), .pack_int32 query.id]
        else if !P.pack_str32 (S.getstr domain.domainpos) then
          .abort [.pack_int32 (toInt32 query.timestamp), .pack_int32 query.id,
            .pack_fixstr type]
        else if !P.pack_str32 clientIP then
          .abort [.pack_int32 (toInt32 query.timestamp), .pack_int32 query.id,
            .pack_fixstr type, .pack_str32 (S.getstr domain.domainpos)]
        else
          .emit [.pack_int32 (toInt32 query.timestamp), .pack_int32 query.id,
            .pack_fixstr type, .pack_str32 (S.getstr domain.domainpos), .pack_str32 clientIP,
            .pack_uint8 query.status, .pack_bool query.complete]
      | _, _ => .skip

/-- A loop over query ids whose body either continues, writes a row, or leaves the
loop after an encoder failure. -/
def queryLoop (body : Nat → Step) : List Nat → List Row
  | [] => []
  | queryID :: rest =>
    match body queryID with
    | .skip => queryLoop body rest
    | .pass => queryLoop body rest
    | .emit out => ⟨queryID, out, true⟩ :: queryLoop body rest
    | .abort out => [⟨queryID, out, false⟩]

/-- `getUnknownQueries`: the `>unknown` report. -/
def getUnknownQueries (S : Snapshot) (P : Platform) (istelnet : Bool) : Report :=
  if S.privacylevel ≥ PRIVACY_HIDE_DOMAINS then ⟨[], []⟩
  else ⟨[], queryLoop (getUnknownQueries_body S P istelnet) (List.range S.queries.length)⟩

/-! ## Query-log replay -/

/-- Literal characters of a `sscanf` format matched against the input. -/
def matchLit : List Char → List Char → Option (List Char)
  | [], s => some s
  | _ :: _, [] => none
  | f :: fs, c :: cs => if f = c then matchLit fs cs else none

/-- `sscanf(client_message, ">getallqueries-time %i %i", &from, &until)`: the values
of `from` and `until` afterwards (both start as 0). -/
def sscanf_time (client_message : String) : Int × Int :=
  match matchLit ">getallqueries-time".data client_message.data with
  | none => (0, 0)
  | some r =>
    match scan_i r with
    | none => (0, 0)
    | some (from_, r2) =>
      match scan_i r2 with
      | none => (from_, 0)
      | some (until_, _) => (from_, until_)

/-- `sscanf(client_message, ">getallqueries-qtype %u", &qtype)`: the value of `qtype`
afterwards (it starts as 0). -/
def sscanf_qtype (client_message : String) : Int :=
  match matchLit ">getallqueries-qtype".data client_message.data with
  | none => 0
  | some r =>
    match scan_u r with
    | none => 0
    | some (qtype, _) => qtype

/-- `sscanf(client_message, "<verb> %255s", buffer)` into a zeroed buffer: the
string in the buffer afterwards. -/
def sscanf_s (verb : String) (client_message : String) : String :=
  match matchLit verb.data client_message.data with
  | none => ""
  | some r => String.mk (((skipSpace r).takeWhile fun c => !isspace c).take 255)

/-- `sscanf(forwarddest, "%46[^#]#%u", serv_addr, &serv_port)` followed by
`serv_addr[INET6_ADDRSTRLEN-1] = 0`: address and port afterwards (the port starts
as 53, the address as the empty string). -/
def sscanf_forward (forwarddest : String) : String × Int :=
  let addr := (forwarddest.data.takeWhile fun c => c != '#').take 46
  if addr.isEmpty then ("", 53)
  else
    match forwarddest.data.drop addr.length with
    | '#' :: r =>
      match scan_u r with
      | some (serv_port, _) => (String.mk (addr.take 45), serv_port)
      | none => (String.mk (addr.take 45), 53)
    | _ => (String.mk (addr.take 45), 53)

/-- libc `strcasecmp(a, b) == 0`. -/
def strcasecmp_eq (a b : String) : Bool :=
  a.data.map Char.toLower = b.data.map Char.toLower

/-- Modelled from the spec: `get_aliasclient_list` of `database/aliasclients.c`
(missing), the group of an alias-client aggregate: the list of standalone client
ids whose alias linkage points to the aggregate. -/
def get_aliasclient_list (S : Snapshot) (aliasclientID : Int) : List Int :=
  (List.range S.clients.length).filterMap fun (i : Nat) =>
    match getClient S i with
    | none => none
    | some other_client =>
      if !other_client.aliasclient && decide (other_client.aliasclient_id = aliasclientID)
      then some (i : Int) else none

/-- The local variables of `getAllQueries` that its main loop reads. -/
structure ReplayFilter where
  from_ : Int
  until_ : Int
  showpermitted : Bool
  showblocked : Bool
  filterdomainname : Bool
  domainid : Int
  filterclientname : Bool
  clientid : Int
  clientid_list : Option (List Int)
  querytype : Int
  filterforwarddest : Bool
  forwarddestid : Int
  ibeg : Int
  deriving DecidableEq, Repr

/-- Forward destination of `>getallqueries-forward`: `-1` for "cache", `-2` for
"blocklist", otherwise the first matching upstream, `-3` when there is none. -/
def resolveForward (S : Snapshot) (forwarddest : String) : Int :=
  if forwarddest = "cache" then -1
  else if forwarddest = "blocklist" then -2
  else
    let (serv_addr, serv_port) := sscanf_forward forwarddest
    match firstSlot (fun (o : Option upstreamsData) =>
        match o with
        | none => false
        | some forward =>
          (S.getstr forward.ippos = serv_addr ||
            (forward.namepos != 0 && strcasecmp_eq (S.getstr forward.namepos) serv_addr))
          && forward.port = serv_port) S.upstreams 0 with
    | some i => (i : Int)
    | none => -3

/-- Domain of `>getallqueries-domain`: the first present domain with that name,
`-1` when there is none. -/
def resolveDomain (S : Snapshot) (domainname : String) : Int :=
  match firstSlot (fun (o : Option domainsData) =>
      match o with
      | none => false
      | some domain => S.getstr domain.domainpos = domainname) S.domains 0 with
  | some domainID => (domainID : Int)
  | none => -1

/-- Client of `>getallqueries-client`: the first client that is present, has no
alias linkage and matches the requested string, `-1` when there is none. -/
def resolveClient (S : Snapshot) (clientname : String) : Int :=
  match firstSlot (fun (o : Option clientsData) =>
      match o with
      | none => false
      | some client =>
        !decide (client.aliasclient_id ≥ 0) &&
        (S.getstr client.ippos = clientname ||
          (client.namepos != 0 && strcasecmp_eq (S.getstr client.namepos) clientname)))
      S.clients 0 with
  | some i => (i : Int)
  | none => -1

/-- The part of `getAllQueries` between the privacy test and the main loop: `none`
when the function returns early. -/
def getAllQueries_filter (S : Snapshot) (client_message : String) : Option ReplayFilter :=
  let tm : Int × Int :=
    if command client_message ">getallqueries-time" then sscanf_time client_message
    else (0, 0)
  let qtype : Int := sscanf_qtype client_message
  if command client_message ">getallqueries-qtype" ∧ (qtype < TYPE_A ∨ qtype ≥ TYPE_MAX) then none
  else
    let querytype : Int :=
      if command client_message ">getallqueries-qtype" then qtype else 0
    let filterforwarddest := command client_message ">getallqueries-forward"
    let forwarddestid : Int :=
      if filterforwarddest then
        resolveForward S (sscanf_s ">getallqueries-forward" client_message)
      else 0
    if filterforwarddest ∧ forwarddestid = -3 then none
    else
      let filterdomainname := command client_message ">getallqueries-domain"
      let domainid : Int :=
        if filterdomainname then
          resolveDomain S (sscanf_s ">getallqueries-domain" client_message)
        else -1
      if filterdomainname ∧ domainid < 0 then none
      else
        let filterclientname := command client_message ">getallqueries-client"
        let clientblocked := filterclientname
          && command client_message ">getallqueries-client-blocked"
        let clientid : Int :=
          if filterclientname then
            resolveClient S
              (if clientblocked then sscanf_s ">getallqueries-client-blocked" client_message
               else sscanf_s ">getallqueries-client" client_message)
          else -1
        if filterclientname ∧ clientid = -1 then none
        else
          let clientid_list : Option (List Int) :=
            if filterclientname then
              match getClient S clientid with
              | some client =>
                if client.aliasclient then some (get_aliasclient_list S clientid) else none
              | none => none
            else none
          let ibeg : Int :=
            match sscanf_count client_message with
            | some num =>
              if toInt32 ((S.queries.length : Int) - num) < 0 then 0
              else toInt32 ((S.queries.length : Int) - num)
            | none => 0
          some { from_ := tm.1, until_ := tm.2,
                 showpermitted := !clientblocked && showpermitted_of S.API_QUERY_LOG_SHOW,
                 showblocked := showblocked_of S.API_QUERY_LOG_SHOW,
                 filterdomainname := filterdomainname, domainid := domainid,
                 filterclientname := filterclientname, clientid := clientid,
                 clientid_list := clientid_list, querytype := querytype,
                 filterforwarddest := filterforwarddest, forwarddestid := forwarddestid,
                 ibeg := ibeg }

/-- The query type label of a replayed entry. -/
def qtypeLabel (P : Platform) (query : queriesData) : String :=
  if query.type = TYPE_OTHER then
    match P.querystr query.qtype with
    | none => "TYPE" ++ toString query.qtype
    | some s => if strstr s.data "type=".data then "TYPE" ++ toString query.qtype else s
  else P.querytypes query.type

/-- The filter tests of the main loop of `getAllQueries`: true when the entry is
skipped by one of them. -/
def getAllQueries_skip (F : ReplayFilter) (query : queriesData) : Bool :=
  if query.status = QUERY_UNKNOWN && !(F.showpermitted && F.showblocked) then true
  else if query.blocked && !F.showblocked then true
  else if !query.blocked && !F.showpermitted then true
  else if (decide (F.from_ > query.timestamp) && F.from_ != 0)
      || (decide (query.timestamp > F.until_) && F.until_ != 0) then true
  else if F.filterdomainname
      && !(query.domainID = F.domainid || query.CNAME_domainID = F.domainid) then true
  else if F.filterclientname
      && (match F.clientid_list with
          | none => query.clientID != F.clientid
          | some list => !list.contains query.clientID) then true
  else if F.querytype != 0 && F.querytype != query.type then true
  else if F.filterforwarddest
      && (if F.forwarddestid = -2 && !query.blocked then true
          else if F.forwarddestid = -1 && query.status != QUERY_CACHE then true
          else if decide (F.forwarddestid ≥ 0) && F.forwarddestid != query.upstreamID then true
          else false) then true
  else false

/-- Body of the main loop of `getAllQueries`. -/
def getAllQueries_body (S : Snapshot) (P : Platform) (istelnet : Bool) (F : ReplayFilter)
    (queryID : Nat) : Step :=
  match getQuery S queryID with
  | none => .skip
  | some query =>
    if query.privacylevel ≥ PRIVACY_MAXIMUM then .skip
    else if query.type ≥ TYPE_MAX then .skip
    else
      let qtype := qtypeLabel P query
      if getAllQueries_skip F query then .skip
      else
        match getDomainString S query, getClient S query.clientID with
        | some domain, some client =>
          let clientIPName :=
            if (S.getstr client.namepos).length > 0 then getClientNameString S query
            else getClientIPString S query
          let delay0 : Int := if query.response_calculated then query.response else 0
          let CNAME_domain :=
            if query.CNAME_domainID > -1 then getCNAMEDomainString S query else "N/A"
          let regex_idx : Int :=
            if (query.status = QUERY_REGEX ∨ query.status = QUERY_REGEX_CNAME)
                ∧ S.privacylevel < PRIVACY_HIDE_DOMAINS then
              match S.getDNSCache (S.findCacheID query.domainID query.clientID query.type) with
              | some dns_cache => dns_cache.black_regex_idx
              | none => -1
            else -1
          let upstream : String × Int :=
            if query.upstreamID > -1 then
              match getUpstream S query.upstreamID with
              | some upstream =>
                (if upstream.namepos != 0 then S.getstr upstream.namepos
                 else S.getstr upstream.ippos, upstream.port)
              | none => ("N/A", 0)
            else ("N/A", 0)
          let reply0 : Int := if query.response_calculated then query.reply else REPLY_UNKNOWN
          let retried : Bool :=
            query.status = QUERY_RETRIED || query.status = QUERY_IN_PROGRESS
          let reply : Int := if retried then REPLY_UNKNOWN else reply0
          let delay : Int := if retried then 0 else delay0
          if istelnet then
            .emit ([Out.ssend "%lli %s %s %s %i %i %i %lu %s %i %s#%u \"%s\""
                [.int query.timestamp, .str qtype, .str domain, .str clientIPName,
                 .int query.status, .int query.dnssec, .int reply, .int delay,
                 .str CNAME_domain, .int regex_idx, .str upstream.1, .int upstream.2,
                 .str (if query.ede = -1 then "" else P.get_edestr query.ede)]]
              ++ (if S.debug_api then [Out.ssend " \"%i\"" [.int queryID]] else [])
              ++ [Out.ssend "\n" []])
          else if !P.pack_fixstr qtype then
            .abort [.pack_int32 (toInt32 query.timestamp)]
          else if !P.pack_str32 domain then
            .abort [.pack_int32 (toInt32 query.timestamp), .pack_fixstr qtype]
          else if !P.pack_str32 clientIPName then
            .abort [.pack_int32 (toInt32 query.timestamp), .pack_fixstr qtype,
              .pack_str32 domain]
          else
            .emit [.pack_int32 (toInt32 query.timestamp), .pack_fixstr qtype,
              .pack_str32 domain, .pack_str32 clientIPName,
              .pack_uint8 query.status, .pack_uint8 query.dnssec]
        | _, _ => .skip

/-- `getAllQueries`: the `>getallqueries` report and its filtered variants. -/
def getAllQueries (S : Snapshot) (P : Platform) (client_message : String)
    (istelnet : Bool) : Report :=
  if S.privacylevel ≥ PRIVACY_MAXIMUM then ⟨[], []⟩
  else
    match getAllQueries_filter S client_message with
    | none => ⟨[], []⟩
    | some F =>
      ⟨[], queryLoop (getAllQueries_body S P istelnet F)
        (List.range' F.ibeg.toNat (S.queries.length - F.ibeg.toNat))⟩

/-! ## Queries over time -/

/-- The slot `overTime[slot]`. -/
def overTimeAt (S : Snapshot) (slot : Nat) : overTimeData :=
  S.overTime.getD slot ⟨0, 0, 0⟩

/-- The conversion `(uint16_t)` of an `int`. -/
def toUInt16 (v : Int) : Int :=
  v % 2 ^ 16

/-- `getOverTime`: the `>overTime` report.  The result is the list of tables
written: none when `found` stays false, one table of lines in line mode, and in
binary mode the two maps (domains over time, ads over time), each with its
`pack_map16_start` header.  `OVERTIME_SLOTS` is the length of `overTime`. -/
def getOverTime (S : Snapshot) (P : Platform) (istelnet : Bool) : List Report :=
  let mintime : Int := (S.overTime.head?.map overTimeData.timestamp).getD 0
  let until_ : Nat :=
    (firstSlot (fun o => decide (o.timestamp ≥ P.time)) S.overTime 0).getD S.overTime.length
  match firstSlot (fun o => (decide (o.total > 0) || decide (o.blocked > 0))
      && decide (o.timestamp ≥ mintime)) S.overTime 0 with
  | none => []
  | some from_ =>
    let slots := List.range' from_ (until_ - from_)
    if istelnet then
      [⟨[], slots.map fun (slot : Nat) =>
        ⟨slot, [.ssend "%lli %i %i\n"
          [.int (overTimeAt S slot).timestamp, .int (overTimeAt S slot).total,
           .int (overTimeAt S slot).blocked]], true⟩⟩]
    else
      [⟨[.pack_map16_start (toUInt16 ((until_ : Int) - (from_ : Int)))],
          slots.map fun (slot : Nat) =>
            ⟨slot, [.pack_int32 (toInt32 (overTimeAt S slot).timestamp),
              .pack_int32 (overTimeAt S slot).total], true⟩⟩,
       ⟨[.pack_map16_start (toUInt16 ((until_ : Int) - (from_ : Int)))],
          slots.map fun (slot : Nat) =>
            ⟨slot, [.pack_int32 (toInt32 (overTimeAt S slot).timestamp),
              .pack_int32 (overTimeAt S slot).blocked], true⟩⟩]

/-! ## Upstream destinations -/

/-- The `float` variable `percentage` of `getUpstreamDestinations`: its initial value
`0.0f`, or the value of `1e2f * count / totalqueries`, kept as its two `int`
operands. -/
inductive Percentage where
  | zero
  | of (count totalqueries : Int)
  deriving DecidableEq, Repr

/-- The test `percentage > 0.0f`: the quotient of two `int` operands is positive
exactly when both are positive or both are negative (for 32-bit operands the `float`
quotient of nonzero operands does not underflow to zero). -/
def Percentage.positive : Percentage → Bool
  | .zero => false
  | .of count totalqueries =>
    (decide (count > 0) && decide (totalqueries > 0))
      || (decide (count < 0) && decide (totalqueries < 0))

/-- One variadic argument of an `ssend` call of `getUpstreamDestinations`: an integer
or string argument, or the `float` argument. -/
inductive DestArg where
  | arg (a : Arg)
  | float (percentage : Percentage)
  deriving DecidableEq, Repr

/-- One write of `getUpstreamDestinations` to the socket. -/
inductive DestOut where
  | ssend (fmt : String) (args : List DestArg)
  | pack_str32 (s : String)
  | pack_float (percentage : Percentage)
  deriving DecidableEq, Repr

/-- The writes of one iteration of the loop of `getUpstreamDestinations`.  `id` is -2
for the blocklist row, -1 for the cache row and the upstream id `temparray[i][0]` for
any other row; `complete` is false when an encoder failure ended the report inside
this iteration. -/
structure DestRow where
  id : Int
  out : List DestOut
  complete : Bool
  deriving DecidableEq, Repr

/-- How one iteration of the loop of `getUpstreamDestinations` ends: nothing written
(`continue`, or the row is not sent), a row written in full, or a `return` after an
encoder failure (with what had been written before it). -/
inductive DestStep where
  | skip
  | emit (id : Int) (out : List DestOut)
  | abort (id : Int) (out : List DestOut)
  deriving DecidableEq, Repr

/-- The rows of an iteration followed by the rows of the rest of the loop. -/
def DestStep.andThen (step : DestStep) (rest : List DestRow) : List DestRow :=
  match step with
  | .skip => rest
  | .emit id out => ⟨id, out, true⟩ :: rest
  | .abort id out => [⟨id, out, false⟩]

/-- The sum `count` of the per-slot counts `upstream->overTime[i]` of an upstream. -/
def upstreamCount (upstream : upstreamsData) : Int :=
  upstream.overTime.foldl (fun count v => count + v) 0

/-- One iteration of the first loop of `getUpstreamDestinations`: `temparray[upstreamID]`
is `(upstreamID, count)` for a present upstream and keeps its indeterminate initial
contents for an absent one. -/
def getUpstreamDestinations_slot (S : Snapshot) (P : Platform) (upstreamID : Nat) : TempRow :=
  match getUpstream S upstreamID with
  | none => P.stack upstreamID
  | some upstream => ((upstreamID : Int), upstreamCount upstream)

/-- First loop of `getUpstreamDestinations`: the contents of `temparray` before
sorting. -/
def getUpstreamDestinations_temparray (S : Snapshot) (P : Platform) : List TempRow :=
  (List.range S.upstreams.length).map (getUpstreamDestinations_slot S P)

/-- First loop of `getUpstreamDestinations`: `totalcount`, the sum of the counts of the
present upstreams. -/
def getUpstreamDestinations_totalcount (S : Snapshot) : Int :=
  (List.range S.upstreams.length).foldl (fun totalcount (upstreamID : Nat) =>
    match getUpstream S upstreamID with
    | none => totalcount
    | some upstream => totalcount + upstreamCount upstream) 0

/-- The end of an iteration of the loop of `getUpstreamDestinations`, from "Send data"
on: the row of index `i` with the values `percentage`, `ip`, `name` and
`upstream_port`. -/
def getUpstreamDestinations_send (P : Platform) (istelnet : Bool) (i id : Int)
    (percentage : Percentage) (ip name : String) (upstream_port : Int) : DestStep :=
  if percentage.positive || decide (i < 0) then
    if istelnet then
      if upstream_port != 0 then
        .emit id [.ssend "%i %.2f %s#%u %s#%u\n"
          [.arg (.int i), .float percentage, .arg (.str ip), .arg (.int upstream_port),
           .arg (.str name), .arg (.int upstream_port)]]
      else
        .emit id [.ssend "%i %.2f %s %s\n"
          [.arg (.int i), .float percentage, .arg (.str ip), .arg (.str name)]]
    else if !P.pack_str32 name then .abort id []
    else if !P.pack_str32 ip then .abort id [.pack_str32 name]
    else .emit id [.pack_str32 name, .pack_str32 ip, .pack_float percentage]
  else .skip

/-- Body of the loop of `getUpstreamDestinations` for an index `i ≥ 0`, `e` being
`temparray[i]`. -/
def getUpstreamDestinations_body (S : Snapshot) (P : Platform) (istelnet : Bool)
    (totalqueries : Int) (i : Nat) (e : TempRow) : DestStep :=
  let upstreamID := e.1
  let count := e.2
  match getUpstream S upstreamID with
  | none => .skip
  | some upstream =>
    let ip := S.getstr upstream.ippos
    let name := if upstream.namepos != 0 then S.getstr upstream.namepos
      else S.getstr upstream.ippos
    getUpstreamDestinations_send P istelnet (i : Int) upstreamID
      (if totalqueries > 0 then .of count totalqueries else .zero) ip name upstream.port

/-- The iterations `i = 0, 1, ...` of the loop of `getUpstreamDestinations` over the
elements of `temparray` still to visit. -/
def destinationsLoop (body : Nat → TempRow → DestStep) : List TempRow → Nat → List DestRow
  | [], _ => []
  | e :: rest, i => (body i e).andThen (destinationsLoop body rest (i + 1))

/-- `getUpstreamDestinations`: the `>forward-dest` report.  `cached_queries` is the
value of `cached_queries()` and `Snapshot.blocked_queries` that of `blocked_queries()`
(both outside this file); the `int` additions are taken without wrap-around.  The
loop runs `i = -2` (blocklist), `i = -1` (cache), then `i = 0` up to
`min(counters->upstreams, 8)` over the (sorted) `temparray`. -/
def getUpstreamDestinations (S : Snapshot) (P : Platform) (cached_queries : Int)
    (client_message : String) (istelnet : Bool) : List DestRow :=
  let sort := !command client_message "unsorted"
  let temparray := getUpstreamDestinations_temparray S P
  let totalcount := getUpstreamDestinations_totalcount S
  let sorted := if sort then P.qsort cmpdesc temparray else temparray
  let totalqueries := totalcount + cached_queries + S.blocked_queries
  (getUpstreamDestinations_send P istelnet (-2) (-2)
      (if totalqueries > 0 then .of S.blocked_queries totalqueries else .zero)
      "blocklist" "blocklist" 0).andThen
    ((getUpstreamDestinations_send P istelnet (-1) (-1)
        (if totalqueries > 0 then .of cached_queries totalqueries else .zero)
        "cache" "cache" 0).andThen
      (destinationsLoop (getUpstreamDestinations_body S P istelnet totalqueries)
        (sorted.take (min S.upstreams.length 8)) 0))


/-! ## Notions used to state the properties of the reports -/

/-- Whether an iteration wrote a full row. -/
def Step.isEmit : Step → Bool
  | .emit _ => true
  | _ => false

/-- Whether an iteration ended the report on an encoder failure. -/
def Step.isAbort : Step → Bool
  | .abort _ => true
  | _ => false

/-- The strings carried by one write. -/
def Out.strings : Out → List String
  | .ssend _ args => args.filterMap fun a =>
      match a with
      | .str s => some s
      | .int _ => none
  | .pack_fixstr s => [s]
  | .pack_str32 s => [s]
  | _ => []

/-- The integers carried by one write. -/
def Out.ints : Out → List Int
  | .ssend _ args => args.filterMap fun a =>
      match a with
      | .int v => some v
      | .str _ => none
  | .pack_int32 v => [v]
  | .pack_uint8 v => [v]
  | .pack_map16_start v => [v]
  | _ => []

/-- The score a ranking report attaches to a domain: its blocked count for
`>top-ads`, its count of permitted queries for `>top-domains`. -/
def domainScore (blocked : Bool) (domain : domainsData) : Int :=
  if blocked then domain.blockedcount else domain.count - domain.blockedcount

/-- Eligibility of a domain for a ranking row, in the words of the specification:
the record is present, not excluded, not hidden, and its score is positive.  With
the "for audit" modifier the exclusion is the audit list instead of the configured
exclusion set. -/
def eligibleDomain (S : Snapshot) (blocked audit : Bool) (domainID : Int) : Bool :=
  match getDomain S domainID with
  | none => false
  | some domain =>
    let name := S.getstr domain.domainpos
    let excluded : Bool :=
      if audit then decide (S.in_auditlist name > 0)
      else excludedBy S.API_EXCLUDE_DOMAINS name
    !excluded && name != HIDDEN_DOMAIN && decide (domainScore blocked domain > 0)

/-- The ids of the eligible domains, in increasing order. -/
def eligibleDomains (S : Snapshot) (blocked audit : Bool) : List Nat :=
  (List.range S.domains.length).filter fun (i : Nat) => eligibleDomain S blocked audit i

/-- The score a ranking report attaches to a client. -/
def clientScore (blockedonly : Bool) (client : clientsData) : Int :=
  if blockedonly then client.blockedcount else client.count

/-- Whether a client is a member of an alias-client: not itself an aggregate and
with an alias linkage id of at least 0. -/
def isAliasMember (client : clientsData) : Bool :=
  !client.aliasclient && decide (client.aliasclient_id ≥ 0)

/-- Whether a client is excluded by the configured client exclusion set (by address
or by name). -/
def clientExcluded (S : Snapshot) (client : clientsData) : Bool :=
  excludedBy S.API_EXCLUDE_CLIENTS (S.getstr client.ippos)
    || excludedBy S.API_EXCLUDE_CLIENTS (S.getstr client.namepos)

/-- Eligibility of a client for a ranking row, in the words of the specification:
the record is present, not an alias member, not excluded, not hidden, and passes the
score test (any score with "withzero"). -/
def eligibleClient (S : Snapshot) (blockedonly withzero : Bool) (clientID : Int) : Bool :=
  match getClient S clientID with
  | none => false
  | some client =>
    !isAliasMember client && !clientExcluded S client
      && S.getstr client.ippos != HIDDEN_CLIENT
      && (withzero || decide (clientScore blockedonly client > 0))

/-- The ids of the eligible clients, in increasing order. -/
def eligibleClients (S : Snapshot) (blockedonly withzero : Bool) : List Nat :=
  (List.range S.clients.length).filter fun (i : Nat) => eligibleClient S blockedonly withzero i

/-- The test the emission loop of `getTopClients` applies to a `temparray` element. -/
def clientRowPasses (S : Snapshot) (withzero : Bool) (e : TempRow) : Bool :=
  decide (e.1 ≥ 0) &&
    match getClient S e.1 with
    | none => false
    | some client =>
      !clientExcluded S client && S.getstr client.ippos != HIDDEN_CLIENT
        && (withzero || decide (e.2 > 0))

/-- What `getTopDomains` writes for a row, given the running row number. -/
def domainRowOut (S : Snapshot) (istelnet blocked : Bool) (n : Int) (domain : domainsData) :
    List Out :=
  if istelnet then
    [.ssend "%i %i %s\n"
      [.int n, .int (domainScore blocked domain), .str (S.getstr domain.domainpos)]]
  else [.pack_str32 (S.getstr domain.domainpos), .pack_int32 (domainScore blocked domain)]

/-- What `getTopClients` writes for a row, given the running row number and the score
read from `temparray`. -/
def clientRowOut (S : Snapshot) (istelnet : Bool) (n ccount : Int) (client : clientsData) :
    List Out :=
  if istelnet then
    [.ssend "%i %i %s %s\n"
      [.int n, .int ccount, .str (S.getstr client.ippos), .str (S.getstr client.namepos)]]
  else [.pack_str32 "", .pack_str32 (S.getstr client.ippos), .pack_int32 ccount]

/-- The score carried by a ranking row written in full: the second number of a line,
the number after the strings of a binary row. -/
def Row.score (r : Row) : Option Int :=
  match r.out with
  | [.ssend _ (.int _ :: .int score :: _)] => some score
  | [.pack_str32 _, .pack_int32 score] => some score
  | [.pack_str32 _, .pack_str32 _, .pack_int32 score] => some score
  | _ => none

/-- `i` is the first index of `l` whose element satisfies `p`. -/
def IsFirstIndex {α : Type} (p : α → Bool) (l : List α) (i : Nat) : Prop :=
  (∃ x, l.get? i = some x ∧ p x = true) ∧ ∀ j, j < i → ∀ x, l.get? j = some x → p x = false

/-- A slot with activity that is not older than slot 0: the test that fixes `from` in
`getOverTime` and `getClientsOverTime`. -/
def activeSlot (S : Snapshot) (o : overTimeData) : Bool :=
  (decide (o.total > 0) || decide (o.blocked > 0))
    && decide (o.timestamp ≥ (overTimeAt S 0).timestamp)

/-- A slot that is not yet over: the test that fixes `until`. -/
def futureSlot (P : Platform) (o : overTimeData) : Bool :=
  decide (o.timestamp ≥ P.time)

/-- The clients of a per-client series, in the words of the specification: every
present client that is not excluded, is not an alias member and has a nonzero
lifetime count (alias-client aggregates included), in increasing client id order. -/
def seriesClients (S : Snapshot) : List (Nat × clientsData) :=
  (List.range S.clients.length).filterMap fun (clientID : Nat) =>
    match getClient S clientID with
    | none => none
    | some client =>
      if !clientExcluded S client && !isAliasMember client && client.count != 0 then
        some (clientID, client)
      else none

/-- An entry shown under the blocked/permitted flags of the replay: an entry of
status "unknown" only when both kinds are shown, a blocked entry only when blocked
entries are shown, a permitted entry only when permitted entries are shown. -/
def showsEntry (F : ReplayFilter) (query : queriesData) : Prop :=
  (query.status = QUERY_UNKNOWN → F.showpermitted = true ∧ F.showblocked = true)
    ∧ (query.blocked = true → F.showblocked = true)
    ∧ (query.blocked = false → F.showpermitted = true)

/-- A timestamp inside the range `[from, until]` of the time filter, a bound of 0
meaning "unbounded on that side". -/
def inTimeRange (from_ until_ t : Int) : Prop :=
  (from_ = 0 ∨ from_ ≤ t) ∧ (until_ = 0 ∨ t ≤ until_)

/-- An entry whose domain id or CNAME-target domain id is the given target id. -/
def matchesDomain (domainid : Int) (query : queriesData) : Prop :=
  query.domainID = domainid ∨ query.CNAME_domainID = domainid

/-- An entry that passes the client test of the replay loop: with no alias list its
client id is the resolved id, with an alias list its client id is in the list. -/
def matchesClient (clientid : Int) (clientid_list : Option (List Int))
    (query : queriesData) : Prop :=
  match clientid_list with
  | none => query.clientID = clientid
  | some list => query.clientID ∈ list

/-- An entry that matches a forward destination: "blocklist" (`-2`) asks for the
blocked flag, "cache" (`-1`) for the status "answered from cache", an upstream id
for an equal upstream id. -/
def matchesForward (forwarddestid : Int) (query : queriesData) : Prop :=
  (forwarddestid = -2 → query.blocked = true)
    ∧ (forwarddestid = -1 → query.status = QUERY_CACHE)
    ∧ (0 ≤ forwarddestid → query.upstreamID = forwarddestid)

/-- A present domain record whose interned name is exactly the given name: the test
of the domain search of the replay. -/
def domainNamed (S : Snapshot) (domainname : String) (o : Option domainsData) : Bool :=
  match o with
  | none => false
  | some domain => S.getstr domain.domainpos = domainname

/-- One step of a loop compared with the same step run against an encoder that never
fails: a step that writes nothing or a full row is the same, a step that fails midway
becomes a full row that starts with the values already written. -/
def StepExtends (a b : Step) : Prop :=
  (a = .skip → b = .skip) ∧ (a = .pass → b = .pass)
    ∧ (∀ out, a = .emit out → b = .emit out)
    ∧ (∀ out, a = .abort out → ∃ t, b = .emit (out ++ t))

/-- The values carried by one write, as logical fields: the arguments of a formatted
write, the value of a binary write. -/
def Out.fields : Out → List Arg
  | .ssend _ args => args
  | .pack_int32 v => [.int v]
  | .pack_uint8 v => [.int v]
  | .pack_bool b => [.int (if b then 1 else 0)]
  | .pack_fixstr s => [.str s]
  | .pack_str32 s => [.str s]
  | .pack_map16_start n => [.int n]

/-- The logical fields of a row, in the order written. -/
def fieldsOf (out : List Out) : List Arg :=
  (out.map Out.fields).flatten

/-- The fields of a binary replay row, out of the fields of the line-mode row of the
same entry: the first six, the timestamp converted to `int32_t`. -/
def binaryFields : List Arg → List Arg
  | .int timestamp :: rest => .int (toInt32 timestamp) :: rest.take 5
  | _ => []

/-- Two runs of one loop step that agree on whether a row is written, the rows
written being related by `R`. -/
def StepPairs (R : List Out → List Out → Prop) (a b : Step) : Prop :=
  (a = .skip ∧ b = .skip) ∨ ∃ lo bo, a = .emit lo ∧ b = .emit bo ∧ R lo bo

/-- A present upstream whose address is exactly `serv_addr`, or whose host name (when
it has one) equals `serv_addr` without regard to case, and whose port is
`serv_port`. -/
def upstreamNamed (S : Snapshot) (serv_addr : String) (serv_port : Int)
    (o : Option upstreamsData) : Bool :=
  match o with
  | none => false
  | some forward =>
    (S.getstr forward.ippos = serv_addr
      || (forward.namepos != 0 && strcasecmp_eq (S.getstr forward.namepos) serv_addr))
    && forward.port = serv_port

/-- A present client that is standalone or an alias-client aggregate (not a client
aggregated under an alias-client) and whose address is exactly `clientname`, or whose
host name (when it has one) equals `clientname` without regard to case. -/
def clientNamed (S : Snapshot) (clientname : String) (o : Option clientsData) : Bool :=
  match o with
  | none => false
  | some client =>
    !isAliasMember client
      && (S.getstr client.ippos = clientname
        || (client.namepos != 0 && strcasecmp_eq (S.getstr client.namepos) clientname))

/-- A log index whose entry is present, blocked and has a domain display string. -/
def blockedWithDomain (S : Snapshot) (queryID : Nat) : Bool :=
  match getQuery S queryID with
  | none => false
  | some query => query.blocked && (getDomainString S query).isSome

/-- The share carried by a row of `getUpstreamDestinations`: its `float` value. -/
def DestRow.percentage (r : DestRow) : Option Percentage :=
  r.out.findSome? fun o =>
    match o with
    | .ssend _ args => args.findSome? fun a =>
        match a with
        | .float percentage => some percentage
        | .arg _ => none
    | .pack_float percentage => some percentage
    | .pack_str32 _ => none

/-- The summed per-slot count of the upstream a row of `getUpstreamDestinations`
stands for (0 when there is no such upstream). -/
def rowCount (S : Snapshot) (r : DestRow) : Int :=
  ((getUpstream S r.id).map upstreamCount).getD 0

/-- The total of the upstream destinations: the sum of the counts of all present
upstreams, plus the cached queries, plus the blocked queries. -/
def destinationsTotal (S : Snapshot) (cached_queries : Int) : Int :=
  ((S.upstreams.filterMap fun o => o).map upstreamCount).sum + cached_queries
    + S.blocked_queries


/-! ## Concrete tables and platforms on which the reports are run -/

/-- A platform whose `qsort` is the reference sort, whose stack holds zeros and whose
binary encoder accepts every string. -/
def refPlatform : Platform where
  qsort := qsortRef
  stack := fun _ => (0, 0)
  time := 2000
  pack_str32 := fun _ => true
  pack_fixstr := fun _ => true
  querytypes := fun type =>
    ["UNKNOWN", "A", "AAAA", "ANY", "SRV", "SOA", "PTR", "TXT", "NAPTR", "MX", "DS",
      "RRSIG", "DNSKEY", "NS", "OTHER", "SVCB", "HTTPS"].getD type.toNat "UNKNOWN"
  querystr := fun _ => none
  get_edestr := fun _ => ""

/-- The reference platform with a binary encoder that rejects every string. -/
def failingPlatform : Platform :=
  { refPlatform with pack_str32 := fun _ => false, pack_fixstr := fun _ => false }

/-- The reference platform whose stack still holds the pair `(0, 100)` in every
slot, as left behind by an earlier use of the same stack area. -/
def stalePlatform : Platform :=
  { refPlatform with stack := fun _ => (0, 100) }

/-- The interned strings of the example tables, by position. -/
def exampleStrings : List String :=
  ["", "ads.example.com", "10.0.0.5", "tracker.example.net", "10.0.0.6", "laptop-group",
    "aliasclient-0", "example.org", "8.8.8.8", "dns.google", "10.0.0.7"]

/-- A blocked query of domain 0 by client 0, recorded at privacy level SHOW_ALL. -/
def blockedQuery : queriesData where
  timestamp := 100
  type := 1
  qtype := 1
  status := 1
  domainID := 0
  CNAME_domainID := -1
  clientID := 0
  upstreamID := -2
  id := 1
  dnssec := 0
  reply := 0
  response := 0
  ede := -1
  privacylevel := 0
  blocked := true
  complete := true
  response_calculated := false

/-- The scenario of the specification: a log with one entry, domain
"ads.example.com", blocked, client "10.0.0.5". -/
def scenarioAds : Snapshot where
  privacylevel := 0
  debug_api := false
  getstr := fun pos => exampleStrings.getD pos ""
  domains := [some ⟨1, 1, 1⟩]
  clients := [some ⟨2, 0, 1, 1, false, -1, [0, 1, 0]⟩]
  upstreams := []
  queries := [some blockedQuery]
  overTime := [⟨600, 0, 0⟩, ⟨1200, 1, 1⟩, ⟨1800, 0, 0⟩]
  blocked_queries := 1
  in_auditlist := fun _ => 0
  findCacheID := fun _ _ _ => 0
  getDNSCache := fun _ => none
  API_QUERY_LOG_SHOW := none
  API_EXCLUDE_DOMAINS := none
  API_EXCLUDE_CLIENTS := none

/-- Three domain slots: "ads.example.com" blocked once, "tracker.example.net"
blocked five times, and a third slot whose record is absent. -/
def threeSlots : Snapshot :=
  { scenarioAds with
    domains := [some ⟨1, 1, 1⟩, some ⟨3, 5, 5⟩, none]
    blocked_queries := 6 }

/-- The scenario of the specification with "ads.example.com" in the configured
domain exclusion set. -/
def scenarioExcluded : Snapshot :=
  { scenarioAds with API_EXCLUDE_DOMAINS := some ["ads.example.com"] }

/-- Two eligible domains, "ads.example.com" blocked five times and
"tracker.example.net" blocked three times, and a third slot whose record is absent. -/
def twoAndAbsent : Snapshot :=
  { scenarioAds with
    domains := [some ⟨1, 5, 5⟩, some ⟨3, 3, 3⟩, none]
    blocked_queries := 8 }

/-- The scenario of the specification after the current privacy level was raised to
HIDE_DOMAINS, with a second copy of the blocked entry (recorded at SHOW_ALL) in the
log. -/
def raisedPrivacy : Snapshot :=
  { scenarioAds with
    privacylevel := 1
    queries := [some blockedQuery, some blockedQuery] }

/-- The alias scenario of the specification: client 0 is the alias-client aggregate
"laptop-group", clients 1 ("10.0.0.5") and 2 ("10.0.0.6") are aggregated under it. -/
def aliasGroup : Snapshot :=
  { scenarioAds with
    clients := [some ⟨6, 5, 3, 1, true, 0, [0, 3, 0]⟩,
                some ⟨2, 0, 2, 1, false, 0, [0, 2, 0]⟩,
                some ⟨4, 0, 1, 0, false, 0, [0, 1, 0]⟩]
    queries := [some { blockedQuery with clientID := 1 },
                some { blockedQuery with clientID := 2, blocked := false, status := 2 },
                some { blockedQuery with clientID := 1, blocked := false, status := 2 }] }

/-- A log whose first entry was recorded at privacy level MAXIMUM and whose second
entry was recorded at SHOW_ALL. -/
def mixedPrivacyLog : Snapshot :=
  { scenarioAds with
    queries := [some { blockedQuery with privacylevel := 3 }, some blockedQuery] }

/-- A query of domain 2 ("example.org") by client 1 that was answered from the
cache, recorded at SHOW_ALL. -/
def cacheQuery : queriesData :=
  { blockedQuery with
    timestamp := 200, type := 2, status := 3, domainID := 2, clientID := 1,
    upstreamID := -1, id := 2, blocked := false }

/-- A log of four entries over three domains, two clients and one upstream:
entry 0 (time 100, type A) is blocked, entry 1 (time 200, type AAAA) was answered
from the cache, entry 2 (time 300) was forwarded to upstream 0, entry 3 (time 400)
is a blocked query of "example.org" whose CNAME target is "tracker.example.net". -/
def replayLog : Snapshot :=
  { scenarioAds with
    domains := [some ⟨1, 2, 1⟩, some ⟨3, 1, 0⟩, some ⟨7, 2, 1⟩]
    clients := [some ⟨2, 0, 2, 1, false, -1, [0, 2, 0]⟩,
                some ⟨4, 0, 2, 1, false, -1, [0, 2, 0]⟩]
    upstreams := [some ⟨8, 9, 53, [0, 1, 0]⟩]
    queries := [some blockedQuery, some cacheQuery,
                some { blockedQuery with
                  timestamp := 300, status := 2, domainID := 1, upstreamID := 0, id := 3,
                  blocked := false },
                some { blockedQuery with
                  timestamp := 400, status := 9, domainID := 2, CNAME_domainID := 1,
                  clientID := 1, id := 4 }]
    blocked_queries := 2 }

/-- A log with one blocklist entry and one cache-answered entry. -/
def cacheAndBlocklist : Snapshot :=
  { replayLog with queries := [some blockedQuery, some cacheQuery] }

/-- The alias scenario of the specification with an aggregate that the replay can
resolve: client 0 is the aggregate "laptop-group" (no alias linkage id of its own),
clients 1 ("10.0.0.5") and 2 ("10.0.0.6") are aggregated under it, client 3
("10.0.0.7") is standalone.  Entries 0..3 of the log belong to clients 1, 2, 0, 3. -/
def aliasReplay : Snapshot :=
  { scenarioAds with
    clients := [some ⟨6, 5, 3, 1, true, -1, [0, 3, 0]⟩,
                some ⟨2, 0, 2, 1, false, 0, [0, 2, 0]⟩,
                some ⟨4, 0, 1, 0, false, 0, [0, 1, 0]⟩,
                some ⟨10, 0, 1, 0, false, -1, [0, 1, 0]⟩]
    queries := [some { blockedQuery with clientID := 1 },
                some { blockedQuery with clientID := 2, timestamp := 200 },
                some { blockedQuery with clientID := 0, timestamp := 300 },
                some { blockedQuery with clientID := 3, timestamp := 400 }] }

/-- The reference platform with a binary encoder that rejects the one string
"example.org". -/
def pickyPlatform : Platform :=
  { refPlatform with pack_str32 := fun s => s != "example.org" }

/-- A platform with the same libc as `P` and a binary encoder that accepts every
string. -/
def acceptingPlatform (P : Platform) : Platform :=
  { P with pack_str32 := fun _ => true, pack_fixstr := fun _ => true }

/-- The reference platform at a time before every slot of the example tables. -/
def earlyClock : Platform :=
  { refPlatform with time := 500 }

/-- A log of four entries that shows each derived field: entry 0 is blocked by a
regex (response computed: reply 4, latency 37), entry 1 was retried (stored reply 4,
stored latency 99), entry 2 has the type OTHER with the numeric type code 65 and no
computed response (stored latency 55), entry 3 has the status "unknown".  Every DNS
cache lookup finds a record with the regex index 7. -/
def fieldsLog : Snapshot :=
  { replayLog with
    queries := [some { blockedQuery with
                  status := 4, response_calculated := true, response := 37, reply := 4 },
                some { cacheQuery with
                  status := 12, response_calculated := true, response := 99, reply := 4 },
                some { cacheQuery with
                  timestamp := 300, type := 14, qtype := 65, status := 2, upstreamID := 0,
                  response := 55, id := 3 },
                some { cacheQuery with timestamp := 400, status := 0, id := 4 }]
    getDNSCache := fun _ => some ⟨7⟩ }

/-- The four-entry log with an upstream whose host name has 47 characters. -/
def longNameUpstream : Snapshot :=
  { replayLog with
    getstr := fun pos =>
      if pos = 9 then "resolver-01.dns.infrastructure.example-corp.net"
      else exampleStrings.getD pos "" }

/-- The four-entry log with a second upstream slot whose record is absent: upstream 0
("8.8.8.8", "dns.google", port 53) has the summed count 1. -/
def staleUpstreams : Snapshot :=
  { replayLog with upstreams := [some ⟨8, 9, 53, [0, 1, 0]⟩, none] }

/-- The four-entry log with three present upstreams of summed counts 1, 5 and 0. -/
def threeUpstreams : Snapshot :=
  { replayLog with
    upstreams := [some ⟨8, 9, 53, [0, 1, 0]⟩, some ⟨2, 0, 5353, [2, 3, 0]⟩,
                  some ⟨4, 0, 53, [0, 0, 0]⟩] }


/-! # Lemmas -/


/-! ## Loop lemmas -/

theorem queryLoop_mem (body : Nat → Step) :
    ∀ (l : List Nat) (r : Row), r ∈ queryLoop body l →
      ∃ queryID ∈ l, r.id = (queryID : Int) ∧
        ((body queryID = .emit r.out ∧ r.complete = true)
          ∨ (body queryID = .abort r.out ∧ r.complete = false))
  | [], r, h => by simp [queryLoop] at h
  | q :: rest, r, h => by
    unfold queryLoop at h
    cases hb : body q with
    | skip =>
      rw [hb] at h
      obtain ⟨q', hq', h'⟩ := queryLoop_mem body rest r h
      exact ⟨q', List.mem_cons_of_mem _ hq', h'⟩
    | pass =>
      rw [hb] at h
      obtain ⟨q', hq', h'⟩ := queryLoop_mem body rest r h
      exact ⟨q', List.mem_cons_of_mem _ hq', h'⟩
    | emit out =>
      rw [hb] at h
      rcases List.mem_cons.mp h with h | h
      · subst h
        exact ⟨q, List.mem_cons_self _ _, rfl, Or.inl ⟨hb, rfl⟩⟩
      · obtain ⟨q', hq', h'⟩ := queryLoop_mem body rest r h
        exact ⟨q', List.mem_cons_of_mem _ hq', h'⟩
    | abort out =>
      rw [hb] at h
      have h := List.mem_singleton.mp h
      subst h
      exact ⟨q, List.mem_cons_self _ _, rfl, Or.inr ⟨hb, rfl⟩⟩

theorem getAllQueries_body_wrote (S : Snapshot) (P : Platform) (istelnet : Bool)
    (F : ReplayFilter) (queryID : Nat)
    (h : getAllQueries_body S P istelnet F queryID ≠ .skip) :
    ∃ query, getQuery S queryID = some query ∧ query.privacylevel < PRIVACY_MAXIMUM
      ∧ query.type < TYPE_MAX ∧ getAllQueries_skip F query = false := by
  unfold getAllQueries_body at h
  cases hq : getQuery S queryID with
  | none => simp [hq] at h
  | some query =>
    refine ⟨query, rfl, ?_⟩
    simp only [hq] at h
    by_cases h1 : query.privacylevel ≥ PRIVACY_MAXIMUM
    · simp [h1] at h
    by_cases h2 : query.type ≥ TYPE_MAX
    · simp [h2] at h
    cases h3 : getAllQueries_skip F query
    · exact ⟨not_le.mp h1, not_le.mp h2, rfl⟩
    · simp [h1, h2, h3] at h


theorem topLoop_mem (body : Int → TempRow → Step) (count : Int) :
    ∀ (l : List TempRow) (n : Int) (r : Row), r ∈ topLoop body count l n →
      ∃ e ∈ l, ∃ m : Int, r.id = e.1 ∧
        ((body m e = .emit r.out ∧ r.complete = true)
          ∨ (body m e = .abort r.out ∧ r.complete = false))
  | [], n, r, h => by simp [topLoop] at h
  | e :: rest, n, r, h => by
    unfold topLoop at h
    cases hb : body n e with
    | skip =>
      rw [hb] at h
      obtain ⟨e', he', h'⟩ := topLoop_mem body count rest n r h
      exact ⟨e', List.mem_cons_of_mem _ he', h'⟩
    | pass =>
      rw [hb] at h
      simp only at h
      split at h
      · simp at h
      · obtain ⟨e', he', h'⟩ := topLoop_mem body count rest n r h
        exact ⟨e', List.mem_cons_of_mem _ he', h'⟩
    | emit out =>
      rw [hb] at h
      rcases List.mem_cons.mp h with h | h
      · subst h
        exact ⟨e, List.mem_cons_self _ _, n, rfl, Or.inl ⟨hb, rfl⟩⟩
      · split at h
        · simp at h
        · obtain ⟨e', he', h'⟩ := topLoop_mem body count rest (n + 1) r h
          exact ⟨e', List.mem_cons_of_mem _ he', h'⟩
    | abort out =>
      rw [hb] at h
      have h := List.mem_singleton.mp h
      subst h
      exact ⟨e, List.mem_cons_self _ _, n, rfl, Or.inr ⟨hb, rfl⟩⟩

theorem topLoop_ids_take (body : Int → TempRow → Step) (count : Int) (em : TempRow → Bool)
    (hem : ∀ n e, (body n e).isEmit = em e) (hab : ∀ n e, (body n e).isAbort = false) :
    ∀ (l : List TempRow) (n : Int), n < count →
      (topLoop body count l n).map Row.id
        = ((l.filter em).map Prod.fst).take (count - n).toNat
  | [], n, _ => by simp [topLoop]
  | e :: rest, n, hn => by
    have h1 := hem n e
    have h2 := hab n e
    have hpos : (count - n).toNat = ((count - (n + 1)).toNat) + 1 := by omega
    unfold topLoop
    cases hb : body n e with
    | skip =>
      rw [hb] at h1
      have h1 : em e = false := by simpa [Step.isEmit] using h1.symm
      simp only [List.filter_cons, h1]
      exact topLoop_ids_take body count em hem hab rest n hn
    | pass =>
      rw [hb] at h1
      have h1 : em e = false := by simpa [Step.isEmit] using h1.symm
      have hne : n ≠ count := by omega
      simp only [List.filter_cons, h1, hne, if_false]
      exact topLoop_ids_take body count em hem hab rest n hn
    | abort out =>
      rw [hb] at h2
      simp [Step.isAbort] at h2
    | emit out =>
      rw [hb] at h1
      have h1 : em e = true := by simpa [Step.isEmit] using h1.symm
      simp only [List.filter_cons, h1, if_true, List.map_cons]
      rw [hpos, List.take_succ_cons]
      by_cases hc : n + 1 = count
      · simp [hc]
      · have hlt : n + 1 < count := by omega
        simp only [hc, if_false]
        rw [topLoop_ids_take body count em hem hab rest (n + 1) hlt]

theorem topLoop_complete (body : Int → TempRow → Step) (count : Int)
    (hab : ∀ n e, (body n e).isAbort = false) (l : List TempRow) (n : Int) (r : Row)
    (hr : r ∈ topLoop body count l n) : r.complete = true := by
  obtain ⟨e, _, m, _, h | h⟩ := topLoop_mem body count l n r hr
  · exact h.2
  · have := hab m e
    rw [h.1] at this
    simp [Step.isAbort] at this

theorem topLoop_all_or_cut (body : Int → TempRow → Step) (count : Int) (em : TempRow → Bool)
    (hem : ∀ n e, (body n e).isEmit = em e) (hab : ∀ n e, (body n e).isAbort = false) :
    ∀ (l : List TempRow) (n : Int),
      (∀ e ∈ l, em e = true → e.1 ∈ (topLoop body count l n).map Row.id)
        ∨ n + ((topLoop body count l n).length : Int) = count
  | [], n => by simp
  | e :: rest, n => by
    have h1 := hem n e
    have h2 := hab n e
    unfold topLoop
    cases hb : body n e with
    | skip =>
      rw [hb] at h1
      have h1 : em e = false := by simpa [Step.isEmit] using h1.symm
      rcases topLoop_all_or_cut body count em hem hab rest n with h | h
      · left
        intro e' he' hem'
        rcases List.mem_cons.mp he' with rfl | he'
        · simp [h1] at hem'
        · exact h e' he' hem'
      · right
        exact h
    | pass =>
      rw [hb] at h1
      have h1 : em e = false := by simpa [Step.isEmit] using h1.symm
      by_cases hc : n = count
      · right
        simp [hc]
      · simp only [hc, if_false]
        rcases topLoop_all_or_cut body count em hem hab rest n with h | h
        · left
          intro e' he' hem'
          rcases List.mem_cons.mp he' with rfl | he'
          · simp [h1] at hem'
          · exact h e' he' hem'
        · right
          exact h
    | abort out =>
      rw [hb] at h2
      simp [Step.isAbort] at h2
    | emit out =>
      by_cases hc : n + 1 = count
      · right
        simp only [hc, if_true, List.length_cons, List.length_nil]
        omega
      · simp only [hc, if_false]
        rcases topLoop_all_or_cut body count em hem hab rest (n + 1) with h | h
        · left
          intro e' he' hem'
          rcases List.mem_cons.mp he' with rfl | he'
          · simp
          · simp only [List.map_cons, List.mem_cons]
            right
            exact h e' he' hem'
        · right
          simp only [List.length_cons]
          push_cast
          omega


theorem getTopDomains_body_isAbort (S : Snapshot) (P : Platform) (istelnet blocked audit : Bool)
    (sb sp : Bool) (ex : Option (List String))
    (henc : istelnet = true ∨ ∀ s, P.pack_str32 s = true) (n : Int) (e : TempRow) :
    (getTopDomains_body S P istelnet blocked audit sb sp ex n e).isAbort = false := by
  cases hd : getDomain S e.1 with
  | none => simp [getTopDomains_body, hd, Step.isAbort]
  | some domain =>
    simp only [getTopDomains_body, hd]
    rcases henc with h | h
    · subst h
      split_ifs <;> simp_all [Step.isAbort]
    · simp only [h]
      split_ifs <;> simp_all [Step.isAbort]

theorem getTopDomains_body_isEmit (S : Snapshot) (P : Platform) (istelnet blocked audit : Bool)
    (sb sp : Bool) (henc : istelnet = true ∨ ∀ s, P.pack_str32 s = true)
    (hshow : (if blocked then sb else sp) = true) (n : Int) (e : TempRow) :
    (getTopDomains_body S P istelnet blocked audit sb sp
        (if !audit then S.API_EXCLUDE_DOMAINS else none) n e).isEmit
      = eligibleDomain S blocked audit e.1 := by
  cases hd : getDomain S e.1 with
  | none => simp [getTopDomains_body, eligibleDomain, hd, Step.isEmit]
  | some domain =>
    simp only [getTopDomains_body, eligibleDomain, domainScore, hd]
    have hp : ∀ s, (istelnet = true ∨ P.pack_str32 s = true) := by
      intro s
      rcases henc with h | h
      · exact Or.inl h
      · exact Or.inr (h s)
    have hp' := hp (S.getstr domain.domainpos)
    cases blocked <;> cases audit <;>
      simp only [Bool.false_eq_true, if_false, if_true] at hshow <;> subst hshow <;>
      simp only [Bool.not_true, Bool.not_false, Bool.false_eq_true, if_false, if_true,
        Bool.true_and, Bool.false_and, Bool.and_true] <;>
      split_ifs <;> simp_all [Step.isEmit, excludedBy]

theorem getTopClients_body_isAbort (S : Snapshot) (P : Platform) (istelnet withzero : Bool)
    (ex : Option (List String))
    (henc : istelnet = true ∨ ∀ s, P.pack_str32 s = true) (n : Int) (e : TempRow) :
    (getTopClients_body S P istelnet withzero ex n e).isAbort = false := by
  cases hd : getClient S e.1 with
  | none =>
    simp only [getTopClients_body, hd]
    split_ifs <;> simp [Step.isAbort]
  | some client =>
    simp only [getTopClients_body, hd]
    rcases henc with h | h
    · subst h
      split_ifs <;> simp_all [Step.isAbort]
    · simp only [h]
      split_ifs <;> simp_all [Step.isAbort]

theorem getTopClients_body_isEmit (S : Snapshot) (P : Platform) (istelnet withzero : Bool)
    (henc : istelnet = true ∨ ∀ s, P.pack_str32 s = true) (n : Int) (e : TempRow) :
    (getTopClients_body S P istelnet withzero S.API_EXCLUDE_CLIENTS n e).isEmit
      = clientRowPasses S withzero e := by
  cases hd : getClient S e.1 with
  | none =>
    simp only [getTopClients_body, clientRowPasses, hd]
    split_ifs <;> simp [Step.isEmit]
  | some client =>
    simp only [getTopClients_body, clientRowPasses, clientExcluded, hd]
    have h1 : istelnet = true ∨ P.pack_str32 "" = true := by
      rcases henc with h | h
      · exact Or.inl h
      · exact Or.inr (h _)
    have h2 : istelnet = true ∨ P.pack_str32 (S.getstr client.ippos) = true := by
      rcases henc with h | h
      · exact Or.inl h
      · exact Or.inr (h _)
    split_ifs <;> simp_all [Step.isEmit]
    rename_i hin
    intro ha hb
    rcases hin with hin | hin
    · rw [ha] at hin
      cases hin
    · rw [hb] at hin
      cases hin


theorem lookup_natCast {α : Type} (table : List (Option α)) (i : Nat) :
    lookup table (i : Int) = (table.get? i).join := by
  simp [lookup]

theorem lookup_present {α : Type} (table : List (Option α)) (hall : ∀ o ∈ table, o ≠ none)
    (i : Nat) (hi : i < table.length) : ∃ a, lookup table (i : Int) = some a := by
  rw [lookup_natCast]
  have hmem : table[i] ∈ table := List.getElem_mem _
  cases h : table[i] with
  | none => exact absurd h (hall _ hmem)
  | some a =>
    refine ⟨a, ?_⟩
    rw [List.get?_eq_getElem?, List.getElem?_eq_getElem hi, h]
    rfl

theorem topLoop_length (body : Int → TempRow → Step) (count : Int) (em : TempRow → Bool)
    (hem : ∀ n e, (body n e).isEmit = em e) (hab : ∀ n e, (body n e).isAbort = false)
    (l : List TempRow) (hc : 1 ≤ count) :
    (topLoop body count l 0).length = min count.toNat (l.filter em).length := by
  have h := congrArg List.length (topLoop_ids_take body count em hem hab l 0 (by omega))
  simpa using h

theorem sent_eq_rows_of_complete (rows : List Row) (h : ∀ r ∈ rows, r.complete = true) :
    rows.filter Row.complete = rows :=
  List.filter_eq_self.mpr h

theorem getTopDomains_slot_present (S : Snapshot) (P : Platform) (blocked : Bool)
    (hall : ∀ o ∈ S.domains, o ≠ none) (i : Nat) (hi : i < S.domains.length) :
    ∃ domain, getDomain S (i : Int) = some domain
      ∧ getTopDomains_slot S P blocked i = ((i : Int), domainScore blocked domain) := by
  obtain ⟨d, hd⟩ := lookup_present S.domains hall i hi
  exact ⟨d, hd, by simp [getTopDomains_slot, getDomain, hd, domainScore]⟩

theorem getTopDomains_passing_ids (S : Snapshot) (P : Platform) (blocked audit : Bool)
    (hall : ∀ o ∈ S.domains, o ≠ none) :
    ((getTopDomains_temparray S P blocked).filter
        (fun e => eligibleDomain S blocked audit e.1)).map Prod.fst
      = (eligibleDomains S blocked audit).map Nat.cast := by
  unfold getTopDomains_temparray eligibleDomains
  rw [List.filter_map, List.map_map]
  have hrow : ∀ i ∈ List.range S.domains.length,
      (getTopDomains_slot S P blocked i).1 = (i : Int) := by
    intro i hi
    obtain ⟨d, _, hd⟩ := getTopDomains_slot_present S P blocked hall i (List.mem_range.mp hi)
    rw [hd]
  have hfil : List.filter ((fun e => eligibleDomain S blocked audit e.1)
        ∘ getTopDomains_slot S P blocked) (List.range S.domains.length)
      = List.filter (fun (i : Nat) => eligibleDomain S blocked audit i)
          (List.range S.domains.length) := by
    apply List.filter_congr
    intro i hi
    simp only [Function.comp]
    rw [hrow i hi]
  rw [hfil]
  apply List.map_congr_left
  intro i hi
  simp only [Function.comp]
  exact hrow i (List.mem_filter.mp hi).1

theorem getTopClients_slot_passes (S : Snapshot) (P : Platform) (blockedonly withzero : Bool)
    (i : Nat) :
    clientRowPasses S withzero (getTopClients_slot S P blockedonly i)
      = eligibleClient S blockedonly withzero i := by
  unfold getTopClients_slot
  cases hc : getClient S (i : Int) with
  | none => simp [clientRowPasses, eligibleClient, hc]
  | some client =>
    by_cases hm : (!client.aliasclient && decide (client.aliasclient_id ≥ 0)) = true
    · simp only [hm, if_true]
      simp [clientRowPasses, eligibleClient, hc, isAliasMember, hm]
    · simp only [hm, if_false]
      have hm' : isAliasMember client = false := by
        simpa [isAliasMember] using hm
      simp [clientRowPasses, eligibleClient, hc, hm', clientScore]

theorem getTopClients_slot_eligible (S : Snapshot) (P : Platform) (blockedonly withzero : Bool)
    (i : Nat) (hi : eligibleClient S blockedonly withzero i = true) :
    ∃ client, getClient S (i : Int) = some client ∧ isAliasMember client = false
      ∧ getTopClients_slot S P blockedonly i = ((i : Int), clientScore blockedonly client) := by
  cases hc : getClient S (i : Int) with
  | none => simp [eligibleClient, hc] at hi
  | some client =>
    have hm : isAliasMember client = false := by
      simp only [eligibleClient, hc] at hi
      cases h : isAliasMember client
      · rfl
      · simp [h] at hi
    have hm' : ¬ (!client.aliasclient && decide (client.aliasclient_id ≥ 0)) = true := by
      simpa [isAliasMember] using hm
    exact ⟨client, rfl, hm, by simp [getTopClients_slot, hc, hm', clientScore]⟩

theorem getTopClients_passing_ids (S : Snapshot) (P : Platform) (blockedonly withzero : Bool) :
    ((getTopClients_temparray S P blockedonly).filter (clientRowPasses S withzero)).map Prod.fst
      = (eligibleClients S blockedonly withzero).map Nat.cast := by
  unfold getTopClients_temparray eligibleClients
  rw [List.filter_map, List.map_map]
  have hfil : List.filter (clientRowPasses S withzero ∘ getTopClients_slot S P blockedonly)
        (List.range S.clients.length)
      = List.filter (fun (i : Nat) => eligibleClient S blockedonly withzero i)
          (List.range S.clients.length) := by
    apply List.filter_congr
    intro i _
    simp only [Function.comp]
    exact getTopClients_slot_passes S P blockedonly withzero i
  rw [hfil]
  apply List.map_congr_left
  intro i hi
  simp only [Function.comp]
  obtain ⟨c, _, _, h⟩ := getTopClients_slot_eligible S P blockedonly withzero i
    (by simpa using (List.mem_filter.mp hi).2)
  rw [h]


theorem cmpasc_le (a b : TempRow) : cmpasc a b ≤ 0 ↔ a.2 ≤ b.2 := by
  unfold cmpasc
  split_ifs <;> omega

theorem cmpdesc_le (a b : TempRow) : cmpdesc a b ≤ 0 ↔ b.2 ≤ a.2 := by
  unfold cmpdesc
  split_ifs <;> omega

theorem insertBy_perm (cmp : TempRow → TempRow → Int) (x : TempRow) :
    ∀ l : List TempRow, (insertBy cmp x l).Perm (x :: l)
  | [] => List.Perm.refl _
  | y :: ys => by
    unfold insertBy
    split_ifs
    · exact List.Perm.refl _
    · exact ((insertBy_perm cmp x ys).cons y).trans (List.Perm.swap x y ys)

theorem qsortRef_perm (cmp : TempRow → TempRow → Int) :
    ∀ l : List TempRow, (qsortRef cmp l).Perm l
  | [] => List.Perm.refl _
  | x :: xs => (insertBy_perm cmp x _).trans ((qsortRef_perm cmp xs).cons x)

theorem insertBy_pairwise (cmp : TempRow → TempRow → Int)
    (htot : ∀ a b, cmp a b ≤ 0 ∨ cmp b a ≤ 0)
    (htrans : ∀ a b c, cmp a b ≤ 0 → cmp b c ≤ 0 → cmp a c ≤ 0) (x : TempRow) :
    ∀ l : List TempRow, l.Pairwise (fun a b => cmp a b ≤ 0) →
      (insertBy cmp x l).Pairwise (fun a b => cmp a b ≤ 0)
  | [], _ => by simp [insertBy]
  | y :: ys, h => by
    unfold insertBy
    have hy := List.pairwise_cons.mp h
    split_ifs with hxy
    · refine List.pairwise_cons.mpr ⟨?_, h⟩
      intro z hz
      rcases List.mem_cons.mp hz with rfl | hz
      · exact hxy
      · exact htrans _ _ _ hxy (hy.1 z hz)
    · refine List.pairwise_cons.mpr ⟨?_, insertBy_pairwise cmp htot htrans x ys hy.2⟩
      intro z hz
      have hz' : z ∈ x :: ys := (insertBy_perm cmp x ys).subset hz
      rcases List.mem_cons.mp hz' with rfl | hz'
      · rcases htot z y with h1 | h1
        · exact absurd h1 hxy
        · exact h1
      · exact hy.1 z hz'

theorem qsortRef_pairwise (cmp : TempRow → TempRow → Int)
    (htot : ∀ a b, cmp a b ≤ 0 ∨ cmp b a ≤ 0)
    (htrans : ∀ a b c, cmp a b ≤ 0 → cmp b c ≤ 0 → cmp a c ≤ 0) :
    ∀ l : List TempRow, (qsortRef cmp l).Pairwise (fun a b => cmp a b ≤ 0)
  | [] => List.Pairwise.nil
  | x :: xs => insertBy_pairwise cmp htot htrans x _ (qsortRef_pairwise cmp htot htrans xs)

/-- The reference sort does what C asks of `qsort`. -/
theorem qsortRef_contract : QsortContract qsortRef where
  perm := qsortRef_perm
  sorted_asc := qsortRef_pairwise cmpasc
    (fun a b => by simp only [cmpasc_le]; omega)
    (fun a b c => by simp only [cmpasc_le]; omega)
  sorted_desc := qsortRef_pairwise cmpdesc
    (fun a b => by simp only [cmpdesc_le]; omega)
    (fun a b c => by simp only [cmpdesc_le]; omega)

/-- The array `getTopDomains` walks: `temparray` after `qsort`. -/
theorem getTopDomains_rows_eq (S : Snapshot) (P : Platform) (client_message : String)
    (istelnet : Bool) (hlevel : S.privacylevel < PRIVACY_HIDE_DOMAINS) :
    (getTopDomains S P client_message istelnet).rows
      = topLoop (getTopDomains_body S P istelnet (command client_message ">top-ads")
          (command client_message " for audit") (showblocked_of S.API_QUERY_LOG_SHOW)
          (showpermitted_of S.API_QUERY_LOG_SHOW)
          (if !command client_message " for audit" then S.API_EXCLUDE_DOMAINS else none))
        ((sscanf_count client_message).getD 10)
        (P.qsort (if command client_message " asc" then cmpasc else cmpdesc)
          (getTopDomains_temparray S P (command client_message ">top-ads"))) 0 := by
  have h : ¬ S.privacylevel ≥ PRIVACY_HIDE_DOMAINS := not_le.mpr hlevel
  unfold getTopDomains
  simp only [h, if_false]
  split_ifs <;> rfl

/-- The array `getTopClients` walks: `temparray` after `qsort`. -/
theorem getTopClients_rows_eq (S : Snapshot) (P : Platform) (client_message : String)
    (istelnet : Bool) (hlevel : S.privacylevel < PRIVACY_HIDE_DOMAINS_CLIENTS) :
    (getTopClients S P client_message istelnet).rows
      = topLoop (getTopClients_body S P istelnet (command client_message " withzero")
          S.API_EXCLUDE_CLIENTS)
        ((sscanf_count client_message).getD 10)
        (P.qsort (if command client_message " asc" then cmpasc else cmpdesc)
          (getTopClients_temparray S P (command client_message " blocked"))) 0 := by
  have h : ¬ S.privacylevel ≥ PRIVACY_HIDE_DOMAINS_CLIENTS := not_le.mpr hlevel
  unfold getTopClients
  simp only [h, if_false]
  split_ifs <;> rfl


theorem getTopDomains_body_emit_inv (S : Snapshot) (P : Platform) (istelnet blocked audit : Bool)
    (sb sp : Bool) (ex : Option (List String)) (n : Int) (e : TempRow) (out : List Out)
    (h : getTopDomains_body S P istelnet blocked audit sb sp ex n e = .emit out) :
    ∃ domain, getDomain S e.1 = some domain
      ∧ (∀ arr, ex = some arr → insetupVarsArray arr (S.getstr domain.domainpos) = false)
      ∧ (audit = true → S.in_auditlist (S.getstr domain.domainpos) ≤ 0)
      ∧ S.getstr domain.domainpos ≠ HIDDEN_DOMAIN
      ∧ 0 < domainScore blocked domain
      ∧ (if blocked then sb else sp) = true
      ∧ out = domainRowOut S istelnet blocked n domain := by
  cases hd : getDomain S e.1 with
  | none => simp [getTopDomains_body, hd] at h
  | some domain =>
    refine ⟨domain, rfl, ?_⟩
    simp only [getTopDomains_body, hd] at h
    by_cases hx : excludedBy ex (S.getstr domain.domainpos) = true
    · rw [if_pos hx] at h
      cases h
    rw [if_neg hx] at h
    by_cases ha : (audit && decide (S.in_auditlist (S.getstr domain.domainpos) > 0)) = true
    · rw [if_pos ha] at h
      cases h
    rw [if_neg ha] at h
    by_cases hh : S.getstr domain.domainpos = HIDDEN_DOMAIN
    · rw [if_pos hh] at h
      cases h
    rw [if_neg hh] at h
    have hex : ∀ arr, ex = some arr →
        insetupVarsArray arr (S.getstr domain.domainpos) = false := by
      intro arr harr
      subst harr
      simpa [excludedBy] using hx
    have haud : audit = true → S.in_auditlist (S.getstr domain.domainpos) ≤ 0 := by
      intro hau
      subst hau
      simpa using ha
    refine ⟨hex, haud, hh, ?_⟩
    by_cases hb : (blocked && sb && decide (domain.blockedcount > 0)) = true
    · rw [if_pos hb] at h
      simp only [Bool.and_eq_true, decide_eq_true_eq] at hb
      obtain ⟨⟨hb1, hb2⟩, hb3⟩ := hb
      subst hb1
      refine ⟨by simpa [domainScore] using hb3, by simpa using hb2, ?_⟩
      cases istelnet
      · simp only [Bool.false_eq_true, if_false] at h
        split_ifs at h
        simp only [Step.emit.injEq] at h
        simp [domainRowOut, domainScore, ← h]
      · simp only [if_true, Step.emit.injEq] at h
        simp [domainRowOut, domainScore, ← h]
    rw [if_neg hb] at h
    by_cases hp : (!blocked && sp && decide (domain.count - domain.blockedcount > 0)) = true
    · rw [if_pos hp] at h
      simp only [Bool.and_eq_true, decide_eq_true_eq, Bool.not_eq_true'] at hp
      obtain ⟨⟨hp1, hp2⟩, hp3⟩ := hp
      subst hp1
      refine ⟨by simpa [domainScore] using hp3, by simpa using hp2, ?_⟩
      cases istelnet
      · simp only [Bool.false_eq_true, if_false] at h
        split_ifs at h
        simp only [Step.emit.injEq] at h
        simp [domainRowOut, domainScore, ← h]
      · simp only [if_true, Step.emit.injEq] at h
        simp [domainRowOut, domainScore, ← h]
    rw [if_neg hp] at h
    cases h

theorem getTopDomains_body_abort_inv (S : Snapshot) (P : Platform) (istelnet blocked audit : Bool)
    (sb sp : Bool) (ex : Option (List String)) (n : Int) (e : TempRow) (out : List Out)
    (h : getTopDomains_body S P istelnet blocked audit sb sp ex n e = .abort out) :
    out = [] := by
  cases hd : getDomain S e.1 with
  | none => simp [getTopDomains_body, hd] at h
  | some domain =>
    simp only [getTopDomains_body, hd] at h
    split_ifs at h <;> simp_all

theorem getTopClients_body_emit_inv (S : Snapshot) (P : Platform) (istelnet withzero : Bool)
    (ex : Option (List String)) (n : Int) (e : TempRow) (out : List Out)
    (h : getTopClients_body S P istelnet withzero ex n e = .emit out) :
    0 ≤ e.1 ∧ ∃ client, getClient S e.1 = some client
      ∧ (∀ arr, ex = some arr → insetupVarsArray arr (S.getstr client.ippos) = false
          ∧ insetupVarsArray arr (S.getstr client.namepos) = false)
      ∧ S.getstr client.ippos ≠ HIDDEN_CLIENT
      ∧ (withzero = true ∨ 0 < e.2)
      ∧ out = clientRowOut S istelnet n e.2 client := by
  by_cases h0 : e.1 < 0
  · simp [getTopClients_body, h0] at h
  refine ⟨not_lt.mp h0, ?_⟩
  cases hd : getClient S e.1 with
  | none => simp [getTopClients_body, hd, h0] at h
  | some client =>
    refine ⟨client, rfl, ?_⟩
    simp only [getTopClients_body, hd, h0, if_false] at h
    by_cases hx : (excludedBy ex (S.getstr client.ippos)
        || excludedBy ex (S.getstr client.namepos)) = true
    · rw [if_pos hx] at h
      cases h
    rw [if_neg hx] at h
    by_cases hh : S.getstr client.ippos = HIDDEN_CLIENT
    · rw [if_pos hh] at h
      cases h
    rw [if_neg hh] at h
    have hex : ∀ arr, ex = some arr → insetupVarsArray arr (S.getstr client.ippos) = false
        ∧ insetupVarsArray arr (S.getstr client.namepos) = false := by
      intro arr harr
      subst harr
      simpa [excludedBy] using hx
    refine ⟨hex, hh, ?_⟩
    by_cases hz : (withzero || decide (e.2 > 0)) = true
    · rw [if_pos hz] at h
      refine ⟨by simpa using hz, ?_⟩
      cases istelnet
      · simp only [Bool.false_eq_true, if_false] at h
        split_ifs at h
        simp only [Step.emit.injEq] at h
        simp [clientRowOut, ← h]
      · simp only [if_true, Step.emit.injEq] at h
        simp [clientRowOut, ← h]
    rw [if_neg hz] at h
    cases h

theorem getTopClients_body_abort_inv (S : Snapshot) (P : Platform) (istelnet withzero : Bool)
    (ex : Option (List String)) (n : Int) (e : TempRow) (out : List Out)
    (h : getTopClients_body S P istelnet withzero ex n e = .abort out) :
    0 ≤ e.1 ∧ (out = [] ∨ out = [.pack_str32 ""]) := by
  by_cases h0 : e.1 < 0
  · simp [getTopClients_body, h0] at h
  refine ⟨not_lt.mp h0, ?_⟩
  cases hd : getClient S e.1 with
  | none => simp [getTopClients_body, hd, h0] at h
  | some client =>
    simp only [getTopClients_body, hd, h0, if_false] at h
    split_ifs at h <;> simp_all


theorem getTopDomains_row_inv (S : Snapshot) (P : Platform) (client_message : String)
    (istelnet : Bool) (r : Row) (hr : r ∈ (getTopDomains S P client_message istelnet).rows) :
    (r.complete = true ∧ ∃ domain k, getDomain S r.id = some domain
        ∧ (∀ arr, (if !command client_message " for audit" then S.API_EXCLUDE_DOMAINS
              else none) = some arr →
            insetupVarsArray arr (S.getstr domain.domainpos) = false)
        ∧ S.getstr domain.domainpos ≠ HIDDEN_DOMAIN
        ∧ 0 < domainScore (command client_message ">top-ads") domain
        ∧ r.out = domainRowOut S istelnet (command client_message ">top-ads") k domain)
      ∨ (r.complete = false ∧ r.out = []) := by
  by_cases hlevel : S.privacylevel < PRIVACY_HIDE_DOMAINS
  · rw [getTopDomains_rows_eq S P client_message istelnet hlevel] at hr
    obtain ⟨e, _, m, hid, h | h⟩ := topLoop_mem _ _ _ _ r hr
    · obtain ⟨domain, hd, hex, _, hh, hs, _, hout⟩ :=
        getTopDomains_body_emit_inv _ _ _ _ _ _ _ _ _ _ _ h.1
      exact Or.inl ⟨h.2, domain, m, by rw [hid]; exact hd, hex, hh, hs, hout⟩
    · exact Or.inr ⟨h.2, getTopDomains_body_abort_inv _ _ _ _ _ _ _ _ _ _ _ h.1⟩
  · have h : S.privacylevel ≥ PRIVACY_HIDE_DOMAINS := not_lt.mp hlevel
    simp [getTopDomains, h] at hr

theorem getTopClients_slot_nonneg (S : Snapshot) (P : Platform) (blockedonly : Bool) (i : Nat)
    (h : 0 ≤ (getTopClients_slot S P blockedonly i).1) :
    ∃ client, getClient S (i : Int) = some client ∧ isAliasMember client = false
      ∧ getTopClients_slot S P blockedonly i = ((i : Int), clientScore blockedonly client) := by
  unfold getTopClients_slot at h ⊢
  cases hc : getClient S (i : Int) with
  | none => simp [hc] at h
  | some client =>
    simp only [hc] at h ⊢
    by_cases hm : (!client.aliasclient && decide (client.aliasclient_id ≥ 0)) = true
    · simp [hm] at h
    · refine ⟨client, rfl, by simpa [isAliasMember] using hm, ?_⟩
      simp [hm, clientScore]

theorem getTopClients_row_inv (S : Snapshot) (P : Platform) (client_message : String)
    (istelnet : Bool) (hq : QsortContract P.qsort) (r : Row)
    (hr : r ∈ (getTopClients S P client_message istelnet).rows) :
    ∃ client, getClient S r.id = some client ∧ isAliasMember client = false
      ∧ ((r.complete = true
          ∧ (∀ arr, S.API_EXCLUDE_CLIENTS = some arr →
              insetupVarsArray arr (S.getstr client.ippos) = false
                ∧ insetupVarsArray arr (S.getstr client.namepos) = false)
          ∧ S.getstr client.ippos ≠ HIDDEN_CLIENT
          ∧ ∃ k, r.out = clientRowOut S istelnet k
              (clientScore (command client_message " blocked") client) client)
        ∨ (r.complete = false ∧ (r.out = [] ∨ r.out = [.pack_str32 ""]))) := by
  by_cases hlevel : S.privacylevel < PRIVACY_HIDE_DOMAINS_CLIENTS
  · rw [getTopClients_rows_eq S P client_message istelnet hlevel] at hr
    obtain ⟨e, he, m, hid, h⟩ := topLoop_mem _ _ _ _ r hr
    have he' : e ∈ getTopClients_temparray S P (command client_message " blocked") :=
      (hq.perm _ _).subset he
    obtain ⟨i, _, hi⟩ := List.mem_map.mp he'
    have h0 : 0 ≤ e.1 := by
      rcases h with h | h
      · exact (getTopClients_body_emit_inv _ _ _ _ _ _ _ _ h.1).1
      · exact (getTopClients_body_abort_inv _ _ _ _ _ _ _ _ h.1).1
    rw [← hi] at h0
    obtain ⟨client, hc, hm, hslot⟩ := getTopClients_slot_nonneg S P _ i h0
    have hei : e = ((i : Int), clientScore (command client_message " blocked") client) := by
      rw [← hi, hslot]
    have hrid : r.id = (i : Int) := by rw [hid, hei]
    refine ⟨client, by rw [hrid]; exact hc, hm, ?_⟩
    rcases h with h | h
    · obtain ⟨_, client', hc', hex, hh, _, hout⟩ :=
        getTopClients_body_emit_inv _ _ _ _ _ _ _ _ h.1
      have hcc : client' = client := by
        rw [hei] at hc'
        simp only at hc'
        rw [hc] at hc'
        exact (Option.some.inj hc').symm
      subst hcc
      refine Or.inl ⟨h.2, hex, hh, m, ?_⟩
      rw [hout, hei]
    · exact Or.inr ⟨h.2, (getTopClients_body_abort_inv _ _ _ _ _ _ _ _ h.1).2⟩
  · have h : S.privacylevel ≥ PRIVACY_HIDE_DOMAINS_CLIENTS := not_lt.mp hlevel
    simp [getTopClients, h] at hr


theorem lookup_some_lt {α : Type} (table : List (Option α)) (i : Nat) (a : α)
    (h : lookup table (i : Int) = some a) : i < table.length := by
  rw [lookup_natCast] at h
  by_contra hlt
  rw [List.get?_eq_none.mpr (not_lt.mp hlt)] at h
  cases h


theorem topLoop_pairwise (R : TempRow → TempRow → Prop) (body : Int → TempRow → Step)
    (count : Int) :
    ∀ (l : List TempRow) (n : Int), l.Pairwise R →
      (topLoop body count l n).Pairwise (fun r1 r2 =>
        ∃ e1 e2 m1 m2, R e1 e2
          ∧ (body m1 e1 = .emit r1.out ∨ body m1 e1 = .abort r1.out)
          ∧ (body m2 e2 = .emit r2.out ∨ body m2 e2 = .abort r2.out))
  | [], n, _ => by simp [topLoop]
  | e :: rest, n, h => by
    have hp := List.pairwise_cons.mp h
    have ih := fun n' => topLoop_pairwise R body count rest n' hp.2
    unfold topLoop
    cases hb : body n e with
    | skip => exact ih n
    | pass =>
      simp only
      split
      · exact List.Pairwise.nil
      · exact ih n
    | abort out => exact List.pairwise_singleton _ _
    | emit out =>
      simp only
      split
      · exact List.pairwise_singleton _ _
      · refine List.pairwise_cons.mpr ⟨?_, ih (n + 1)⟩
        intro r2 hr2
        obtain ⟨e2, he2, m2, _, h2⟩ := topLoop_mem body count rest (n + 1) r2 hr2
        refine ⟨e, e2, n, m2, hp.1 e2 he2, Or.inl hb, ?_⟩
        rcases h2 with h2 | h2
        · exact Or.inl h2.1
        · exact Or.inr h2.1

theorem clientRowOut_score (S : Snapshot) (istelnet : Bool) (n ccount : Int)
    (client : clientsData) :
    Row.score ⟨0, clientRowOut S istelnet n ccount client, true⟩ = some ccount := by
  cases istelnet <;> rfl

theorem domainRowOut_score (S : Snapshot) (istelnet blocked : Bool) (n : Int)
    (domain : domainsData) :
    Row.score ⟨0, domainRowOut S istelnet blocked n domain, true⟩
      = some (domainScore blocked domain) := by
  cases istelnet <;> rfl

theorem Row.score_congr (r : Row) (out : List Out) (h : r.out = out) :
    r.score = Row.score ⟨0, out, true⟩ := by
  unfold Row.score
  rw [h]

theorem pairwise_filter_filterMap {α β : Type} (R : β → β → Prop) (p : α → Bool)
    (f : α → Option β) (l : List α)
    (h : l.Pairwise (fun a b => p a = true → p b = true → ∀ x y, f a = some x → f b = some y → R x y)) :
    ((l.filter p).filterMap f).Pairwise R := by
  induction l with
  | nil => simp
  | cons a l ih =>
    have hp := List.pairwise_cons.mp h
    rw [List.filter_cons]
    split
    · rename_i hpa
      rw [List.filterMap_cons]
      cases hfa : f a with
      | none => exact ih hp.2
      | some x =>
        refine List.pairwise_cons.mpr ⟨?_, ih hp.2⟩
        intro y hy
        obtain ⟨b, hb, hfb⟩ := List.mem_filterMap.mp hy
        obtain ⟨hbl, hpb⟩ := List.mem_filter.mp hb
        exact hp.1 b hbl hpa hpb x y hfa hfb
    · exact ih hp.2

/-- The order of the scores of `getTopClients`, for every snapshot, and of
`getTopDomains` when every domain record is present (so that every `temparray` slot
was written): the scores of the rows written in full, in the order written, are
non-increasing by default and non-decreasing with "asc". -/
theorem top_scores_monotone (S : Snapshot) (P : Platform) (client_message : String)
    (istelnet : Bool) (hq : QsortContract P.qsort) :
    (((getTopClients S P client_message istelnet).sent.filterMap Row.score).Pairwise
        (fun a b => if command client_message " asc" then a ≤ b else b ≤ a))
      ∧ ((∀ o ∈ S.domains, o ≠ none) →
        ((getTopDomains S P client_message istelnet).sent.filterMap Row.score).Pairwise
          (fun a b => if command client_message " asc" then a ≤ b else b ≤ a)) := by
  have hsorted : ∀ t : List TempRow,
      (P.qsort (if command client_message " asc" then cmpasc else cmpdesc) t).Pairwise
        (fun a b => if command client_message " asc" then a.2 ≤ b.2 else b.2 ≤ a.2) := by
    intro t
    cases hasc : command client_message " asc"
    · simp only [Bool.false_eq_true, if_false]
      exact (hq.sorted_desc t).imp (fun h => (cmpdesc_le _ _).mp h)
    · simp only [if_true]
      exact (hq.sorted_asc t).imp (fun h => (cmpasc_le _ _).mp h)
  constructor
  · by_cases hlevel : S.privacylevel < PRIVACY_HIDE_DOMAINS_CLIENTS
    · unfold Report.sent
      apply pairwise_filter_filterMap
      rw [getTopClients_rows_eq S P client_message istelnet hlevel]
      refine (topLoop_pairwise _ _ _ _ 0 (hsorted _)).imp ?_
      rintro r1 r2 ⟨e1, e2, m1, m2, hR, h1, h2⟩ hc1 hc2 x y hx hy
      have key : ∀ (r : Row) (e : TempRow) (m : Int) (z : Int),
          (getTopClients_body S P istelnet (command client_message " withzero")
              S.API_EXCLUDE_CLIENTS m e = .emit r.out
            ∨ getTopClients_body S P istelnet (command client_message " withzero")
              S.API_EXCLUDE_CLIENTS m e = .abort r.out) →
          r.score = some z → z = e.2 := by
        intro r e m z h hz
        rcases h with h | h
        · obtain ⟨_, client, _, _, _, _, hout⟩ := getTopClients_body_emit_inv _ _ _ _ _ _ _ _ h
          rw [Row.score_congr r _ hout, clientRowOut_score] at hz
          exact (Option.some.inj hz).symm
        · rcases (getTopClients_body_abort_inv _ _ _ _ _ _ _ _ h).2 with ho | ho
          · rw [Row.score_congr r _ ho] at hz
            cases hz
          · rw [Row.score_congr r _ ho] at hz
            cases hz
      rw [key r1 e1 m1 x h1 hx, key r2 e2 m2 y h2 hy]
      exact hR
    · have h : S.privacylevel ≥ PRIVACY_HIDE_DOMAINS_CLIENTS := not_lt.mp hlevel
      simp [getTopClients, Report.sent, h]
  · intro hall
    by_cases hlevel : S.privacylevel < PRIVACY_HIDE_DOMAINS
    · unfold Report.sent
      apply pairwise_filter_filterMap
      rw [getTopDomains_rows_eq S P client_message istelnet hlevel]
      have hsl : ∀ e ∈ P.qsort (if command client_message " asc" then cmpasc else cmpdesc)
          (getTopDomains_temparray S P (command client_message ">top-ads")),
          ∃ domain, getDomain S e.1 = some domain
            ∧ e.2 = domainScore (command client_message ">top-ads") domain := by
        intro e he
        have he' := (hq.perm _ _).subset he
        obtain ⟨i, hi, hie⟩ := List.mem_map.mp he'
        obtain ⟨domain, hd, hslot⟩ := getTopDomains_slot_present S P
          (command client_message ">top-ads") hall i (List.mem_range.mp hi)
        rw [← hie, hslot]
        exact ⟨domain, hd, rfl⟩
      have hpw := List.Pairwise.and_mem.mp (hsorted
        (getTopDomains_temparray S P (command client_message ">top-ads")))
      refine (topLoop_pairwise _ _ _ _ 0 hpw).imp ?_
      rintro r1 r2 ⟨e1, e2, m1, m2, ⟨he1, he2, hR⟩, h1, h2⟩ hc1 hc2 x y hx hy
      have key : ∀ (r : Row) (e : TempRow) (m : Int) (z : Int),
          e ∈ P.qsort (if command client_message " asc" then cmpasc else cmpdesc)
            (getTopDomains_temparray S P (command client_message ">top-ads")) →
          (getTopDomains_body S P istelnet (command client_message ">top-ads")
              (command client_message " for audit") (showblocked_of S.API_QUERY_LOG_SHOW)
              (showpermitted_of S.API_QUERY_LOG_SHOW)
              (if !command client_message " for audit" then S.API_EXCLUDE_DOMAINS else none)
              m e = .emit r.out
            ∨ getTopDomains_body S P istelnet (command client_message ">top-ads")
              (command client_message " for audit") (showblocked_of S.API_QUERY_LOG_SHOW)
              (showpermitted_of S.API_QUERY_LOG_SHOW)
              (if !command client_message " for audit" then S.API_EXCLUDE_DOMAINS else none)
              m e = .abort r.out) →
          r.score = some z → z = e.2 := by
        intro r e m z he h hz
        obtain ⟨domain, hd, hscore⟩ := hsl e he
        rcases h with h | h
        · obtain ⟨domain', hd', _, _, _, _, _, hout⟩ :=
            getTopDomains_body_emit_inv _ _ _ _ _ _ _ _ _ _ _ h
          rw [hd] at hd'
          have hdd := Option.some.inj hd'
          subst hdd
          rw [Row.score_congr r _ hout, domainRowOut_score] at hz
          rw [hscore]
          exact (Option.some.inj hz).symm
        · have ho := getTopDomains_body_abort_inv _ _ _ _ _ _ _ _ _ _ _ h
          rw [Row.score_congr r _ ho] at hz
          cases hz
      rw [key r1 e1 m1 x he1 h1 hx, key r2 e2 m2 y he2 h2 hy]
      exact hR
    · have h : S.privacylevel ≥ PRIVACY_HIDE_DOMAINS := not_lt.mp hlevel
      simp [getTopDomains, Report.sent, h]


theorem getRecentBlocked_loop_mem (S : Snapshot) (P : Platform) (istelnet : Bool) (num : Int) :
    ∀ (l : List Nat) (found : Int) (r : Row),
      r ∈ getRecentBlocked_loop S P istelnet num l found →
      ∃ queryID ∈ l, r.id = (queryID : Int) ∧ ∃ query domain,
        getQuery S queryID = some query ∧ query.blocked = true
          ∧ getDomainString S query = some domain
          ∧ ((r.complete = true
              ∧ r.out = [if istelnet then .ssend "%s\n" [.str domain] else .pack_str32 domain])
            ∨ (r.complete = false ∧ r.out = []))
  | [], _, r, h => by simp [getRecentBlocked_loop] at h
  | q :: rest, found, r, h => by
    have ih := getRecentBlocked_loop_mem S P istelnet num rest
    have lift : ∀ found', r ∈ getRecentBlocked_loop S P istelnet num rest found' →
        ∃ queryID ∈ q :: rest, r.id = (queryID : Int) ∧ ∃ query domain,
          getQuery S queryID = some query ∧ query.blocked = true
            ∧ getDomainString S query = some domain
            ∧ ((r.complete = true
                ∧ r.out = [if istelnet then .ssend "%s\n" [.str domain]
                    else .pack_str32 domain])
              ∨ (r.complete = false ∧ r.out = [])) := by
      intro found' h'
      obtain ⟨q', hq', rest'⟩ := ih found' r h'
      exact ⟨q', List.mem_cons_of_mem _ hq', rest'⟩
    unfold getRecentBlocked_loop at h
    cases hq : getQuery S q with
    | none =>
      simp only [hq] at h
      exact lift _ h
    | some query =>
      simp only [hq] at h
      cases hb : query.blocked with
      | false =>
        simp only [hb, Bool.false_eq_true, if_false] at h
        split at h
        · simp at h
        · exact lift _ h
      | true =>
        simp only [hb, if_true] at h
        cases hd : getDomainString S query with
        | none =>
          simp only [hd] at h
          exact lift _ h
        | some domain =>
          simp only [hd] at h
          cases istelnet with
          | true =>
            simp only [if_true] at h
            rcases List.mem_cons.mp h with h | h
            · subst h
              exact ⟨q, List.mem_cons_self _ _, rfl, query, domain, hq, hb, hd,
                Or.inl ⟨rfl, by simp⟩⟩
            · split at h
              · simp at h
              · exact lift _ h
          | false =>
            simp only [Bool.false_eq_true, if_false] at h
            split at h
            · have h := List.mem_singleton.mp h
              subst h
              exact ⟨q, List.mem_cons_self _ _, rfl, query, domain, hq, hb, hd,
                Or.inr ⟨rfl, rfl⟩⟩
            · rcases List.mem_cons.mp h with h | h
              · subst h
                exact ⟨q, List.mem_cons_self _ _, rfl, query, domain, hq, hb, hd,
                  Or.inl ⟨rfl, by simp⟩⟩
              · split at h
                · simp at h
                · exact lift _ h


theorem firstSlot_some {α : Type} (p : α → Bool) :
    ∀ (l : List α) (k i : Nat), firstSlot p l k = some i ↔
      k ≤ i ∧ IsFirstIndex p l (i - k)
  | [], k, i => by simp [firstSlot, IsFirstIndex]
  | x :: xs, k, i => by
    unfold firstSlot
    by_cases hx : p x = true
    · simp only [hx, if_true, Option.some.injEq]
      constructor
      · intro h
        subst h
        refine ⟨le_refl _, ⟨x, by simp, hx⟩, ?_⟩
        intro j hj
        omega
      · rintro ⟨hk, ⟨_, _⟩, hfirst⟩
        by_contra hne
        have hpos : 0 < i - k := by omega
        have := hfirst 0 hpos x (by simp)
        rw [hx] at this
        cases this
    · have hxf : p x = false := by simpa using hx
      simp only [hxf, Bool.false_eq_true, if_false]
      rw [firstSlot_some p xs (k + 1) i]
      constructor
      · rintro ⟨hk, ⟨y, hy, hpy⟩, hfirst⟩
        refine ⟨by omega, ⟨y, ?_, hpy⟩, ?_⟩
        · have : i - k = (i - (k + 1)) + 1 := by omega
          rw [this]
          simpa using hy
        · intro j hj z hz
          cases j with
          | zero =>
            simp at hz
            rw [← hz]
            exact hxf
          | succ j =>
            exact hfirst j (by omega) z (by simpa using hz)
      · rintro ⟨hk, ⟨y, hy, hpy⟩, hfirst⟩
        have hik : i - k ≠ 0 := by
          intro h0
          rw [h0] at hy
          simp at hy
          rw [← hy, hxf] at hpy
          cases hpy
        refine ⟨by omega, ⟨y, ?_, hpy⟩, ?_⟩
        · have : i - k = (i - (k + 1)) + 1 := by omega
          rw [this] at hy
          simpa using hy
        · intro j hj z hz
          exact hfirst (j + 1) (by omega) z (by simpa using hz)

theorem firstSlot_none {α : Type} (p : α → Bool) :
    ∀ (l : List α) (k : Nat), firstSlot p l k = none ↔ ∀ x ∈ l, p x = false
  | [], k => by simp [firstSlot]
  | x :: xs, k => by
    unfold firstSlot
    by_cases hx : p x = true
    · simp [hx]
    · have hxf : p x = false := by simpa using hx
      simp only [hxf, Bool.false_eq_true, if_false]
      rw [firstSlot_none p xs (k + 1)]
      simp [hxf]

theorem firstSlot_of_first {α : Type} (p : α → Bool) (l : List α) (i : Nat)
    (h : IsFirstIndex p l i) : firstSlot p l 0 = some i :=
  (firstSlot_some p l 0 i).mpr ⟨Nat.zero_le _, by simpa using h⟩

theorem overTime_head (S : Snapshot) :
    (S.overTime.head?.map overTimeData.timestamp).getD 0 = (overTimeAt S 0).timestamp := by
  unfold overTimeAt
  cases S.overTime <;> rfl


theorem skipclient_eq (S : Snapshot) (i : Nat) (client : clientsData)
    (hc : getClient S (i : Int) = some client) :
    skipclient S i = (S.API_EXCLUDE_CLIENTS.isSome
      && (clientExcluded S client || isAliasMember client)) := by
  unfold skipclient clientExcluded excludedBy isAliasMember
  split
  · rename_i heq
    simp [heq]
  · rename_i arr heq
    simp only [hc, heq, Option.isSome_some, Bool.true_and]
    cases insetupVarsArray arr (S.getstr client.ippos) <;>
      cases insetupVarsArray arr (S.getstr client.namepos) <;>
      cases client.aliasclient <;> simp
    all_goals omega

theorem clientExcluded_of_none (S : Snapshot) (client : clientsData)
    (h : S.API_EXCLUDE_CLIENTS.isSome = false) : clientExcluded S client = false := by
  unfold clientExcluded excludedBy
  split
  · rfl
  · rename_i arr heq
    rw [heq] at h
    cases h

/-- The rows of `getClientsOverTime` follow the specification whenever no
alias-client aggregate carries an alias linkage id of 0 or more: the clients whose
counts are written are then exactly the present, non-excluded clients that are not
alias members and have a nonzero lifetime count, in increasing id order. -/
theorem shownClients_eq_seriesClients (S : Snapshot)
    (h : ∀ (i : Nat) (client : clientsData), getClient S i = some client →
      client.aliasclient = true → client.aliasclient_id < 0) :
    shownClients S = seriesClients S := by
  unfold shownClients seriesClients
  apply List.filterMap_congr
  intro i _
  cases hc : getClient S (i : Int) with
  | none =>
    simp only
    split <;> rfl
  | some client =>
    have hagg := h i client hc
    simp only [skipclient_eq S i client hc]
    cases hsome : S.API_EXCLUDE_CLIENTS.isSome with
    | false =>
      have hex := clientExcluded_of_none S client hsome
      simp only [hex, isAliasMember]
      cases ha : client.aliasclient with
      | true =>
        have := hagg ha
        have h1 : ¬ client.aliasclient_id ≥ 0 := by omega
        by_cases h0 : client.count = 0 <;> simp [h1, h0]
      | false =>
        by_cases h1 : client.aliasclient_id ≥ 0 <;> by_cases h0 : client.count = 0 <;>
          simp [h1, h0]
    | true =>
      simp only [isAliasMember]
      by_cases ha : client.aliasclient = true
      · have := hagg ha
        have h1 : ¬ client.aliasclient_id ≥ 0 := by omega
        by_cases h0 : client.count = 0 <;> cases clientExcluded S client <;>
          simp [h1, h0, ha]
      · have ha' : client.aliasclient = false := by simpa using ha
        by_cases h1 : client.aliasclient_id ≥ 0 <;> by_cases h0 : client.count = 0 <;>
          cases clientExcluded S client <;> simp [h1, h0, ha']


theorem getAllQueries_filter_some (S : Snapshot) (client_message : String) (F : ReplayFilter)
    (h : getAllQueries_filter S client_message = some F) :
    (F.from_, F.until_)
        = (if command client_message ">getallqueries-time" then sscanf_time client_message
            else (0, 0))
      ∧ (command client_message ">getallqueries-qtype" = true →
          TYPE_A ≤ sscanf_qtype client_message ∧ sscanf_qtype client_message < TYPE_MAX)
      ∧ F.querytype = (if command client_message ">getallqueries-qtype" then
          sscanf_qtype client_message else 0)
      ∧ F.filterforwarddest = command client_message ">getallqueries-forward"
      ∧ F.forwarddestid = (if command client_message ">getallqueries-forward" then
          resolveForward S (sscanf_s ">getallqueries-forward" client_message) else 0)
      ∧ (command client_message ">getallqueries-forward" = true → F.forwarddestid ≠ -3)
      ∧ F.filterdomainname = command client_message ">getallqueries-domain"
      ∧ F.domainid = (if command client_message ">getallqueries-domain" then
          resolveDomain S (sscanf_s ">getallqueries-domain" client_message) else -1)
      ∧ (command client_message ">getallqueries-domain" = true → 0 ≤ F.domainid)
      ∧ F.filterclientname = command client_message ">getallqueries-client"
      ∧ F.clientid = (if command client_message ">getallqueries-client" then
          resolveClient S
            (if (command client_message ">getallqueries-client"
                && command client_message ">getallqueries-client-blocked") then
              sscanf_s ">getallqueries-client-blocked" client_message
             else sscanf_s ">getallqueries-client" client_message)
          else -1)
      ∧ (command client_message ">getallqueries-client" = true → F.clientid ≠ -1)
      ∧ F.clientid_list = (if command client_message ">getallqueries-client" then
          (match getClient S F.clientid with
            | some client =>
              if client.aliasclient then some (get_aliasclient_list S F.clientid) else none
            | none => none)
          else none)
      ∧ F.showpermitted = (!(command client_message ">getallqueries-client"
            && command client_message ">getallqueries-client-blocked")
          && showpermitted_of S.API_QUERY_LOG_SHOW)
      ∧ F.showblocked = showblocked_of S.API_QUERY_LOG_SHOW
      ∧ F.ibeg = (match sscanf_count client_message with
          | some num =>
            if toInt32 ((S.queries.length : Int) - num) < 0 then 0
            else toInt32 ((S.queries.length : Int) - num)
          | none => 0) := by
  unfold getAllQueries_filter at h
  simp only at h
  by_cases h1 : command client_message ">getallqueries-qtype" = true
      ∧ (sscanf_qtype client_message < TYPE_A ∨ sscanf_qtype client_message ≥ TYPE_MAX)
  · rw [if_pos h1] at h
    cases h
  rw [if_neg h1] at h
  by_cases h2 : command client_message ">getallqueries-forward" = true
      ∧ (if command client_message ">getallqueries-forward" = true then
          resolveForward S (sscanf_s ">getallqueries-forward" client_message) else 0) = -3
  · rw [if_pos h2] at h
    cases h
  rw [if_neg h2] at h
  by_cases h3 : command client_message ">getallqueries-domain" = true
      ∧ (if command client_message ">getallqueries-domain" = true then
          resolveDomain S (sscanf_s ">getallqueries-domain" client_message) else -1) < 0
  · rw [if_pos h3] at h
    cases h
  rw [if_neg h3] at h
  by_cases h4 : command client_message ">getallqueries-client" = true
      ∧ (if command client_message ">getallqueries-client" = true then
          resolveClient S
            (if (command client_message ">getallqueries-client"
                && command client_message ">getallqueries-client-blocked") = true then
              sscanf_s ">getallqueries-client-blocked" client_message
             else sscanf_s ">getallqueries-client" client_message)
          else -1) = -1
  · rw [if_pos h4] at h
    cases h
  rw [if_neg h4] at h
  have hF := (Option.some.inj h).symm
  subst hF
  refine ⟨rfl, ?_, rfl, rfl, rfl, ?_, rfl, rfl, ?_, rfl, rfl, ?_, rfl, rfl, rfl, rfl⟩
  · intro hc
    have := not_and.mp h1 hc
    constructor <;> omega
  · intro hc h3'
    exact h2 ⟨hc, h3'⟩
  · intro hc
    have := not_and.mp h3 hc
    dsimp only
    omega
  · intro hc
    intro h'
    exact h4 ⟨hc, h'⟩


theorem getAllQueries_skip_false_iff (F : ReplayFilter) (query : queriesData) :
    getAllQueries_skip F query = false ↔
      showsEntry F query
        ∧ inTimeRange F.from_ F.until_ query.timestamp
        ∧ (F.filterdomainname = true → matchesDomain F.domainid query)
        ∧ (F.filterclientname = true → matchesClient F.clientid F.clientid_list query)
        ∧ (F.querytype = 0 ∨ F.querytype = query.type)
        ∧ (F.filterforwarddest = true → matchesForward F.forwarddestid query) := by
  unfold getAllQueries_skip showsEntry inTimeRange matchesDomain matchesClient matchesForward
  by_cases h1 : (decide (query.status = QUERY_UNKNOWN)
      && !(F.showpermitted && F.showblocked)) = true
  · rw [if_pos h1]
    simp only [Bool.and_eq_true, decide_eq_true_eq, Bool.not_eq_true', Bool.and_eq_false_iff] at h1
    constructor
    · intro h
      cases h
    · rintro ⟨⟨ha, _, _⟩, _⟩
      have := ha h1.1
      rcases h1.2 with h | h
      · rw [this.1] at h
        cases h
      · rw [this.2] at h
        cases h
  rw [if_neg h1]
  by_cases h2 : (query.blocked && !F.showblocked) = true
  · rw [if_pos h2]
    simp only [Bool.and_eq_true, Bool.not_eq_true'] at h2
    constructor
    · intro h
      cases h
    · rintro ⟨⟨_, hb, _⟩, _⟩
      have := hb h2.1
      rw [h2.2] at this
      cases this
  rw [if_neg h2]
  by_cases h3 : (!query.blocked && !F.showpermitted) = true
  · rw [if_pos h3]
    simp only [Bool.and_eq_true, Bool.not_eq_true'] at h3
    constructor
    · intro h
      cases h
    · rintro ⟨⟨_, _, hc⟩, _⟩
      have := hc h3.1
      rw [h3.2] at this
      cases this
  rw [if_neg h3]
  have hshow : (query.status = QUERY_UNKNOWN → F.showpermitted = true ∧ F.showblocked = true)
      ∧ (query.blocked = true → F.showblocked = true)
      ∧ (query.blocked = false → F.showpermitted = true) := by
    refine ⟨?_, ?_, ?_⟩
    · intro hs
      simp only [Bool.and_eq_true, decide_eq_true_eq, Bool.not_eq_true',
        Bool.and_eq_false_iff, not_and, not_or] at h1
      have := h1 hs
      simpa using this
    · intro hb
      simpa [hb] using h2
    · intro hb
      simpa [hb] using h3
  by_cases h4 : ((decide (F.from_ > query.timestamp) && F.from_ != 0)
      || (decide (query.timestamp > F.until_) && F.until_ != 0)) = true
  · rw [if_pos h4]
    simp only [Bool.or_eq_true, Bool.and_eq_true, decide_eq_true_eq, bne_iff_ne, ne_eq] at h4
    constructor
    · intro h
      cases h
    · rintro ⟨_, ⟨ha, hb⟩, _⟩
      rcases h4 with ⟨h, h'⟩ | ⟨h, h'⟩
      · rcases ha with ha | ha
        · exact (h' ha).elim
        · omega
      · rcases hb with hb | hb
        · exact (h' hb).elim
        · omega
  rw [if_neg h4]
  have htime : (F.from_ = 0 ∨ F.from_ ≤ query.timestamp)
      ∧ (F.until_ = 0 ∨ query.timestamp ≤ F.until_) := by
    simp only [Bool.or_eq_true, Bool.and_eq_true, decide_eq_true_eq, bne_iff_ne, ne_eq,
      not_or, not_and, not_not] at h4
    constructor
    · by_cases h : F.from_ > query.timestamp
      · exact Or.inl (h4.1 h)
      · exact Or.inr (by omega)
    · by_cases h : query.timestamp > F.until_
      · exact Or.inl (h4.2 h)
      · exact Or.inr (by omega)
  by_cases h5 : (F.filterdomainname
      && !(decide (query.domainID = F.domainid)
        || decide (query.CNAME_domainID = F.domainid))) = true
  · rw [if_pos h5]
    simp only [Bool.and_eq_true, Bool.not_eq_true', Bool.or_eq_false_iff,
      decide_eq_false_iff_not] at h5
    constructor
    · intro h
      cases h
    · rintro ⟨_, _, hd, _⟩
      rcases hd h5.1 with h | h
      · exact (h5.2.1 h).elim
      · exact (h5.2.2 h).elim
  rw [if_neg h5]
  have hdom : F.filterdomainname = true →
      (query.domainID = F.domainid ∨ query.CNAME_domainID = F.domainid) := by
    intro hf
    simp only [hf, Bool.true_and, Bool.not_eq_true', Bool.or_eq_false_iff,
      decide_eq_false_iff_not, not_and, not_not] at h5
    by_cases h : query.domainID = F.domainid
    · exact Or.inl h
    · exact Or.inr (h5 h)
  split
  · rename_i h6
    simp only [Bool.and_eq_true] at h6
    constructor
    · intro h
      cases h
    · rintro ⟨_, _, _, hc, _⟩
      have hc := hc h6.1
      have h6' := h6.2
      cases hl : F.clientid_list with
      | none =>
        rw [hl] at hc h6'
        simp only [bne_iff_ne, ne_eq] at h6'
        exact (h6' hc).elim
      | some list =>
        rw [hl] at hc h6'
        simp only [Bool.not_eq_true', List.contains_eq_any_beq, List.any_eq_false,
          beq_iff_eq] at h6'
        exact (h6' _ hc rfl).elim
  rename_i h6
  have hcl : F.filterclientname = true →
      (match F.clientid_list with
        | none => query.clientID = F.clientid
        | some list => query.clientID ∈ list) := by
    intro hf
    simp only [hf, Bool.true_and] at h6
    cases hl : F.clientid_list with
    | none =>
      rw [hl] at h6
      simpa using h6
    | some list =>
      rw [hl] at h6
      simpa using h6
  by_cases h7 : (F.querytype != 0 && F.querytype != query.type) = true
  · rw [if_pos h7]
    simp only [Bool.and_eq_true, bne_iff_ne, ne_eq] at h7
    constructor
    · intro h
      cases h
    · rintro ⟨_, _, _, _, hq, _⟩
      rcases hq with h | h
      · exact (h7.1 h).elim
      · exact (h7.2 h).elim
  rw [if_neg h7]
  have hqt : F.querytype = 0 ∨ F.querytype = query.type := by
    simp only [Bool.and_eq_true, bne_iff_ne, ne_eq, not_and, not_not] at h7
    by_cases h : F.querytype = 0
    · exact Or.inl h
    · exact Or.inr (h7 h)
  by_cases h8 : (F.filterforwarddest
      && (if (decide (F.forwarddestid = -2) && !query.blocked) = true then true
          else if (decide (F.forwarddestid = -1) && query.status != QUERY_CACHE) = true then true
          else if (decide (F.forwarddestid ≥ 0) && F.forwarddestid != query.upstreamID) = true
            then true
          else false)) = true
  · rw [if_pos h8]
    simp only [Bool.and_eq_true] at h8
    constructor
    · intro h
      cases h
    · rintro ⟨_, _, _, _, _, hf⟩
      obtain ⟨ha, hb, hc⟩ := hf h8.1
      have h8' := h8.2
      split_ifs at h8' with g1 g2 g3
      · simp only [Bool.and_eq_true, decide_eq_true_eq, Bool.not_eq_true'] at g1
        have := ha g1.1
        rw [g1.2] at this
        cases this
      · simp only [Bool.and_eq_true, decide_eq_true_eq, bne_iff_ne, ne_eq] at g2
        exact (g2.2 (hb g2.1)).elim
      · simp only [Bool.and_eq_true, decide_eq_true_eq, bne_iff_ne, ne_eq] at g3
        exact (g3.2 (hc g3.1).symm).elim
  rw [if_neg h8]
  refine ⟨fun _ => ⟨hshow, htime, hdom, hcl, hqt, ?_⟩, fun _ => rfl⟩
  intro hf
  simp only [hf, Bool.true_and] at h8
  refine ⟨?_, ?_, ?_⟩
  · intro hid
    by_contra hb
    apply h8
    have hb' : query.blocked = false := by simpa using hb
    simp [hid, hb']
  · intro hid
    by_contra hs
    apply h8
    have : ¬ F.forwarddestid = -2 := by omega
    simp [hid, hs]
  · intro hid
    by_contra hu
    apply h8
    have h2' : ¬ F.forwarddestid = -2 := by omega
    have h1' : ¬ F.forwarddestid = -1 := by omega
    have hu' : ¬ F.forwarddestid = query.upstreamID := fun h => hu h.symm
    simp [h2', h1', hid, hu']


theorem getAllQueries_body_congr (S : Snapshot) (P : Platform) (istelnet : Bool)
    (F F' : ReplayFilter) (queryID : Nat)
    (h : ∀ query, getQuery S queryID = some query →
      getAllQueries_skip F query = getAllQueries_skip F' query) :
    getAllQueries_body S P istelnet F queryID = getAllQueries_body S P istelnet F' queryID := by
  unfold getAllQueries_body
  cases hq : getQuery S (queryID : Int) with
  | none => rfl
  | some query =>
    simp only [h query hq]

theorem getAllQueries_body_skipped (S : Snapshot) (P : Platform) (istelnet : Bool)
    (F : ReplayFilter) (queryID : Nat) (query : queriesData)
    (hq : getQuery S queryID = some query) (h : getAllQueries_skip F query = true) :
    getAllQueries_body S P istelnet F queryID = .skip := by
  unfold getAllQueries_body
  simp only [hq, h, if_true]
  split_ifs <;> rfl

theorem getAllQueries_rows_eq (S : Snapshot) (P : Platform) (client_message : String)
    (istelnet : Bool) (F : ReplayFilter) (hlevel : S.privacylevel < PRIVACY_MAXIMUM)
    (hF : getAllQueries_filter S client_message = some F) :
    (getAllQueries S P client_message istelnet).rows
      = queryLoop (getAllQueries_body S P istelnet F)
          (List.range' F.ibeg.toNat (S.queries.length - F.ibeg.toNat)) := by
  have h : ¬ S.privacylevel ≥ PRIVACY_MAXIMUM := not_le.mpr hlevel
  unfold getAllQueries
  simp only [h, if_false, hF]

theorem getAllQueries_row_inv (S : Snapshot) (P : Platform) (client_message : String)
    (istelnet : Bool) (r : Row) (hr : r ∈ (getAllQueries S P client_message istelnet).rows) :
    ∃ (F : ReplayFilter) (queryID : Nat) (query : queriesData),
      S.privacylevel < PRIVACY_MAXIMUM
        ∧ getAllQueries_filter S client_message = some F
        ∧ r.id = (queryID : Int) ∧ F.ibeg.toNat ≤ queryID ∧ queryID < S.queries.length
        ∧ getQuery S queryID = some query
        ∧ query.privacylevel < PRIVACY_MAXIMUM ∧ query.type < TYPE_MAX
        ∧ getAllQueries_skip F query = false
        ∧ ((getAllQueries_body S P istelnet F queryID = .emit r.out ∧ r.complete = true)
          ∨ (getAllQueries_body S P istelnet F queryID = .abort r.out ∧ r.complete = false)) := by
  by_cases hlevel : S.privacylevel < PRIVACY_MAXIMUM
  · cases hF : getAllQueries_filter S client_message with
    | none =>
      have h : ¬ S.privacylevel ≥ PRIVACY_MAXIMUM := not_le.mpr hlevel
      simp [getAllQueries, h, hF] at hr
    | some F =>
      rw [getAllQueries_rows_eq S P client_message istelnet F hlevel hF] at hr
      obtain ⟨queryID, hmem, hid, hw⟩ := queryLoop_mem _ _ r hr
      have hne : getAllQueries_body S P istelnet F queryID ≠ .skip := by
        rcases hw with ⟨h, _⟩ | ⟨h, _⟩ <;> simp [h]
      obtain ⟨query, hq, hp, ht, hs⟩ := getAllQueries_body_wrote S P istelnet F queryID hne
      have hrange := List.mem_range'.mp hmem
      obtain ⟨i, hi, hqi⟩ := hrange
      refine ⟨F, queryID, query, hlevel, rfl, hid, by omega, by omega, hq, hp, ht, hs, hw⟩
  · have h : S.privacylevel ≥ PRIVACY_MAXIMUM := not_lt.mp hlevel
    simp [getAllQueries, h] at hr

theorem queryLoop_emit_mem (body : Nat → Step) (hab : ∀ q, (body q).isAbort = false) :
    ∀ (l : List Nat) (q : Nat) (out : List Out), q ∈ l → body q = .emit out →
      (⟨(q : Int), out, true⟩ : Row) ∈ queryLoop body l
  | [], q, out, h, _ => by cases h
  | x :: rest, q, out, h, hb => by
    unfold queryLoop
    rcases List.mem_cons.mp h with rfl | h
    · rw [hb]
      exact List.mem_cons_self _ _
    · have ih := queryLoop_emit_mem body hab rest q out h hb
      cases hx : body x with
      | skip => exact ih
      | pass => exact ih
      | emit o => exact List.mem_cons_of_mem _ ih
      | abort o =>
        have := hab x
        rw [hx] at this
        simp [Step.isAbort] at this

theorem queryLoop_pairwise (body : Nat → Step) :
    ∀ (l : List Nat), l.Pairwise (fun a b => a < b) →
      (queryLoop body l).Pairwise (fun a b => a.complete = true ∧ a.id < b.id)
  | [], _ => by simp [queryLoop]
  | x :: rest, h => by
    have hp := List.pairwise_cons.mp h
    have ih := queryLoop_pairwise body rest hp.2
    unfold queryLoop
    cases hx : body x with
    | skip => exact ih
    | pass => exact ih
    | abort o => exact List.pairwise_singleton _ _
    | emit o =>
      refine List.pairwise_cons.mpr ⟨?_, ih⟩
      intro r hr
      obtain ⟨q, hq, hid, _⟩ := queryLoop_mem body rest r hr
      refine ⟨rfl, ?_⟩
      rw [hid]
      show (x : Int) < (q : Int)
      exact_mod_cast hp.1 q hq

theorem getAllQueries_body_isAbort (S : Snapshot) (P : Platform) (istelnet : Bool)
    (F : ReplayFilter)
    (henc : istelnet = true ∨ ((∀ s, P.pack_str32 s = true) ∧ ∀ s, P.pack_fixstr s = true))
    (queryID : Nat) : (getAllQueries_body S P istelnet F queryID).isAbort = false := by
  unfold getAllQueries_body
  cases hq : getQuery S (queryID : Int) with
  | none => rfl
  | some query =>
    simp only
    by_cases h1 : query.privacylevel ≥ PRIVACY_MAXIMUM
    · rw [if_pos h1]
      rfl
    rw [if_neg h1]
    by_cases h2 : query.type ≥ TYPE_MAX
    · rw [if_pos h2]
      rfl
    rw [if_neg h2]
    by_cases h3 : getAllQueries_skip F query = true
    · rw [if_pos h3]
      rfl
    rw [if_neg h3]
    cases hd : getDomainString S query with
    | none => rfl
    | some domain =>
      cases hc : getClient S query.clientID with
      | none => rfl
      | some client =>
        simp only
        rcases henc with h | ⟨h, h'⟩
        · subst h
          rfl
        · cases istelnet
          · simp [h, h', Step.isAbort]
          · rfl


theorem queryLoop_reaches (body : Nat → Step) :
    ∀ (l : List Nat) (q : Nat) (out : List Out), l.Pairwise (fun a b => a < b) → q ∈ l →
      (∀ x ∈ l, x < q → (body x).isAbort = false) → body q = .emit out →
      (⟨(q : Int), out, true⟩ : Row) ∈ queryLoop body l
  | [], q, out, _, h, _, _ => by cases h
  | x :: rest, q, out, hp, h, hab, hb => by
    have hp' := List.pairwise_cons.mp hp
    unfold queryLoop
    rcases List.mem_cons.mp h with rfl | h
    · rw [hb]
      exact List.mem_cons_self _ _
    · have hxq : x < q := hp'.1 q h
      have ih := queryLoop_reaches body rest q out hp'.2 h
        (fun y hy hyq => hab y (List.mem_cons_of_mem _ hy) hyq) hb
      cases hx : body x with
      | skip => exact ih
      | pass => exact ih
      | emit o => exact List.mem_cons_of_mem _ ih
      | abort o =>
        have := hab x (List.mem_cons_self _ _) hxq
        rw [hx] at this
        simp [Step.isAbort] at this

theorem queryLoop_length_le (body : Nat → Step) :
    ∀ (l : List Nat), (queryLoop body l).length ≤ l.length
  | [] => by simp [queryLoop]
  | x :: rest => by
    have ih := queryLoop_length_le body rest
    unfold queryLoop
    cases hx : body x <;> simp <;> omega

theorem strstr_of_isPrefixOf (needle' needle : List Char)
    (hpre : needle'.isPrefixOf needle = true) :
    ∀ hay : List Char, strstr hay needle = true → strstr hay needle' = true
  | [], h => by
    simp only [strstr, List.isEmpty_iff] at h
    subst h
    cases needle' with
    | nil => rfl
    | cons c cs => simp at hpre
  | c :: cs, h => by
    unfold strstr at h ⊢
    simp only [Bool.or_eq_true] at h ⊢
    rcases h with h | h
    · left
      rw [List.isPrefixOf_iff_prefix] at hpre h ⊢
      exact hpre.trans h
    · right
      exact strstr_of_isPrefixOf needle' needle hpre cs h

theorem command_client_of_blocked (client_message : String)
    (h : command client_message ">getallqueries-client-blocked" = true) :
    command client_message ">getallqueries-client" = true :=
  strstr_of_isPrefixOf _ _ (by decide) _ h

theorem getClient_of_first (S : Snapshot) (p : Option clientsData → Bool) (i : Nat)
    (hp : ∀ o, p o = true → o ≠ none) (h : IsFirstIndex p S.clients i) :
    ∃ client, getClient S (i : Int) = some client ∧ p (some client) = true := by
  obtain ⟨⟨o, ho, hpo⟩, _⟩ := h
  cases o with
  | none => exact absurd rfl (hp none hpo)
  | some client =>
    refine ⟨client, ?_, hpo⟩
    unfold getClient
    rw [lookup_natCast, ho]
    rfl


theorem firstSlot_congr {α : Type} (p q : α → Bool) (h : ∀ x, p x = q x) (l : List α)
    (k : Nat) : firstSlot p l k = firstSlot q l k := by
  have : p = q := funext h
  rw [this]

theorem resolveDomain_eq (S : Snapshot) (domainname : String) :
    resolveDomain S domainname
      = ((firstSlot (domainNamed S domainname) S.domains 0).map Nat.cast).getD (-1) := by
  unfold resolveDomain
  rw [firstSlot_congr _ (domainNamed S domainname) (by intro o; cases o <;> rfl)]
  cases firstSlot (domainNamed S domainname) S.domains 0 <;> rfl

theorem resolveClient_present (S : Snapshot) (clientname : String)
    (h : resolveClient S clientname ≠ -1) :
    ∃ (i : Nat) (client : clientsData), resolveClient S clientname = (i : Int)
      ∧ getClient S (i : Int) = some client ∧ client.aliasclient_id < 0 := by
  unfold resolveClient at h ⊢
  generalize hr : firstSlot _ S.clients 0 = r at h ⊢
  cases r with
  | none => exact absurd rfl h
  | some i =>
    have hfirst := ((firstSlot_some _ _ 0 i).mp hr).2
    rw [Nat.sub_zero] at hfirst
    have hex := getClient_of_first S _ i ?_ hfirst
    swap
    · intro o ho
      cases o with
      | none => cases ho
      | some c => simp
    obtain ⟨client, hc, hp⟩ := hex
    refine ⟨i, client, rfl, hc, ?_⟩
    simp only [Bool.and_eq_true, Bool.not_eq_true', decide_eq_false_iff_not, not_le] at hp
    exact hp.1

theorem getAllQueries_of_filter_none (S : Snapshot) (P : Platform) (client_message : String)
    (istelnet : Bool) (h : getAllQueries_filter S client_message = none) :
    getAllQueries S P client_message istelnet = ⟨[], []⟩ := by
  unfold getAllQueries
  split
  · rfl
  · rw [h]

theorem getAllQueries_filter_isSome_domain (S : Snapshot) (client_message : String)
    (hcmd : command client_message ">getallqueries-domain" = true)
    (h : resolveDomain S (sscanf_s ">getallqueries-domain" client_message) < 0) :
    getAllQueries_filter S client_message = none := by
  cases hF : getAllQueries_filter S client_message with
  | none => rfl
  | some F =>
    obtain ⟨_, _, _, _, _, _, _, h8, h9, _⟩ := getAllQueries_filter_some S client_message F hF
    rw [hcmd, if_pos rfl] at h8
    have := h9 hcmd
    omega


theorem toInt32_of_range (v : Int) (h1 : -(2 ^ 31) ≤ v) (h2 : v < 2 ^ 31) : toInt32 v = v := by
  unfold toInt32
  have e1 : min v (2 ^ 63 - 1) = v := min_eq_left (by omega)
  have e2 : max (-(2 ^ 63)) v = v := max_eq_right (by omega)
  simp only [e1, e2]
  omega

theorem queryLoop_id_mem (body : Nat → Step) :
    ∀ (l : List Nat) (r : Row), r ∈ queryLoop body l → ∃ q ∈ l, r.id = (q : Int)
  | [], r, h => by simp [queryLoop] at h
  | x :: rest, r, h => by
    unfold queryLoop at h
    cases hx : body x with
    | skip =>
      rw [hx] at h
      obtain ⟨q, hq, e⟩ := queryLoop_id_mem body rest r h
      exact ⟨q, List.mem_cons_of_mem _ hq, e⟩
    | pass =>
      rw [hx] at h
      obtain ⟨q, hq, e⟩ := queryLoop_id_mem body rest r h
      exact ⟨q, List.mem_cons_of_mem _ hq, e⟩
    | emit out =>
      rw [hx] at h
      rcases List.mem_cons.mp h with rfl | h
      · exact ⟨x, List.mem_cons_self _ _, rfl⟩
      · obtain ⟨q, hq, e⟩ := queryLoop_id_mem body rest r h
        exact ⟨q, List.mem_cons_of_mem _ hq, e⟩
    | abort out =>
      rw [hx] at h
      rw [List.mem_singleton.mp h]
      exact ⟨x, List.mem_cons_self _ _, rfl⟩

theorem queryLoop_stops (body : Nat → Step) :
    ∀ (l : List Nat) (q : Nat) (out : List Out), l.Pairwise (fun a b => a < b) → q ∈ l →
      body q = .abort out → ∀ r ∈ queryLoop body l, r.id ≤ (q : Int)
  | [], q, out, _, h, _ => by cases h
  | x :: rest, q, out, hp, h, hb => by
    have hp' := List.pairwise_cons.mp hp
    intro r hr
    unfold queryLoop at hr
    rcases List.mem_cons.mp h with rfl | h
    · rw [hb] at hr
      rw [List.mem_singleton.mp hr]
    · have ih := queryLoop_stops body rest q out hp'.2 h hb
      have hxq : x < q := hp'.1 q h
      cases hx : body x with
      | skip =>
        rw [hx] at hr
        exact ih r hr
      | pass =>
        rw [hx] at hr
        exact ih r hr
      | emit o =>
        rw [hx] at hr
        rcases List.mem_cons.mp hr with rfl | hr
        · show (x : Int) ≤ (q : Int)
          omega
        · exact ih r hr
      | abort o =>
        rw [hx] at hr
        rw [List.mem_singleton.mp hr]
        show (x : Int) ≤ (q : Int)
        omega

theorem StepExtends_self (a : Step) (h : a.isAbort = false) : StepExtends a a := by
  refine ⟨fun h => h, fun h => h, fun _ h => h, ?_⟩
  intro out ha
  rw [ha] at h
  cases h

theorem StepExtends_abort (out t : List Out) : StepExtends (.abort out) (.emit (out ++ t)) := by
  refine ⟨?_, ?_, ?_, ?_⟩
  · intro h
    cases h
  · intro h
    cases h
  · intro _ h
    cases h
  · intro o h
    rw [← Step.abort.inj h]
    exact ⟨t, rfl⟩

theorem queryLoop_wire_extends (body body' : Nat → Step)
    (h : ∀ q, StepExtends (body q) (body' q)) :
    ∀ l : List Nat, ∃ t, ((queryLoop body l).map Row.out).flatten ++ t
      = ((queryLoop body' l).map Row.out).flatten
  | [] => ⟨[], by simp [queryLoop]⟩
  | x :: rest => by
    obtain ⟨t, ht⟩ := queryLoop_wire_extends body body' h rest
    obtain ⟨h1, h2, h3, h4⟩ := h x
    unfold queryLoop
    cases hx : body x with
    | skip =>
      rw [h1 hx]
      exact ⟨t, ht⟩
    | pass =>
      rw [h2 hx]
      exact ⟨t, ht⟩
    | emit out =>
      rw [h3 out hx]
      refine ⟨t, ?_⟩
      simp only [List.map_cons, List.flatten_cons, List.append_assoc, ht]
    | abort out =>
      obtain ⟨u, hu⟩ := h4 out hx
      rw [hu]
      refine ⟨u ++ ((queryLoop body' rest).map Row.out).flatten, ?_⟩
      simp only [List.map_cons, List.map_nil, List.flatten_cons, List.flatten_nil,
        List.append_nil, List.append_assoc]

theorem queryLoop_sent_extends (body body' : Nat → Step)
    (h : ∀ q, StepExtends (body q) (body' q)) :
    ∀ l : List Nat, ∃ t, (queryLoop body l).filter Row.complete ++ t = queryLoop body' l
  | [] => ⟨[], by simp [queryLoop]⟩
  | x :: rest => by
    obtain ⟨t, ht⟩ := queryLoop_sent_extends body body' h rest
    obtain ⟨h1, h2, h3, h4⟩ := h x
    unfold queryLoop
    cases hx : body x with
    | skip =>
      rw [h1 hx]
      exact ⟨t, ht⟩
    | pass =>
      rw [h2 hx]
      exact ⟨t, ht⟩
    | emit out =>
      rw [h3 out hx]
      refine ⟨t, ?_⟩
      simp only [List.filter_cons, if_true, List.cons_append, ht]
    | abort out =>
      obtain ⟨u, hu⟩ := h4 out hx
      rw [hu]
      exact ⟨⟨(x : Int), out ++ u, true⟩ :: queryLoop body' rest, by
        simp only [List.filter_cons, Bool.false_eq_true, if_false, List.filter_nil,
          List.nil_append]⟩

theorem StepExtends_ite (c : Bool) (out full : List Out) (h : ∃ t, full = out ++ t) :
    StepExtends (if c = true then .abort out else .emit full) (.emit full) := by
  obtain ⟨t, rfl⟩ := h
  cases c
  · exact StepExtends_self _ rfl
  · exact StepExtends_abort _ _

theorem getAllQueries_body_accepting (S : Snapshot) (P : Platform) (F : ReplayFilter)
    (queryID : Nat) :
    StepExtends (getAllQueries_body S P false F queryID)
      (getAllQueries_body S (acceptingPlatform P) false F queryID) := by
  have hlabel : ∀ query, qtypeLabel (acceptingPlatform P) query = qtypeLabel P query :=
    fun _ => rfl
  have hfix : ∀ s, (acceptingPlatform P).pack_fixstr s = true := fun _ => rfl
  have hstr : ∀ s, (acceptingPlatform P).pack_str32 s = true := fun _ => rfl
  unfold getAllQueries_body
  cases hq : getQuery S (queryID : Int) with
  | none => exact StepExtends_self _ rfl
  | some query =>
    simp only
    by_cases h1 : query.privacylevel ≥ PRIVACY_MAXIMUM
    · rw [if_pos h1, if_pos h1]
      exact StepExtends_self _ rfl
    rw [if_neg h1, if_neg h1]
    by_cases h2 : query.type ≥ TYPE_MAX
    · rw [if_pos h2, if_pos h2]
      exact StepExtends_self _ rfl
    rw [if_neg h2, if_neg h2]
    by_cases h3 : getAllQueries_skip F query = true
    · rw [if_pos h3, if_pos h3]
      exact StepExtends_self _ rfl
    rw [if_neg h3, if_neg h3]
    cases hd : getDomainString S query with
    | none => exact StepExtends_self _ rfl
    | some domain =>
      cases hc : getClient S query.clientID with
      | none => exact StepExtends_self _ rfl
      | some client =>
        simp only [hlabel, hfix, hstr, Bool.false_eq_true, if_false, Bool.not_true]
        cases hf : P.pack_fixstr (qtypeLabel P query)
        · simp only [Bool.not_false, if_true]
          exact StepExtends_abort _ _
        · simp only [Bool.not_true, Bool.false_eq_true, if_false]
          cases hs : P.pack_str32 domain
          · simp only [Bool.not_false, if_true]
            exact StepExtends_abort _ _
          · simp only [Bool.not_true, Bool.false_eq_true, if_false]
            exact StepExtends_ite _ _ _ ⟨_, rfl⟩


theorem resolveForward_cases (S : Snapshot) (forwarddest : String) :
    (forwarddest = "cache" → resolveForward S forwarddest = -1)
      ∧ (forwarddest = "blocklist" → resolveForward S forwarddest = -2)
      ∧ (forwarddest ≠ "cache" → forwarddest ≠ "blocklist" →
          resolveForward S forwarddest = -3
            ∨ ∃ u : Nat, resolveForward S forwarddest = (u : Int)) := by
  refine ⟨?_, ?_, ?_⟩
  · intro h
    subst h
    rfl
  · intro h
    subst h
    rfl
  · intro h1 h2
    unfold resolveForward
    rw [if_neg h1, if_neg h2]
    simp only
    generalize firstSlot _ S.upstreams 0 = r
    cases r with
    | none => exact Or.inl rfl
    | some u => exact Or.inr ⟨u, rfl⟩

theorem getAllQueries_ibeg (S : Snapshot) (client_message : String) (F : ReplayFilter)
    (hF : getAllQueries_filter S client_message = some F) :
    (sscanf_count client_message = none → F.ibeg = 0)
      ∧ ∀ N : Int, sscanf_count client_message = some N →
          -(2 ^ 31) ≤ (S.queries.length : Int) - N → (S.queries.length : Int) - N < 2 ^ 31 →
          F.ibeg = max 0 ((S.queries.length : Int) - N) := by
  obtain ⟨_, _, _, _, _, _, _, _, _, _, _, _, _, _, _, h16⟩ :=
    getAllQueries_filter_some S client_message F hF
  constructor
  · intro hN
    rw [hN] at h16
    exact h16
  · intro N hN hlo hhi
    rw [hN] at h16
    simp only [toInt32_of_range _ hlo hhi] at h16
    rw [h16]
    by_cases hneg : (S.queries.length : Int) - N < 0
    · rw [if_pos hneg, max_eq_left (le_of_lt hneg)]
    · rw [if_neg hneg, max_eq_right (not_lt.mp hneg)]

theorem replay_count_in_range (S : Snapshot) (P : Platform) (client_message : String)
    (istelnet : Bool) (N : Int) (hN : sscanf_count client_message = some N)
    (hlo : -(2 ^ 31) ≤ (S.queries.length : Int) - N)
    (hhi : (S.queries.length : Int) - N < 2 ^ 31) :
    (∀ r ∈ (getAllQueries S P client_message istelnet).rows,
        max 0 ((S.queries.length : Int) - N) ≤ r.id ∧ r.id < (S.queries.length : Int))
      ∧ (0 ≤ N → (((getAllQueries S P client_message istelnet).rows.length : Nat) : Int) ≤ N) := by
  constructor
  · intro r hr
    obtain ⟨F, queryID, query, _, hF, hid, hbeg, hlen, _⟩ :=
      getAllQueries_row_inv S P client_message istelnet r hr
    have hib := (getAllQueries_ibeg S client_message F hF).2 N hN hlo hhi
    rw [hid, ← hib]
    constructor
    · omega
    · exact_mod_cast hlen
  · intro hN0
    by_cases hlevel : S.privacylevel < PRIVACY_MAXIMUM
    · cases hF : getAllQueries_filter S client_message with
      | none =>
        rw [getAllQueries_of_filter_none S P client_message istelnet hF]
        exact hN0
      | some F =>
        rw [getAllQueries_rows_eq S P client_message istelnet F hlevel hF]
        have hle := queryLoop_length_le (getAllQueries_body S P istelnet F)
          (List.range' F.ibeg.toNat (S.queries.length - F.ibeg.toNat))
        rw [List.length_range'] at hle
        have hib := (getAllQueries_ibeg S client_message F hF).2 N hN hlo hhi
        have := le_max_right 0 ((S.queries.length : Int) - N)
        omega
    · have h : S.privacylevel ≥ PRIVACY_MAXIMUM := not_lt.mp hlevel
      simp only [getAllQueries, h, if_true, List.length_nil]
      exact hN0


theorem getAllQueries_body_line (S : Snapshot) (P : Platform) (F : ReplayFilter)
    (queryID : Nat) (out : List Out)
    (h : getAllQueries_body S P true F queryID = .emit out) :
    ∃ (query : queriesData) (domain : String) (client : clientsData),
      getQuery S queryID = some query ∧ getDomainString S query = some domain
        ∧ getClient S query.clientID = some client
        ∧ ∃ (CNAME_domain upstream_name : String) (reply delay regex_idx upstream_port : Int),
          out = [Out.ssend "%lli %s %s %s %i %i %i %lu %s %i %s#%u \"%s\""
              [.int query.timestamp, .str (qtypeLabel P query), .str domain,
               .str (if (S.getstr client.namepos).length > 0 then getClientNameString S query
                     else getClientIPString S query),
               .int query.status, .int query.dnssec, .int reply, .int delay,
               .str CNAME_domain, .int regex_idx, .str upstream_name, .int upstream_port,
               .str (if query.ede = -1 then "" else P.get_edestr query.ede)]]
            ++ (if S.debug_api then [Out.ssend " \"%i\"" [.int queryID]] else [])
            ++ [Out.ssend "\n" []]
          ∧ reply = (if query.status = QUERY_RETRIED ∨ query.status = QUERY_IN_PROGRESS
              then REPLY_UNKNOWN
              else if query.response_calculated then query.reply else REPLY_UNKNOWN)
          ∧ delay = (if query.status = QUERY_RETRIED ∨ query.status = QUERY_IN_PROGRESS
              then 0
              else if query.response_calculated then query.response else 0)
          ∧ regex_idx = (if (query.status = QUERY_REGEX ∨ query.status = QUERY_REGEX_CNAME)
                ∧ S.privacylevel < PRIVACY_HIDE_DOMAINS then
              ((S.getDNSCache (S.findCacheID query.domainID query.clientID query.type)).map
                DNSCacheData.black_regex_idx).getD (-1)
              else -1) := by
  unfold getAllQueries_body at h
  cases hq : getQuery S (queryID : Int) with
  | none =>
    rw [hq] at h
    cases h
  | some query =>
    simp only [hq] at h
    by_cases h1 : query.privacylevel ≥ PRIVACY_MAXIMUM
    · rw [if_pos h1] at h
      cases h
    rw [if_neg h1] at h
    by_cases h2 : query.type ≥ TYPE_MAX
    · rw [if_pos h2] at h
      cases h
    rw [if_neg h2] at h
    by_cases h3 : getAllQueries_skip F query = true
    · rw [if_pos h3] at h
      cases h
    rw [if_neg h3] at h
    cases hd : getDomainString S query with
    | none =>
      simp only [hd] at h
      cases h
    | some domain =>
      cases hc : getClient S query.clientID with
      | none =>
        simp only [hd, hc] at h
        cases h
      | some client =>
        simp only [hd, hc, if_true] at h
        refine ⟨query, domain, client, rfl, hd, hc, _, _, _, _, _, _,
          (Step.emit.inj h).symm, ?_, ?_, ?_⟩
        · by_cases hr : query.status = QUERY_RETRIED ∨ query.status = QUERY_IN_PROGRESS
          · rcases hr with hr | hr <;> simp [hr]
          · have hr1 : query.status ≠ QUERY_RETRIED := fun e => hr (Or.inl e)
            have hr2 : query.status ≠ QUERY_IN_PROGRESS := fun e => hr (Or.inr e)
            simp [hr1, hr2]
        · by_cases hr : query.status = QUERY_RETRIED ∨ query.status = QUERY_IN_PROGRESS
          · rcases hr with hr | hr <;> simp [hr]
          · have hr1 : query.status ≠ QUERY_RETRIED := fun e => hr (Or.inl e)
            have hr2 : query.status ≠ QUERY_IN_PROGRESS := fun e => hr (Or.inr e)
            simp [hr1, hr2]
        · split
          · cases S.getDNSCache (S.findCacheID query.domainID query.clientID query.type) <;> rfl
          · rfl


theorem queryLoop_pairs (R : List Out → List Out → Prop) (body body' : Nat → Step)
    (h : ∀ q, StepPairs R (body q) (body' q)) :
    ∀ l : List Nat,
      List.Forall₂ (fun (a b : Row) => a.id = b.id ∧ a.complete = true ∧ b.complete = true
          ∧ R a.out b.out)
        (queryLoop body l) (queryLoop body' l)
  | [] => by
    simp only [queryLoop]
    exact List.Forall₂.nil
  | x :: rest => by
    have ih := queryLoop_pairs R body body' h rest
    unfold queryLoop
    rcases h x with ⟨ha, hb⟩ | ⟨lo, bo, ha, hb, hR⟩
    · rw [ha, hb]
      exact ih
    · rw [ha, hb]
      exact List.Forall₂.cons ⟨rfl, rfl, rfl, hR⟩ ih

theorem queryLoop_ids_extends (body body' : Nat → Step)
    (h : ∀ q, StepExtends (body q) (body' q)) :
    ∀ l : List Nat, ∃ t, (queryLoop body l).map Row.id ++ t = (queryLoop body' l).map Row.id
  | [] => ⟨[], by simp [queryLoop]⟩
  | x :: rest => by
    obtain ⟨t, ht⟩ := queryLoop_ids_extends body body' h rest
    obtain ⟨h1, h2, h3, h4⟩ := h x
    unfold queryLoop
    cases hx : body x with
    | skip =>
      rw [h1 hx]
      exact ⟨t, ht⟩
    | pass =>
      rw [h2 hx]
      exact ⟨t, ht⟩
    | emit out =>
      rw [h3 out hx]
      refine ⟨t, ?_⟩
      simp only [List.map_cons, List.cons_append, ht]
    | abort out =>
      obtain ⟨u, hu⟩ := h4 out hx
      rw [hu]
      exact ⟨(queryLoop body' rest).map Row.id, by
        simp only [List.map_cons, List.map_nil, List.cons_append, List.nil_append]⟩

theorem rows_ids_of_pairs (R : Row → Row → Prop) (hR : ∀ a b, R a b → a.id = b.id) :
    ∀ (l l' : List Row), List.Forall₂ R l l' → l.map Row.id = l'.map Row.id
  | _, _, .nil => rfl
  | _, _, .cons hab hrest => by
    simp only [List.map_cons, hR _ _ hab, rows_ids_of_pairs R hR _ _ hrest]

theorem getAllQueries_body_modes (S : Snapshot) (P : Platform) (F : ReplayFilter)
    (queryID : Nat) :
    StepPairs (fun lo bo =>
        (fieldsOf lo).length = 13 + (if S.debug_api then 1 else 0)
          ∧ bo.length = 6 ∧ fieldsOf bo = binaryFields (fieldsOf lo))
      (getAllQueries_body S P true F queryID)
      (getAllQueries_body S (acceptingPlatform P) false F queryID) := by
  have hlabel : ∀ query, qtypeLabel (acceptingPlatform P) query = qtypeLabel P query :=
    fun _ => rfl
  have hfix : ∀ s, (acceptingPlatform P).pack_fixstr s = true := fun _ => rfl
  have hstr : ∀ s, (acceptingPlatform P).pack_str32 s = true := fun _ => rfl
  unfold getAllQueries_body
  cases hq : getQuery S (queryID : Int) with
  | none => exact Or.inl ⟨rfl, rfl⟩
  | some query =>
    simp only
    by_cases h1 : query.privacylevel ≥ PRIVACY_MAXIMUM
    · rw [if_pos h1, if_pos h1]
      exact Or.inl ⟨rfl, rfl⟩
    rw [if_neg h1, if_neg h1]
    by_cases h2 : query.type ≥ TYPE_MAX
    · rw [if_pos h2, if_pos h2]
      exact Or.inl ⟨rfl, rfl⟩
    rw [if_neg h2, if_neg h2]
    by_cases h3 : getAllQueries_skip F query = true
    · rw [if_pos h3, if_pos h3]
      exact Or.inl ⟨rfl, rfl⟩
    rw [if_neg h3, if_neg h3]
    cases hd : getDomainString S query with
    | none => exact Or.inl ⟨rfl, rfl⟩
    | some domain =>
      cases hc : getClient S query.clientID with
      | none => exact Or.inl ⟨rfl, rfl⟩
      | some client =>
        simp only [hlabel, hfix, hstr, Bool.false_eq_true, if_false, if_true, Bool.not_true]
        refine Or.inr ⟨_, _, rfl, rfl, ?_, rfl, ?_⟩
        · cases S.debug_api <;> simp [fieldsOf, Out.fields]
        · cases S.debug_api <;> simp [fieldsOf, Out.fields, binaryFields]


theorem getAllQueries_body_binary_length (S : Snapshot) (P : Platform) (F : ReplayFilter)
    (queryID : Nat) (out : List Out)
    (h : getAllQueries_body S P false F queryID = .emit out
      ∨ getAllQueries_body S P false F queryID = .abort out) :
    (fieldsOf out).length ≤ 6 := by
  unfold getAllQueries_body at h
  cases hq : getQuery S (queryID : Int) with
  | none =>
    rw [hq] at h
    rcases h with h | h <;> cases h
  | some query =>
    simp only [hq] at h
    by_cases h1 : query.privacylevel ≥ PRIVACY_MAXIMUM
    · rw [if_pos h1] at h
      rcases h with h | h <;> cases h
    rw [if_neg h1] at h
    by_cases h2 : query.type ≥ TYPE_MAX
    · rw [if_pos h2] at h
      rcases h with h | h <;> cases h
    rw [if_neg h2] at h
    by_cases h3 : getAllQueries_skip F query = true
    · rw [if_pos h3] at h
      rcases h with h | h <;> cases h
    rw [if_neg h3] at h
    cases hd : getDomainString S query with
    | none =>
      simp only [hd] at h
      rcases h with h | h <;> cases h
    | some domain =>
      cases hc : getClient S query.clientID with
      | none =>
        simp only [hd, hc] at h
        rcases h with h | h <;> cases h
      | some client =>
        simp only [hd, hc, Bool.false_eq_true, if_false] at h
        by_cases hf : (!P.pack_fixstr (qtypeLabel P query)) = true
        · rw [if_pos hf] at h
          rcases h with h | h
          · cases h
          · rw [← Step.abort.inj h]
            simp [fieldsOf, Out.fields]
        rw [if_neg hf] at h
        by_cases hs : (!P.pack_str32 domain) = true
        · rw [if_pos hs] at h
          rcases h with h | h
          · cases h
          · rw [← Step.abort.inj h]
            simp [fieldsOf, Out.fields]
        rw [if_neg hs] at h
        generalize (if (S.getstr client.namepos).length > 0 then getClientNameString S query
          else getClientIPString S query) = clientIPName at h
        by_cases hn : (!P.pack_str32 clientIPName) = true
        · rw [if_pos hn] at h
          rcases h with h | h
          · cases h
          · rw [← Step.abort.inj h]
            simp [fieldsOf, Out.fields]
        · rw [if_neg hn] at h
          rcases h with h | h
          · rw [← Step.emit.inj h]
            simp [fieldsOf, Out.fields]
          · cases h


theorem getAllQueries_rows_shape (S : Snapshot) (client_message : String) :
    (∀ (P : Platform) (istelnet : Bool), (getAllQueries S P client_message istelnet).rows = [])
      ∨ ∃ F, getAllQueries_filter S client_message = some F
          ∧ ∀ (P : Platform) (istelnet : Bool),
              (getAllQueries S P client_message istelnet).rows
                = queryLoop (getAllQueries_body S P istelnet F)
                    (List.range' F.ibeg.toNat (S.queries.length - F.ibeg.toNat)) := by
  by_cases hlevel : S.privacylevel < PRIVACY_MAXIMUM
  · cases hF : getAllQueries_filter S client_message with
    | none =>
      left
      intro P istelnet
      rw [getAllQueries_of_filter_none S P client_message istelnet hF]
    | some F =>
      right
      exact ⟨F, rfl, fun P istelnet =>
        getAllQueries_rows_eq S P client_message istelnet F hlevel hF⟩
  · left
    intro P istelnet
    have h : S.privacylevel ≥ PRIVACY_MAXIMUM := not_lt.mp hlevel
    simp only [getAllQueries, h, if_true]


theorem resolveForward_eq (S : Snapshot) (forwarddest : String)
    (h1 : forwarddest ≠ "cache") (h2 : forwarddest ≠ "blocklist") :
    resolveForward S forwarddest
      = ((firstSlot (upstreamNamed S (sscanf_forward forwarddest).1
            (sscanf_forward forwarddest).2) S.upstreams 0).map Nat.cast).getD (-3) := by
  unfold resolveForward
  rw [if_neg h1, if_neg h2]
  rcases sscanf_forward forwarddest with ⟨serv_addr, serv_port⟩
  simp only
  rw [firstSlot_congr _ (upstreamNamed S serv_addr serv_port) (by intro o; cases o <;> rfl)]
  cases firstSlot (upstreamNamed S serv_addr serv_port) S.upstreams 0 <;> rfl

theorem getAllQueries_of_forward_unresolved (S : Snapshot) (P : Platform)
    (client_message : String) (istelnet : Bool)
    (hcmd : command client_message ">getallqueries-forward" = true)
    (h : resolveForward S (sscanf_s ">getallqueries-forward" client_message) = -3) :
    getAllQueries S P client_message istelnet = ⟨[], []⟩ := by
  apply getAllQueries_of_filter_none
  cases hF : getAllQueries_filter S client_message with
  | none => rfl
  | some F =>
    obtain ⟨_, _, _, _, h5, h6, _⟩ := getAllQueries_filter_some S client_message F hF
    rw [hcmd, if_pos rfl, h] at h5
    exact absurd h5 (h6 hcmd)

theorem getAllQueries_of_client_unresolved (S : Snapshot) (P : Platform)
    (client_message : String) (istelnet : Bool)
    (hcmd : command client_message ">getallqueries-client" = true)
    (h : resolveClient S
        (if command client_message ">getallqueries-client-blocked" then
          sscanf_s ">getallqueries-client-blocked" client_message
         else sscanf_s ">getallqueries-client" client_message) = -1) :
    getAllQueries S P client_message istelnet = ⟨[], []⟩ := by
  apply getAllQueries_of_filter_none
  cases hF : getAllQueries_filter S client_message with
  | none => rfl
  | some F =>
    obtain ⟨_, _, _, _, _, _, _, _, _, _, h11, h12, _⟩ :=
      getAllQueries_filter_some S client_message F hF
    rw [hcmd, if_pos rfl, Bool.true_and, h] at h11
    exact absurd h11 (h12 hcmd)

theorem takeWhile_append_stop (p : Char → Bool) (c : Char) (hc : p c = false) :
    ∀ (l rest : List Char), (∀ x ∈ l, p x = true) → (l ++ c :: rest).takeWhile p = l
  | [], rest, _ => by simp [List.takeWhile, hc]
  | x :: xs, rest, h => by
    have hx : p x = true := h x (List.mem_cons_self _ _)
    have ih := takeWhile_append_stop p c hc xs rest
      (fun y hy => h y (List.mem_cons_of_mem _ hy))
    rw [List.cons_append, List.takeWhile_cons, if_pos hx, ih]

theorem takeWhile_all (p : Char → Bool) :
    ∀ (l : List Char), (∀ x ∈ l, p x = true) → l.takeWhile p = l
  | [], _ => rfl
  | x :: xs, h => by
    have hx : p x = true := h x (List.mem_cons_self _ _)
    have ih := takeWhile_all p xs (fun y hy => h y (List.mem_cons_of_mem _ hy))
    rw [List.takeWhile_cons, if_pos hx, ih]

theorem sscanf_forward_plain (addr : List Char) (hne : addr ≠ []) (hlen : addr.length ≤ 45)
    (hno : '#' ∉ addr) : sscanf_forward (String.mk addr) = (String.mk addr, 53) := by
  have hp : ∀ x ∈ addr, (x != '#') = true := by
    intro x hx
    simp only [bne_iff_ne, ne_eq]
    rintro rfl
    exact hno hx
  unfold sscanf_forward
  simp only [takeWhile_all _ addr hp, List.take_of_length_le (by omega : addr.length ≤ 46),
    List.take_of_length_le hlen, List.drop_length]
  have he : addr.isEmpty = false := by
    cases addr with
    | nil => exact absurd rfl hne
    | cons _ _ => rfl
  simp [he]

theorem sscanf_forward_port (addr rest : List Char) (hne : addr ≠ [])
    (hlen : addr.length ≤ 45) (hno : '#' ∉ addr) :
    sscanf_forward (String.mk (addr ++ '#' :: rest))
      = (String.mk addr, ((scan_u rest).map Prod.fst).getD 53) := by
  have hp : ∀ x ∈ addr, (x != '#') = true := by
    intro x hx
    simp only [bne_iff_ne, ne_eq]
    rintro rfl
    exact hno hx
  unfold sscanf_forward
  simp only [takeWhile_append_stop _ '#' (by decide) addr rest hp,
    List.take_of_length_le (by omega : addr.length ≤ 46),
    List.take_of_length_le hlen, List.drop_left]
  have he : addr.isEmpty = false := by
    cases addr with
    | nil => exact absurd rfl hne
    | cons _ _ => rfl
  cases hs : scan_u rest with
  | none => simp [he]
  | some v => simp [he]

theorem firstSlot_congr_mem {α : Type} (p q : α → Bool) :
    ∀ (l : List α) (k : Nat), (∀ x ∈ l, p x = q x) → firstSlot p l k = firstSlot q l k
  | [], _, _ => rfl
  | x :: rest, k, h => by
    unfold firstSlot
    rw [h x (List.mem_cons_self _ _),
      firstSlot_congr_mem p q rest (k + 1) (fun y hy => h y (List.mem_cons_of_mem _ hy))]

theorem resolveClient_eq_clientNamed (S : Snapshot) (clientname : String)
    (h : ∀ client, some client ∈ S.clients → client.aliasclient = true →
      client.aliasclient_id < 0) :
    resolveClient S clientname
      = ((firstSlot (clientNamed S clientname) S.clients 0).map Nat.cast).getD (-1) := by
  unfold resolveClient
  rw [firstSlot_congr_mem _ (clientNamed S clientname) S.clients 0 (by
    intro o ho
    cases o with
    | none => rfl
    | some client =>
      have hagg := h client ho
      have hm : (!decide (client.aliasclient_id ≥ 0)) = !isAliasMember client := by
        unfold isAliasMember
        cases ha : client.aliasclient
        · simp
        · have hd : decide (client.aliasclient_id ≥ 0) = false := by
            simp only [decide_eq_false_iff_not, not_le]
            exact hagg ha
          simp [hd]
      simp only [clientNamed, hm])]
  cases firstSlot (clientNamed S clientname) S.clients 0 <;> rfl


theorem getAllQueries_body_binary (S : Snapshot) (P : Platform) (F : ReplayFilter)
    (queryID : Nat) (out : List Out)
    (h : getAllQueries_body S P false F queryID = .emit out) :
    ∃ (query : queriesData) (domain clientIPName : String),
      getQuery S queryID = some query ∧ getDomainString S query = some domain
        ∧ out = [.pack_int32 (toInt32 query.timestamp), .pack_fixstr (qtypeLabel P query),
            .pack_str32 domain, .pack_str32 clientIPName,
            .pack_uint8 query.status, .pack_uint8 query.dnssec] := by
  unfold getAllQueries_body at h
  cases hq : getQuery S (queryID : Int) with
  | none =>
    rw [hq] at h
    cases h
  | some query =>
    simp only [hq] at h
    by_cases h1 : query.privacylevel ≥ PRIVACY_MAXIMUM
    · rw [if_pos h1] at h
      cases h
    rw [if_neg h1] at h
    by_cases h2 : query.type ≥ TYPE_MAX
    · rw [if_pos h2] at h
      cases h
    rw [if_neg h2] at h
    by_cases h3 : getAllQueries_skip F query = true
    · rw [if_pos h3] at h
      cases h
    rw [if_neg h3] at h
    cases hd : getDomainString S query with
    | none =>
      simp only [hd] at h
      cases h
    | some domain =>
      cases hc : getClient S query.clientID with
      | none =>
        simp only [hd, hc] at h
        cases h
      | some client =>
        simp only [hd, hc, Bool.false_eq_true, if_false] at h
        by_cases hf : (!P.pack_fixstr (qtypeLabel P query)) = true
        · rw [if_pos hf] at h
          cases h
        rw [if_neg hf] at h
        by_cases hs : (!P.pack_str32 domain) = true
        · rw [if_pos hs] at h
          cases h
        rw [if_neg hs] at h
        generalize (if (S.getstr client.namepos).length > 0 then getClientNameString S query
          else getClientIPString S query) = clientIPName at h
        by_cases hn : (!P.pack_str32 clientIPName) = true
        · rw [if_pos hn] at h
          cases h
        · rw [if_neg hn] at h
          exact ⟨query, domain, clientIPName, rfl, hd, (Step.emit.inj h).symm⟩

theorem qtypeLabel_other (P : Platform) (query : queriesData)
    (htype : query.type = TYPE_OTHER)
    (hq : P.querystr query.qtype = none
      ∨ ∃ s, P.querystr query.qtype = some s ∧ strstr s.data "type=".data = true) :
    qtypeLabel P query = "TYPE" ++ toString query.qtype := by
  unfold qtypeLabel
  rw [if_pos htype]
  rcases hq with h | ⟨s, h, hs⟩
  · rw [h]
  · rw [h]
    simp only [hs, if_true]

theorem type_label_length (q : Nat) (h : q < 65536) :
    ("TYPE" ++ toString q).length ≤ 9 := by
  have h5 : (Nat.repr q).length ≤ 5 := Nat.repr_length q 5 (by decide) (by omega)
  have : (toString q) = Nat.repr q := rfl
  rw [String.length_append, this]
  have h4 : "TYPE".length = 4 := by decide
  omega


theorem toUInt16_of_range (v : Int) (h0 : 0 ≤ v) (h1 : v < 65536) : toUInt16 v = v := by
  unfold toUInt16
  exact Int.emod_eq_of_lt h0 (by norm_num; exact h1)

theorem overTime_header_count (S : Snapshot) (P : Platform)
    (hlen : S.overTime.length < 65536)
    (hwin : ∀ from_ until_ : Nat, IsFirstIndex (activeSlot S) S.overTime from_ →
      IsFirstIndex (futureSlot P) S.overTime until_ → from_ ≤ until_) :
    ∀ table ∈ getOverTime S P false,
      table.header = [.pack_map16_start ((table.rows.length : Nat) : Int)]
        ∧ ∀ r ∈ table.rows, r.out.length = 2 := by
  unfold getOverTime
  rw [overTime_head]
  cases hfrom : firstSlot (fun o => (decide (o.total > 0) || decide (o.blocked > 0))
      && decide (o.timestamp ≥ (overTimeAt S 0).timestamp)) S.overTime 0 with
  | none =>
    intro table ht
    simp only [hfrom] at ht
    cases ht
  | some from_ =>
    have hfirst : IsFirstIndex (activeSlot S) S.overTime from_ := by
      have := ((firstSlot_some _ _ 0 from_).mp hfrom).2
      rw [Nat.sub_zero] at this
      exact this
    have hfl : from_ < S.overTime.length := by
      obtain ⟨⟨x, hx, _⟩, _⟩ := hfirst
      by_contra hge
      rw [List.get?_eq_none.mpr (not_lt.mp hge)] at hx
      cases hx
    have hu : ∃ until_ : Nat,
        (firstSlot (fun o => decide (o.timestamp ≥ P.time)) S.overTime 0).getD
          S.overTime.length = until_ ∧ from_ ≤ until_ ∧ until_ ≤ S.overTime.length := by
      cases hunt : firstSlot (fun o => decide (o.timestamp ≥ P.time)) S.overTime 0 with
      | none => exact ⟨S.overTime.length, rfl, by omega, le_refl _⟩
      | some until_ =>
        have hf2 : IsFirstIndex (futureSlot P) S.overTime until_ := by
          have := ((firstSlot_some _ _ 0 until_).mp hunt).2
          rw [Nat.sub_zero] at this
          exact this
        refine ⟨until_, rfl, hwin from_ until_ hfirst hf2, ?_⟩
        obtain ⟨⟨x, hx, _⟩, _⟩ := hf2
        by_contra hge
        rw [List.get?_eq_none.mpr (by omega)] at hx
        cases hx
    obtain ⟨until_, hue, hle, hul⟩ := hu
    simp only [hfrom, hue, Bool.false_eq_true, if_false]
    have hcount : toUInt16 ((until_ : Int) - (from_ : Int)) = ((until_ - from_ : Nat) : Int) := by
      rw [toUInt16_of_range _ (by omega) (by omega)]
      omega
    intro table ht
    simp only [List.mem_cons, List.mem_singleton, List.not_mem_nil, or_false] at ht
    rcases ht with rfl | rfl
    · refine ⟨by simp only [hcount, List.length_map, List.length_range'], ?_⟩
      intro r hr
      obtain ⟨slot, _, rfl⟩ := List.mem_map.mp hr
      rfl
    · refine ⟨by simp only [hcount, List.length_map, List.length_range'], ?_⟩
      intro r hr
      obtain ⟨slot, _, rfl⟩ := List.mem_map.mp hr
      rfl


theorem getRecentBlocked_loop_skip (S : Snapshot) (P : Platform) (istelnet : Bool)
    (num : Int) (q : Nat) (rest : List Nat) (found : Int)
    (h : blockedWithDomain S q = false) :
    (found < num →
        getRecentBlocked_loop S P istelnet num (q :: rest) found
          = getRecentBlocked_loop S P istelnet num rest found)
      ∧ (getRecentBlocked_loop S P istelnet num (q :: rest) found
          = getRecentBlocked_loop S P istelnet num rest found
        ∨ getRecentBlocked_loop S P istelnet num (q :: rest) found = []) := by
  unfold blockedWithDomain at h
  rw [getRecentBlocked_loop]
  cases hq : getQuery S (q : Int) with
  | none => exact ⟨fun _ => rfl, Or.inl rfl⟩
  | some query =>
    simp only [hq] at h ⊢
    cases hb : query.blocked with
    | false =>
      simp only [Bool.false_eq_true, if_false]
      by_cases hf : found ≥ num
      · rw [if_pos hf]
        exact ⟨fun hlt => absurd hf (not_le.mpr hlt), Or.inr rfl⟩
      · rw [if_neg hf]
        exact ⟨fun _ => rfl, Or.inl rfl⟩
    | true =>
      rw [hb] at h
      simp only [Bool.true_and] at h
      cases hd : getDomainString S query with
      | none => exact ⟨fun _ => rfl, Or.inl rfl⟩
      | some domain =>
        rw [hd] at h
        cases h

theorem getRecentBlocked_loop_hit (S : Snapshot) (P : Platform) (istelnet : Bool)
    (num : Int) (q : Nat) (rest : List Nat) (found : Int)
    (h : blockedWithDomain S q = true) :
    (getRecentBlocked_loop S P istelnet num (q :: rest) found = [⟨(q : Int), [], false⟩]
        ∧ istelnet = false ∧ ∃ s, P.pack_str32 s = false)
      ∨ ∃ out, getRecentBlocked_loop S P istelnet num (q :: rest) found
          = ⟨(q : Int), out, true⟩ ::
              (if found + 1 ≥ num then []
               else getRecentBlocked_loop S P istelnet num rest (found + 1)) := by
  unfold blockedWithDomain at h
  rw [getRecentBlocked_loop]
  cases hq : getQuery S (q : Int) with
  | none =>
    rw [hq] at h
    cases h
  | some query =>
    simp only [hq] at h ⊢
    cases hb : query.blocked with
    | false =>
      rw [hb] at h
      cases h
    | true =>
      simp only [if_true]
      cases hd : getDomainString S query with
      | none =>
        rw [hb, hd] at h
        cases h
      | some domain =>
        simp only
        cases istelnet with
        | true =>
          simp only [if_true]
          exact Or.inr ⟨_, rfl⟩
        | false =>
          simp only [Bool.false_eq_true, if_false]
          cases hp : P.pack_str32 domain with
          | false =>
            simp only [Bool.not_false, if_true]
            exact Or.inl ⟨trivial, trivial, domain, hp⟩
          | true =>
            simp only [Bool.not_true, Bool.false_eq_true, if_false]
            exact Or.inr ⟨_, rfl⟩

theorem getRecentBlocked_loop_length (S : Snapshot) (P : Platform) (istelnet : Bool)
    (num : Int) :
    ∀ (l : List Nat) (found : Int),
      (((getRecentBlocked_loop S P istelnet num l found).length : Nat) : Int)
        ≤ max 1 (num - found)
  | [], found => by
    simp only [getRecentBlocked_loop, List.length_nil, Nat.cast_zero]
    exact le_trans (by decide) (le_max_left _ _)
  | q :: rest, found => by
    have ih := getRecentBlocked_loop_length S P istelnet num rest
    cases hE : blockedWithDomain S q with
    | false =>
      rcases (getRecentBlocked_loop_skip S P istelnet num q rest found hE).2 with h | h
      · rw [h]
        exact ih found
      · rw [h]
        simp only [List.length_nil, Nat.cast_zero]
        exact le_trans (by decide) (le_max_left _ _)
    | true =>
      rcases getRecentBlocked_loop_hit S P istelnet num q rest found hE with ⟨h, _⟩ | ⟨out, h⟩
      · rw [h]
        simp only [List.length_singleton, Nat.cast_one]
        exact le_max_left _ _
      · rw [h]
        by_cases hs : found + 1 ≥ num
        · rw [if_pos hs]
          simp only [List.length_singleton, Nat.cast_one]
          exact le_max_left _ _
        · rw [if_neg hs]
          have := ih (found + 1)
          simp only [List.length_cons, Nat.cast_add, Nat.cast_one]
          have h1 : max 1 (num - (found + 1)) = num - (found + 1) := max_eq_right (by omega)
          have h2 : max 1 (num - found) = num - found := max_eq_right (by omega)
          rw [h1] at this
          rw [h2]
          omega

theorem getRecentBlocked_loop_sublist (S : Snapshot) (P : Platform) (istelnet : Bool)
    (num : Int) :
    ∀ (l : List Nat) (found : Int),
      List.Sublist ((getRecentBlocked_loop S P istelnet num l found).map Row.id)
        (l.map Nat.cast)
  | [], found => by simp [getRecentBlocked_loop]
  | q :: rest, found => by
    have ih := getRecentBlocked_loop_sublist S P istelnet num rest
    cases hE : blockedWithDomain S q with
    | false =>
      rcases (getRecentBlocked_loop_skip S P istelnet num q rest found hE).2 with h | h
      · rw [h]
        exact List.Sublist.cons _ (ih found)
      · rw [h]
        exact List.nil_sublist _
    | true =>
      rcases getRecentBlocked_loop_hit S P istelnet num q rest found hE with ⟨h, _⟩ | ⟨out, h⟩
      · rw [h]
        simp only [List.map_cons, List.map_nil]
        exact List.Sublist.cons₂ _ (List.nil_sublist _)
      · rw [h]
        by_cases hs : found + 1 ≥ num
        · rw [if_pos hs]
          simp only [List.map_cons, List.map_nil]
          exact List.Sublist.cons₂ _ (List.nil_sublist _)
        · rw [if_neg hs]
          simp only [List.map_cons]
          exact List.Sublist.cons₂ _ (ih (found + 1))

theorem getRecentBlocked_loop_no_gap (S : Snapshot) (P : Platform) (istelnet : Bool)
    (num : Int) :
    ∀ (l : List Nat) (found : Int), l.Pairwise (fun a b => b < a) →
      ∀ r ∈ getRecentBlocked_loop S P istelnet num l found,
        ∀ q ∈ l, blockedWithDomain S q = true → r.id < (q : Int) →
          (q : Int) ∈ (getRecentBlocked_loop S P istelnet num l found).map Row.id
  | [], found, _, r, hr, _, _, _, _ => by simp [getRecentBlocked_loop] at hr
  | x :: rest, found, hp, r, hr, q, hq, hE, hlt => by
    have hp' := List.pairwise_cons.mp hp
    have ih := getRecentBlocked_loop_no_gap S P istelnet num rest
    have hsub := getRecentBlocked_loop_sublist S P istelnet num rest
    have hbelow : ∀ found', ∀ r' ∈ getRecentBlocked_loop S P istelnet num rest found',
        r'.id < (x : Int) := by
      intro found' r' hr'
      have hm : r'.id ∈ rest.map (Nat.cast : Nat → Int) :=
        (hsub found').subset (List.mem_map_of_mem _ hr')
      obtain ⟨y, hy, hyr⟩ := List.mem_map.mp hm
      have := hp'.1 y hy
      omega
    cases hEx : blockedWithDomain S x with
    | false =>
      have hqx : q ≠ x := by
        rintro rfl
        rw [hE] at hEx
        cases hEx
      have hqr : q ∈ rest := by
        rcases List.mem_cons.mp hq with h | h
        · exact absurd h hqx
        · exact h
      rcases (getRecentBlocked_loop_skip S P istelnet num x rest found hEx).2 with h | h
      · rw [h] at hr ⊢
        exact ih found hp'.2 r hr q hqr hE hlt
      · rw [h] at hr
        cases hr
    | true =>
      have hrx : ∀ r' : Row, r'.id = (x : Int) → r'.id < (q : Int) → False := by
        intro r' hid hlt'
        rcases List.mem_cons.mp hq with h | h
        · omega
        · have := hp'.1 q h
          omega
      rcases getRecentBlocked_loop_hit S P istelnet num x rest found hEx with ⟨h, _⟩ | ⟨out, h⟩
      · rw [h] at hr
        rw [List.mem_singleton.mp hr] at hlt
        exact (hrx ⟨(x : Int), [], false⟩ rfl hlt).elim
      · rw [h] at hr ⊢
        rcases List.mem_cons.mp hr with hr | hr
        · rw [hr] at hlt
          exact (hrx ⟨(x : Int), out, true⟩ rfl hlt).elim
        · by_cases hs : found + 1 ≥ num
          · rw [if_pos hs] at hr
            cases hr
          · rw [if_neg hs] at hr ⊢
            rcases List.mem_cons.mp hq with hqx | hqr
            · rw [hqx]
              simp only [List.map_cons, List.mem_cons, true_or]
            · simp only [List.map_cons, List.mem_cons]
              exact Or.inr (ih (found + 1) hp'.2 r hr q hqr hE hlt)

theorem getRecentBlocked_loop_count (S : Snapshot) (P : Platform) (istelnet : Bool)
    (num : Int) (henc : istelnet = true ∨ ∀ s, P.pack_str32 s = true) :
    ∀ (l : List Nat) (found : Int), found < num →
      (((getRecentBlocked_loop S P istelnet num l found).length : Nat) : Int)
          = min (num - found) (((l.filter (blockedWithDomain S)).length : Nat) : Int)
        ∧ ∀ r ∈ getRecentBlocked_loop S P istelnet num l found, r.complete = true
  | [], found, hlt => by
    simp only [getRecentBlocked_loop, List.length_nil, Nat.cast_zero, List.filter_nil,
      List.not_mem_nil, false_implies, implies_true, and_true]
    exact (min_eq_right (by omega)).symm
  | q :: rest, found, hlt => by
    have ih := getRecentBlocked_loop_count S P istelnet num henc rest
    cases hE : blockedWithDomain S q with
    | false =>
      rw [(getRecentBlocked_loop_skip S P istelnet num q rest found hE).1 hlt]
      simp only [List.filter_cons, hE, Bool.false_eq_true, if_false]
      exact ih found hlt
    | true =>
      rcases getRecentBlocked_loop_hit S P istelnet num q rest found hE with
        ⟨_, ht, s, hs⟩ | ⟨out, h⟩
      · rcases henc with he | he
        · rw [he] at ht
          cases ht
        · rw [he s] at hs
          cases hs
      · rw [h]
        simp only [List.filter_cons, hE, if_true, List.length_cons, Nat.cast_add, Nat.cast_one]
        by_cases hs : found + 1 ≥ num
        · rw [if_pos hs]
          simp only [List.length_nil, Nat.cast_zero, zero_add, List.mem_singleton]
          refine ⟨?_, fun r hr => by rw [hr]⟩
          have : num - found = 1 := by omega
          rw [this]
          exact (min_eq_left (by omega)).symm
        · rw [if_neg hs]
          obtain ⟨hlen, hall⟩ := ih (found + 1) (by omega)
          refine ⟨?_, ?_⟩
          · rw [hlen]
            rcases le_total (num - (found + 1))
              (((rest.filter (blockedWithDomain S)).length : Nat) : Int) with hle | hle
            · rw [min_eq_left hle, min_eq_left (by omega)]
              omega
            · rw [min_eq_right hle, min_eq_right (by omega)]
          · intro r hr
            rcases List.mem_cons.mp hr with hr | hr
            · rw [hr]
            · exact hall r hr

theorem getRecentBlocked_loop_first (S : Snapshot) (P : Platform) (istelnet : Bool)
    (henc : istelnet = true ∨ ∀ s, P.pack_str32 s = true) (q : Nat)
    (hE : blockedWithDomain S q = true) :
    ∀ (l : List Nat), l.Pairwise (fun a b => b < a) → q ∈ l →
      (∀ j ∈ l, q < j → blockedWithDomain S j = false) →
      ∃ out, getRecentBlocked_loop S P istelnet 1 l 0 = [⟨(q : Int), out, true⟩]
  | [], _, hq, _ => by cases hq
  | x :: rest, hp, hq, hmax => by
    have hp' := List.pairwise_cons.mp hp
    by_cases hx : x = q
    · subst hx
      rcases getRecentBlocked_loop_hit S P istelnet 1 x rest 0 hE with
        ⟨_, ht, s, hs⟩ | ⟨out, h⟩
      · rcases henc with he | he
        · rw [he] at ht
          cases ht
        · rw [he s] at hs
          cases hs
      · rw [h, if_pos (by decide)]
        exact ⟨out, rfl⟩
    · have hqr : q ∈ rest := by
        rcases List.mem_cons.mp hq with h | h
        · exact absurd h.symm hx
        · exact h
      have hlt : q < x := hp'.1 q hqr
      have hEx := hmax x (List.mem_cons_self _ _) hlt
      rw [(getRecentBlocked_loop_skip S P istelnet 1 x rest 0 hEx).1 (by decide)]
      exact getRecentBlocked_loop_first S P istelnet henc q hE rest hp'.2 hqr
        (fun j hj => hmax j (List.mem_cons_of_mem _ hj))


theorem recentIndices_mem (n q : Nat) :
    q ∈ ((List.range n).reverse.filter fun queryID => decide (queryID > 0)) ↔ 0 < q ∧ q < n := by
  simp only [List.mem_filter, List.mem_reverse, List.mem_range, decide_eq_true_eq, gt_iff_lt]
  exact and_comm

theorem recentIndices_pairwise (n : Nat) :
    ((List.range n).reverse.filter fun queryID => decide (queryID > 0)).Pairwise
      (fun a b => b < a) := by
  apply List.Pairwise.filter
  rw [List.pairwise_reverse]
  exact List.pairwise_lt_range n

theorem recentIndices_count (p : Nat → Bool) (n : Nat) :
    (((List.range n).reverse.filter fun queryID => decide (queryID > 0)).filter p).length
      = ((List.range n).filter fun queryID => decide (0 < queryID) && p queryID).length := by
  rw [List.filter_filter, List.filter_reverse, List.length_reverse]
  congr 1
  apply List.filter_congr
  intro x _
  simp only [gt_iff_lt, Bool.and_comm]

theorem recent_blocked_bounds (S : Snapshot) (P : Platform) (client_message : String)
    (istelnet : Bool) (N : Int) (hN : sscanf_count client_message = some N) (h1 : 1 ≤ N) :
    (((getRecentBlocked S P client_message istelnet).rows.length : Nat) : Int) ≤ N
      ∧ ((getRecentBlocked S P client_message istelnet).rows.map Row.id).Pairwise
          (fun a b => b < a)
      ∧ (∀ r ∈ (getRecentBlocked S P client_message istelnet).rows,
          ∀ q : Nat, 0 < q → q < S.queries.length → blockedWithDomain S q = true →
            r.id < (q : Int) →
            (q : Int) ∈ (getRecentBlocked S P client_message istelnet).rows.map Row.id)
      ∧ (N < (S.queries.length : Int) → (istelnet = true ∨ ∀ s, P.pack_str32 s = true) →
          (((getRecentBlocked S P client_message istelnet).rows.length : Nat) : Int)
            = min N ((((List.range S.queries.length).filter fun queryID =>
                decide (0 < queryID) && blockedWithDomain S queryID).length : Nat) : Int)) := by
  unfold getRecentBlocked
  simp only [hN]
  refine ⟨?_, ?_, ?_, ?_⟩
  · have := getRecentBlocked_loop_length S P istelnet
      (if N ≥ (S.queries.length : Int) then 0 else N)
      ((List.range S.queries.length).reverse.filter fun queryID => decide (queryID > 0)) 0
    refine le_trans this ?_
    split
    · simp only [sub_zero]
      exact max_le h1 (by omega)
    · simp only [sub_zero]
      exact max_le h1 (le_refl _)
  · have hsub := getRecentBlocked_loop_sublist S P istelnet
      (if N ≥ (S.queries.length : Int) then 0 else N)
      ((List.range S.queries.length).reverse.filter fun queryID => decide (queryID > 0)) 0
    refine List.Pairwise.sublist hsub ?_
    rw [List.pairwise_map]
    exact (recentIndices_pairwise S.queries.length).imp (fun h => by exact_mod_cast h)
  · intro r hr q h0 hlen hE hlt
    exact getRecentBlocked_loop_no_gap S P istelnet _ _ 0
      (recentIndices_pairwise S.queries.length) r hr q
      ((recentIndices_mem _ _).mpr ⟨h0, hlen⟩) hE hlt
  · intro hNlen henc
    have hnge : ¬ N ≥ (S.queries.length : Int) := not_le.mpr hNlen
    simp only [hnge, if_false]
    have := (getRecentBlocked_loop_count S P istelnet N henc
      ((List.range S.queries.length).reverse.filter fun queryID => decide (queryID > 0)) 0
      (by omega)).1
    rw [this, recentIndices_count, sub_zero]

theorem recent_blocked_default (S : Snapshot) (P : Platform) (client_message : String)
    (istelnet : Bool) (hN : sscanf_count client_message = none)
    (henc : istelnet = true ∨ ∀ s, P.pack_str32 s = true)
    (q : Nat) (h0 : 0 < q) (hlen : q < S.queries.length)
    (hE : blockedWithDomain S q = true)
    (hmax : ∀ j, q < j → j < S.queries.length → blockedWithDomain S j = false) :
    ∃ out, (getRecentBlocked S P client_message istelnet).rows = [⟨(q : Int), out, true⟩] := by
  unfold getRecentBlocked
  simp only [hN]
  exact getRecentBlocked_loop_first S P istelnet henc q hE _
    (recentIndices_pairwise S.queries.length) ((recentIndices_mem _ _).mpr ⟨h0, hlen⟩)
    (fun j hj hlt => hmax j hlt ((recentIndices_mem _ _).mp hj).2)


theorem getUpstreamDestinations_send_cases (P : Platform) (istelnet : Bool) (i id : Int)
    (percentage : Percentage) (ip name : String) (upstream_port : Int) :
    (getUpstreamDestinations_send P istelnet i id percentage ip name upstream_port = .skip
        ∧ percentage.positive = false ∧ ¬ i < 0)
      ∨ ((percentage.positive = true ∨ i < 0)
        ∧ ((∃ out, getUpstreamDestinations_send P istelnet i id percentage ip name
                upstream_port = .emit id out
              ∧ (⟨id, out, true⟩ : DestRow).percentage = some percentage)
          ∨ (istelnet = false ∧ (∃ s, P.pack_str32 s = false)
              ∧ ∃ out, getUpstreamDestinations_send P istelnet i id percentage ip name
                upstream_port = .abort id out))) := by
  unfold getUpstreamDestinations_send
  by_cases hsend : (percentage.positive || decide (i < 0)) = true
  · rw [if_pos hsend]
    right
    refine ⟨by simpa using hsend, ?_⟩
    cases istelnet with
    | true =>
      left
      simp only [if_true]
      by_cases hport : (upstream_port != 0) = true
      · rw [if_pos hport]
        exact ⟨_, rfl, rfl⟩
      · rw [if_neg hport]
        exact ⟨_, rfl, rfl⟩
    | false =>
      simp only [Bool.false_eq_true, if_false]
      cases hn : P.pack_str32 name with
      | false =>
        right
        simp only [Bool.not_false, if_true]
        exact ⟨trivial, ⟨name, hn⟩, _, rfl⟩
      | true =>
        simp only [Bool.not_true, Bool.false_eq_true, if_false]
        cases hi : P.pack_str32 ip with
        | false =>
          right
          simp only [Bool.not_false, if_true]
          exact ⟨trivial, ⟨ip, hi⟩, _, rfl⟩
        | true =>
          left
          simp only [Bool.not_true, Bool.false_eq_true, if_false]
          exact ⟨_, rfl, rfl⟩
  · rw [if_neg hsend]
    left
    simp only [Bool.or_eq_true, decide_eq_true_eq, not_or, Bool.not_eq_true] at hsend
    exact ⟨rfl, hsend.1, hsend.2⟩

theorem getUpstreamDestinations_send_special (P : Platform) (istelnet : Bool) (i id : Int)
    (percentage : Percentage) (ip name : String) (upstream_port : Int) (hi : i < 0)
    (henc : istelnet = true ∨ ∀ s, P.pack_str32 s = true) :
    ∃ out, getUpstreamDestinations_send P istelnet i id percentage ip name upstream_port
        = .emit id out
      ∧ (⟨id, out, true⟩ : DestRow).percentage = some percentage := by
  rcases getUpstreamDestinations_send_cases P istelnet i id percentage ip name upstream_port
    with ⟨_, _, h⟩ | ⟨_, h | ⟨ht, ⟨s, hs⟩, _⟩⟩
  · exact absurd hi h
  · exact h
  · rcases henc with he | he
    · rw [he] at ht
      cases ht
    · rw [he s] at hs
      cases hs

theorem Percentage.positive_of (count totalqueries : Int) :
    (if totalqueries > 0 then Percentage.of count totalqueries else Percentage.zero).positive
        = true ↔ 0 < count ∧ 0 < totalqueries := by
  by_cases ht : totalqueries > 0
  · rw [if_pos ht]
    simp only [Percentage.positive, Bool.or_eq_true, Bool.and_eq_true, decide_eq_true_eq]
    constructor
    · rintro (⟨h1, h2⟩ | ⟨_, h2⟩)
      · exact ⟨h1, h2⟩
      · omega
    · rintro ⟨h1, h2⟩
      exact Or.inl ⟨h1, h2⟩
  · rw [if_neg ht]
    simp only [Percentage.positive, Bool.false_eq_true, false_iff, not_and]
    intro _ h
    exact ht h

theorem getUpstreamDestinations_body_cases (S : Snapshot) (P : Platform) (istelnet : Bool)
    (totalqueries : Int) (i : Nat) (e : TempRow) :
    getUpstreamDestinations_body S P istelnet totalqueries i e = .skip
      ∨ (∃ upstream, getUpstream S e.1 = some upstream ∧ 0 < e.2 ∧ 0 < totalqueries
        ∧ ((∃ out, getUpstreamDestinations_body S P istelnet totalqueries i e = .emit e.1 out
              ∧ (⟨e.1, out, true⟩ : DestRow).percentage
                = some (Percentage.of e.2 totalqueries))
          ∨ (istelnet = false ∧ (∃ s, P.pack_str32 s = false)
              ∧ ∃ out, getUpstreamDestinations_body S P istelnet totalqueries i e
                = .abort e.1 out))) := by
  unfold getUpstreamDestinations_body
  cases hu : getUpstream S e.1 with
  | none =>
    simp only [hu]
    exact Or.inl trivial
  | some upstream =>
    simp only [hu]
    rcases getUpstreamDestinations_send_cases P istelnet (i : Int) e.1
      (if totalqueries > 0 then Percentage.of e.2 totalqueries else Percentage.zero)
      (S.getstr upstream.ippos)
      (if upstream.namepos != 0 then S.getstr upstream.namepos else S.getstr upstream.ippos)
      upstream.port with ⟨h, _, _⟩ | ⟨hpos, h⟩
    · exact Or.inl h
    · have hp : 0 < e.2 ∧ 0 < totalqueries := by
        rcases hpos with hpos | hneg
        · exact (Percentage.positive_of _ _).mp hpos
        · omega
      have hif : (if totalqueries > 0 then Percentage.of e.2 totalqueries else Percentage.zero)
          = Percentage.of e.2 totalqueries := if_pos hp.2
      rw [hif] at h
      rw [hif]
      exact Or.inr ⟨upstream, rfl, hp.1, hp.2, h⟩

theorem destinationsLoop_rows (body : Nat → TempRow → DestStep)
    (hab : ∀ i e id out, body i e ≠ .abort id out) :
    ∀ (l : List TempRow) (i : Nat),
      ∃ es : List TempRow, es.Sublist l
        ∧ List.Forall₂ (fun (r : DestRow) (e : TempRow) =>
            e ∈ l ∧ r.complete = true ∧ ∃ j, body j e = .emit r.id r.out)
          (destinationsLoop body l i) es
  | [], i => ⟨[], List.Sublist.slnil, by
      simp only [destinationsLoop]
      exact List.Forall₂.nil⟩
  | e :: rest, i => by
    obtain ⟨es, hsub, hall⟩ := destinationsLoop_rows body hab rest (i + 1)
    have hall' : List.Forall₂ (fun (r : DestRow) (e' : TempRow) =>
        e' ∈ e :: rest ∧ r.complete = true ∧ ∃ j, body j e' = .emit r.id r.out)
        (destinationsLoop body rest (i + 1)) es :=
      hall.imp (fun _ _ h => ⟨List.mem_cons_of_mem _ h.1, h.2⟩)
    unfold destinationsLoop
    cases hb : body i e with
    | skip => exact ⟨es, List.Sublist.cons _ hsub, hall'⟩
    | emit id out =>
      exact ⟨e :: es, List.Sublist.cons₂ _ hsub,
        List.Forall₂.cons ⟨List.mem_cons_self _ _, rfl, i, hb⟩ hall'⟩
    | abort id out => exact absurd hb (hab i e id out)

theorem mem_of_pairs {α β : Type} (R : α → β → Prop) (l : List α) (es : List β)
    (h : List.Forall₂ R l es) : ∀ a ∈ l, ∃ e ∈ es, R a e := by
  induction h with
  | nil =>
    intro a ha
    cases ha
  | cons hab _ ih =>
    intro a ha
    rcases List.mem_cons.mp ha with rfl | ha
    · exact ⟨_, List.mem_cons_self _ _, hab⟩
    · obtain ⟨e, he, hR⟩ := ih a ha
      exact ⟨e, List.mem_cons_of_mem _ he, hR⟩

theorem map_eq_of_pairs {α β γ : Type} (R : α → β → Prop) (f : α → γ) (g : β → γ)
    (hfg : ∀ a b, R a b → f a = g b) (l : List α) (es : List β)
    (h : List.Forall₂ R l es) : l.map f = es.map g := by
  induction h with
  | nil => rfl
  | cons hab _ ih => simp only [List.map_cons, hfg _ _ hab, ih]

theorem pairwise_of_pairs {α β : Type} (R : α → β → Prop) (Q : β → β → Prop)
    (l : List α) (es : List β) (h : List.Forall₂ R l es) :
    es.Pairwise Q → l.Pairwise (fun a b => ∃ ea eb, R a ea ∧ R b eb ∧ Q ea eb) := by
  induction h with
  | nil =>
    intro _
    exact List.Pairwise.nil
  | cons hab hrest ih =>
    intro hp
    have hp' := List.pairwise_cons.mp hp
    refine List.pairwise_cons.mpr ⟨?_, ih hp'.2⟩
    intro b hb
    obtain ⟨eb, heb, hRb⟩ := mem_of_pairs R _ _ hrest b hb
    exact ⟨_, eb, hab, hRb, hp'.1 eb heb⟩


theorem foldl_congr_fun {α β : Type} (f g : α → β → α) (h : ∀ a b, f a b = g a b) (a : α)
    (l : List β) : l.foldl f a = l.foldl g a := by
  have : f = g := funext fun a => funext fun b => h a b
  rw [this]

theorem sum_lookup_range (l : List (Option upstreamsData)) :
    ((List.range l.length).map fun (i : Nat) =>
        ((lookup l (i : Int)).map upstreamCount).getD 0).sum
      = ((l.filterMap fun o => o).map upstreamCount).sum := by
  induction l using List.reverseRecOn with
  | nil => rfl
  | append_singleton l x ih =>
    rw [List.length_append, List.length_singleton, List.range_succ, List.map_append,
      List.sum_append, List.filterMap_append, List.map_append, List.sum_append, ← ih]
    congr 1
    · congr 1
      apply List.map_congr_left
      intro i hi
      have hi' : i < l.length := List.mem_range.mp hi
      rw [lookup_natCast, lookup_natCast, List.get?_eq_getElem?, List.get?_eq_getElem?,
        List.getElem?_append_left hi']
    · simp only [List.map_cons, List.map_nil, List.sum_cons, List.sum_nil, add_zero]
      rw [lookup_natCast, List.get?_eq_getElem?, List.getElem?_append_right (le_refl _)]
      cases x <;> simp

theorem getUpstreamDestinations_totalcount_eq (S : Snapshot) (cached_queries : Int) :
    getUpstreamDestinations_totalcount S + cached_queries + S.blocked_queries
      = destinationsTotal S cached_queries := by
  unfold getUpstreamDestinations_totalcount destinationsTotal
  rw [foldl_congr_fun _ (fun (totalcount : Int) (upstreamID : Nat) =>
      totalcount + ((lookup S.upstreams (upstreamID : Int)).map upstreamCount).getD 0) (by
    intro a b
    unfold getUpstream
    split
    · rename_i h
      simp only [h, Option.map_none', Option.getD_none, add_zero]
    · rename_i u h
      simp only [h, Option.map_some', Option.getD_some])]
  rw [← sum_lookup_range, List.sum_eq_foldl, List.foldl_map]

theorem getUpstreamDestinations_temparray_present (S : Snapshot) (P : Platform)
    (hall : ∀ o ∈ S.upstreams, o ≠ none) :
    (∀ e ∈ getUpstreamDestinations_temparray S P,
        ∃ upstream, getUpstream S e.1 = some upstream ∧ e.2 = upstreamCount upstream)
      ∧ ((getUpstreamDestinations_temparray S P).map Prod.fst).Nodup := by
  have hslot : ∀ i : Nat, i < S.upstreams.length →
      ∃ upstream, getUpstream S (i : Int) = some upstream
        ∧ getUpstreamDestinations_slot S P i = ((i : Int), upstreamCount upstream) := by
    intro i hi
    obtain ⟨u, hu⟩ := lookup_present S.upstreams hall i hi
    refine ⟨u, hu, ?_⟩
    unfold getUpstreamDestinations_slot getUpstream
    rw [hu]
  constructor
  · intro e he
    unfold getUpstreamDestinations_temparray at he
    obtain ⟨i, hi, rfl⟩ := List.mem_map.mp he
    obtain ⟨u, hu, hs⟩ := hslot i (List.mem_range.mp hi)
    rw [hs]
    exact ⟨u, hu, rfl⟩
  · unfold getUpstreamDestinations_temparray
    rw [List.map_map]
    have : (List.range S.upstreams.length).map (Prod.fst ∘ getUpstreamDestinations_slot S P)
        = (List.range S.upstreams.length).map (Nat.cast : Nat → Int) := by
      apply List.map_congr_left
      intro i hi
      obtain ⟨u, _, hs⟩ := hslot i (List.mem_range.mp hi)
      simp only [Function.comp, hs]
    rw [this]
    exact (List.nodup_range _).map (fun a b h => by exact_mod_cast h)


theorem upstream_destinations_when_present (S : Snapshot) (P : Platform)
    (cached_queries : Int) (client_message : String) (istelnet : Bool)
    (hall : ∀ o ∈ S.upstreams, o ≠ none) (hq : QsortContract P.qsort)
    (henc : istelnet = true ∨ ∀ s, P.pack_str32 s = true) :
    ∃ (o1 o2 : List DestOut) (rest : List DestRow),
      getUpstreamDestinations S P cached_queries client_message istelnet
          = ⟨-2, o1, true⟩ :: ⟨-1, o2, true⟩ :: rest
        ∧ (⟨-2, o1, true⟩ : DestRow).percentage
          = some (if destinationsTotal S cached_queries > 0 then
              .of S.blocked_queries (destinationsTotal S cached_queries) else .zero)
        ∧ (⟨-1, o2, true⟩ : DestRow).percentage
          = some (if destinationsTotal S cached_queries > 0 then
              .of cached_queries (destinationsTotal S cached_queries) else .zero)
        ∧ rest.length ≤ 8
        ∧ (rest.map DestRow.id).Nodup
        ∧ (∀ r ∈ rest, r.complete = true
            ∧ ∃ upstream, getUpstream S r.id = some upstream
              ∧ 0 < upstreamCount upstream ∧ 0 < destinationsTotal S cached_queries
              ∧ r.percentage = some (.of (upstreamCount upstream)
                  (destinationsTotal S cached_queries)))
        ∧ (command client_message "unsorted" = false →
            rest.Pairwise (fun a b => rowCount S b ≤ rowCount S a)) := by
  obtain ⟨hpresent, hnodup⟩ := getUpstreamDestinations_temparray_present S P hall
  -- the array the loop walks
  have hsorted : ∃ sorted : List TempRow,
      (if (!command client_message "unsorted") = true then
          P.qsort cmpdesc (getUpstreamDestinations_temparray S P)
        else getUpstreamDestinations_temparray S P) = sorted
      ∧ (∀ e ∈ sorted, ∃ upstream, getUpstream S e.1 = some upstream
          ∧ e.2 = upstreamCount upstream)
      ∧ (sorted.map Prod.fst).Nodup
      ∧ (command client_message "unsorted" = false →
          sorted.Pairwise (fun a b => b.2 ≤ a.2)) := by
    cases hc : command client_message "unsorted" with
    | true =>
      exact ⟨_, rfl, hpresent, hnodup, fun h => by cases h⟩
    | false =>
      have hperm := hq.perm cmpdesc (getUpstreamDestinations_temparray S P)
      refine ⟨_, rfl, ?_, ?_, ?_⟩
      · intro e he
        exact hpresent e (hperm.subset he)
      · exact (hperm.map Prod.fst).nodup_iff.mpr hnodup
      · intro _
        exact (hq.sorted_desc _).imp (fun h => (cmpdesc_le _ _).mp h)
  obtain ⟨sorted, hsd, hsp, hsn, hss⟩ := hsorted
  unfold getUpstreamDestinations
  simp only [hsd, getUpstreamDestinations_totalcount_eq]
  obtain ⟨o1, h1, hp1⟩ := getUpstreamDestinations_send_special P istelnet (-2) (-2)
    (if destinationsTotal S cached_queries > 0 then
      .of S.blocked_queries (destinationsTotal S cached_queries) else .zero)
    "blocklist" "blocklist" 0 (by decide) henc
  obtain ⟨o2, h2, hp2⟩ := getUpstreamDestinations_send_special P istelnet (-1) (-1)
    (if destinationsTotal S cached_queries > 0 then
      .of cached_queries (destinationsTotal S cached_queries) else .zero)
    "cache" "cache" 0 (by decide) henc
  rw [h1, h2]
  have hab : ∀ i e id out,
      getUpstreamDestinations_body S P istelnet (destinationsTotal S cached_queries) i e
        ≠ .abort id out := by
    intro i e id out h
    rcases getUpstreamDestinations_body_cases S P istelnet
      (destinationsTotal S cached_queries) i e with hs | ⟨_, _, _, _, ⟨_, he, _⟩ | ⟨ht, ⟨s, hs⟩, _⟩⟩
    · rw [hs] at h
      cases h
    · rw [he] at h
      cases h
    · rcases henc with hen | hen
      · rw [hen] at ht
        cases ht
      · rw [hen s] at hs
        cases hs
  obtain ⟨es, hsub, hrows⟩ := destinationsLoop_rows
    (getUpstreamDestinations_body S P istelnet (destinationsTotal S cached_queries)) hab
    (sorted.take (min S.upstreams.length 8)) 0
  have hfacts : ∀ (r : DestRow) (e : TempRow),
      (e ∈ sorted.take (min S.upstreams.length 8) ∧ r.complete = true
        ∧ ∃ j, getUpstreamDestinations_body S P istelnet
            (destinationsTotal S cached_queries) j e = .emit r.id r.out) →
      r.id = e.1 ∧ r.complete = true
        ∧ ∃ upstream, getUpstream S r.id = some upstream
          ∧ e.2 = upstreamCount upstream
          ∧ 0 < upstreamCount upstream ∧ 0 < destinationsTotal S cached_queries
          ∧ r.percentage = some (.of (upstreamCount upstream)
              (destinationsTotal S cached_queries)) := by
    rintro ⟨rid, rout, rc⟩ e ⟨hmem, hc, j, hj⟩
    simp only at hc hj
    subst hc
    obtain ⟨u, hu, hcount⟩ := hsp e (List.mem_of_mem_take hmem)
    rcases getUpstreamDestinations_body_cases S P istelnet
      (destinationsTotal S cached_queries) j e with hs | ⟨_, _, hpos, htot, ⟨out, he, hperc⟩ | ⟨_, _, out, ha⟩⟩
    · rw [hs] at hj
      cases hj
    · rw [he] at hj
      have hid : e.1 = rid := (DestStep.emit.inj hj).1
      have hout : out = rout := (DestStep.emit.inj hj).2
      subst hid
      subst hout
      refine ⟨rfl, rfl, u, hu, hcount, by rw [← hcount]; exact hpos, htot, ?_⟩
      rw [← hcount]
      exact hperc
    · rw [ha] at hj
      cases hj
  refine ⟨o1, o2, _, rfl, hp1, hp2, ?_, ?_, ?_, ?_⟩
  · rw [hrows.length_eq]
    have := hsub.length_le
    have := List.length_take_le (min S.upstreams.length 8) sorted
    omega
  · rw [map_eq_of_pairs _ DestRow.id Prod.fst (fun r e h => (hfacts r e h).1) _ _ hrows]
    exact ((hsn.sublist ((List.take_sublist _ _).map Prod.fst)).sublist
      (hsub.map Prod.fst))
  · intro r hr
    obtain ⟨e, _, hR⟩ := mem_of_pairs _ _ _ hrows r hr
    obtain ⟨_, hc, u, hu, _, hpos, htot, hperc⟩ := hfacts r e hR
    exact ⟨hc, u, hu, hpos, htot, hperc⟩
  · intro hc
    have hes : es.Pairwise (fun a b => b.2 ≤ a.2) :=
      ((hss hc).sublist (List.take_sublist _ _)).sublist hsub
    refine (pairwise_of_pairs _ _ _ _ hrows hes).imp ?_
    rintro a b ⟨ea, eb, hRa, hRb, hQ⟩
    obtain ⟨_, _, ua, hua, hca, _⟩ := hfacts a ea hRa
    obtain ⟨_, _, ub, hub, hcb, _⟩ := hfacts b eb hRb
    unfold rowCount
    rw [hua, hub]
    simp only [Option.map_some', Option.getD_some]
    rw [← hca, ← hcb]
    exact hQ


/-! # Properties of the reports -/

/-! ## Ranking reports: number of rows -/

/-- C1, as stated, fails.  In the scenario of the specification (one eligible
domain): `>top-ads (0)` writes one row, not `min 0 1 = 0`; with the setting
`API_QUERY_LOG_SHOW=permittedonly`, `>top-ads (5)` writes no row, not `min 5 1 = 1`;
with "for audit" and the domain in the audit list, `>top-ads for audit (5)` writes no
row although the domain is present, not excluded, not hidden and has a positive
score; and with an absent third domain record whose `temparray` slot holds a stale
pair, `>top-ads (5)` writes three rows for two eligible domains. -/
theorem top_rows_count_fails :
    (sscanf_count ">top-ads (0)" = some 0
        ∧ (eligibleDomains scenarioAds true false).length = 1
        ∧ (getTopDomains scenarioAds refPlatform ">top-ads (0)" true).sent.length = 1)
      ∧ (sscanf_count ">top-ads (5)" = some 5
        ∧ (eligibleDomains { scenarioAds with API_QUERY_LOG_SHOW := some "permittedonly" }
            true false).length = 1
        ∧ (getTopDomains { scenarioAds with API_QUERY_LOG_SHOW := some "permittedonly" }
            refPlatform ">top-ads (5)" true).sent.length = 0)
      ∧ (sscanf_count ">top-ads for audit (5)" = some 5
        ∧ (eligibleDomains { scenarioAds with in_auditlist := fun _ => 1 }
            true false).length = 1
        ∧ (getTopDomains { scenarioAds with in_auditlist := fun _ => 1 }
            refPlatform ">top-ads for audit (5)" true).sent.length = 0)
      ∧ ((eligibleDomains threeSlots true false).length = 2
        ∧ (getTopDomains threeSlots stalePlatform ">top-ads (5)" true).sent.length = 3) := by
  decide

/-- C1, amended.  For an explicit count `n ≥ 1`, a `qsort` that meets its contract
and no encoder failure (line mode, or a binary encoder that accepts every string):
below HIDE_DOMAINS, when every domain record is present and `API_QUERY_LOG_SHOW`
shows the kind of query the report ranks, `getTopDomains` writes exactly
`min n (number of eligible domains)` rows, all in full, eligibility with "for audit"
being "not in the audit list" in place of "not excluded"; below
HIDE_DOMAINS_CLIENTS, `getTopClients` writes exactly `min n (number of eligible
clients)` rows, all in full. -/
theorem top_rows_count (S : Snapshot) (P : Platform) (client_message : String)
    (istelnet : Bool) (n : Int)
    (hq : QsortContract P.qsort) (hnum : sscanf_count client_message = some n)
    (hn : 1 ≤ n) (henc : istelnet = true ∨ ∀ s, P.pack_str32 s = true) :
    (S.privacylevel < PRIVACY_HIDE_DOMAINS → (∀ o ∈ S.domains, o ≠ none) →
      (if command client_message ">top-ads" then showblocked_of S.API_QUERY_LOG_SHOW
        else showpermitted_of S.API_QUERY_LOG_SHOW) = true →
      (getTopDomains S P client_message istelnet).sent
          = (getTopDomains S P client_message istelnet).rows
        ∧ (getTopDomains S P client_message istelnet).sent.length
          = min n.toNat (eligibleDomains S (command client_message ">top-ads")
              (command client_message " for audit")).length)
    ∧ (S.privacylevel < PRIVACY_HIDE_DOMAINS_CLIENTS →
      (getTopClients S P client_message istelnet).sent
          = (getTopClients S P client_message istelnet).rows
        ∧ (getTopClients S P client_message istelnet).sent.length
          = min n.toNat (eligibleClients S (command client_message " blocked")
              (command client_message " withzero")).length) := by
  constructor
  · intro hlevel hall hshow
    have hab := getTopDomains_body_isAbort S P istelnet (command client_message ">top-ads")
      (command client_message " for audit") (showblocked_of S.API_QUERY_LOG_SHOW)
      (showpermitted_of S.API_QUERY_LOG_SHOW)
      (if !command client_message " for audit" then S.API_EXCLUDE_DOMAINS else none) henc
    have hem := getTopDomains_body_isEmit S P istelnet (command client_message ">top-ads")
      (command client_message " for audit") (showblocked_of S.API_QUERY_LOG_SHOW)
      (showpermitted_of S.API_QUERY_LOG_SHOW) henc hshow
    have hsent : (getTopDomains S P client_message istelnet).sent
        = (getTopDomains S P client_message istelnet).rows := by
      unfold Report.sent
      apply sent_eq_rows_of_complete
      intro r hr
      rw [getTopDomains_rows_eq S P client_message istelnet hlevel] at hr
      exact topLoop_complete _ _ hab _ _ r hr
    refine ⟨hsent, ?_⟩
    rw [hsent, getTopDomains_rows_eq S P client_message istelnet hlevel, hnum]
    simp only [Option.getD_some]
    rw [topLoop_length _ n (fun e => eligibleDomain S (command client_message ">top-ads")
      (command client_message " for audit") e.1) hem hab _ hn]
    congr 1
    have hperm := ((hq.perm (if command client_message " asc" then cmpasc else cmpdesc)
      (getTopDomains_temparray S P (command client_message ">top-ads"))).filter
        (fun e => eligibleDomain S (command client_message ">top-ads")
          (command client_message " for audit") e.1)).length_eq
    rw [hperm]
    have h := congrArg List.length (getTopDomains_passing_ids S P
      (command client_message ">top-ads") (command client_message " for audit") hall)
    simpa using h
  · intro hlevel
    have hab := getTopClients_body_isAbort S P istelnet (command client_message " withzero")
      S.API_EXCLUDE_CLIENTS henc
    have hem := getTopClients_body_isEmit S P istelnet (command client_message " withzero") henc
    have hsent : (getTopClients S P client_message istelnet).sent
        = (getTopClients S P client_message istelnet).rows := by
      unfold Report.sent
      apply sent_eq_rows_of_complete
      intro r hr
      rw [getTopClients_rows_eq S P client_message istelnet hlevel] at hr
      exact topLoop_complete _ _ hab _ _ r hr
    refine ⟨hsent, ?_⟩
    rw [hsent, getTopClients_rows_eq S P client_message istelnet hlevel, hnum]
    simp only [Option.getD_some]
    rw [topLoop_length _ n (clientRowPasses S (command client_message " withzero")) hem hab _ hn]
    congr 1
    have hperm := ((hq.perm (if command client_message " asc" then cmpasc else cmpdesc)
      (getTopClients_temparray S P (command client_message " blocked"))).filter
        (clientRowPasses S (command client_message " withzero"))).length_eq
    rw [hperm]
    have h := congrArg List.length (getTopClients_passing_ids S P
      (command client_message " blocked") (command client_message " withzero"))
    simpa using h

/-- Witness for C1: `>top-ads (5)` and `>top-clients (5)` in the scenario of the
specification, in line mode, each write `min 5 1` rows. -/
theorem top_rows_count_witness :
    (getTopDomains scenarioAds refPlatform ">top-ads (5)" true).sent.length
        = min (5 : Int).toNat (eligibleDomains scenarioAds true false).length
      ∧ (getTopClients scenarioAds refPlatform ">top-ads (5)" true).sent.length
        = min (5 : Int).toNat (eligibleClients scenarioAds false false).length :=
  have h := top_rows_count scenarioAds refPlatform ">top-ads (5)" true 5 qsortRef_contract
    (by decide) (by decide) (Or.inl rfl)
  ⟨(h.1 (by decide) (by decide) (by decide)).2, (h.2 (by decide)).2⟩

/-! ## Ranking reports: order, contents, exclusion -/

/-- C2, evaluated at a failing input.  Domains 0 ("ads.example.com", blocked once)
and 1 ("tracker.example.net", blocked five times) are present, the record of slot 2
is absent, and the never-written `temparray[2]` holds the stale pair `(0, 100)`.
`>top-ads` in line mode then writes the scores 1, 5, 1 in this order, which is not
non-increasing, and names domain 0 twice.  The three scores in `temparray` are
distinct, so the order of the sorted array does not depend on how `qsort` treats
ties. -/
theorem top_ads_order_broken_by_stale_slot :
    (getTopDomains threeSlots stalePlatform ">top-ads" true).rows
        = [⟨0, [.ssend "%i %i %s\n" [.int 0, .int 1, .str "ads.example.com"]], true⟩,
           ⟨1, [.ssend "%i %i %s\n" [.int 1, .int 5, .str "tracker.example.net"]], true⟩,
           ⟨0, [.ssend "%i %i %s\n" [.int 2, .int 1, .str "ads.example.com"]], true⟩]
      ∧ (getTopDomains threeSlots stalePlatform ">top-ads" true).sent.filterMap Row.score
        = [1, 5, 1]
      ∧ ¬ ((getTopDomains threeSlots stalePlatform ">top-ads" true).sent.filterMap
          Row.score).Pairwise (fun a b => b ≤ a) := by
  decide

/-- C3, as stated, fails.  In the scenario of the specification, `>top-ads (5)` in
line mode writes its one row and no denominator; in binary mode with an encoder that
rejects the name, it writes the denominator and no row, although 5 is at least the
number of eligible domains; and with two eligible domains, an absent third record and
a stale `temparray` slot, `>top-ads (2)` writes two rows naming domain 0 and none
naming domain 1. -/
theorem top_ads_report_fails :
    (getTopDomains scenarioAds refPlatform ">top-ads (5)" true).wire
        = [.ssend "%i %i %s\n" [.int 0, .int 1, .str "ads.example.com"]]
      ∧ ((eligibleDomains scenarioAds true false).length = 1
        ∧ (getTopDomains scenarioAds failingPlatform ">top-ads (5)" false).wire
          = [.pack_int32 1])
      ∧ (eligibleDomains twoAndAbsent true false = [0, 1]
        ∧ (getTopDomains twoAndAbsent stalePlatform ">top-ads (2)" false).rows.map Row.id
          = [0, 0]) := by
  decide

/-- C3, amended.  For `>top-ads (n)` at privacy level SHOW_ALL with no exclusion list,
no audit modifier and an `API_QUERY_LOG_SHOW` setting that shows blocked queries: in
binary mode the value written before the rows is the total number of blocked queries
(in line mode nothing is written before the rows); every row written in full belongs
to a present domain with a positive blocked count and consists of that domain's name
and blocked count (preceded by the row number in line mode); and when no encoder
failure occurs, every domain record is present and `n` is at least the number of
non-hidden domains with a positive blocked count, each such domain has exactly one
row. -/
theorem top_ads_report (S : Snapshot) (P : Platform) (client_message : String)
    (istelnet : Bool) (n : Int) (hq : QsortContract P.qsort)
    (hcmd : command client_message ">top-ads" = true)
    (hnum : sscanf_count client_message = some n)
    (hlevel : S.privacylevel = PRIVACY_SHOW_ALL) (hex : S.API_EXCLUDE_DOMAINS = none)
    (haudit : command client_message " for audit" = false)
    (hshow : showblocked_of S.API_QUERY_LOG_SHOW = true) :
    (getTopDomains S P client_message istelnet).header
        = (if istelnet then [] else [.pack_int32 S.blocked_queries])
      ∧ (∀ r ∈ (getTopDomains S P client_message istelnet).sent,
          ∃ domain k, getDomain S r.id = some domain ∧ 0 < domain.blockedcount
            ∧ r.out = if istelnet then
                [.ssend "%i %i %s\n"
                  [.int k, .int domain.blockedcount, .str (S.getstr domain.domainpos)]]
              else
                [.pack_str32 (S.getstr domain.domainpos), .pack_int32 domain.blockedcount])
      ∧ ((istelnet = true ∨ ∀ s, P.pack_str32 s = true) → (∀ o ∈ S.domains, o ≠ none) →
          ((eligibleDomains S true false).length : Int) ≤ n →
          ∀ (i : Nat) (domain : domainsData), getDomain S i = some domain →
            S.getstr domain.domainpos ≠ HIDDEN_DOMAIN → 0 < domain.blockedcount →
            ((getTopDomains S P client_message istelnet).rows.map Row.id).count (i : Int)
              = 1) := by
  have hlt : S.privacylevel < PRIVACY_HIDE_DOMAINS := by
    rw [hlevel]
    decide
  refine ⟨?_, ?_, ?_⟩
  · have h : ¬ S.privacylevel ≥ PRIVACY_HIDE_DOMAINS := not_le.mpr hlt
    cases istelnet <;> simp [getTopDomains, h, hcmd]
  · intro r hr
    obtain ⟨hrows, hcomplete⟩ := List.mem_filter.mp hr
    rcases getTopDomains_row_inv S P client_message istelnet r hrows with h | h
    · obtain ⟨_, domain, k, hd, _, _, hs, hout⟩ := h
      rw [hcmd] at hs hout
      refine ⟨domain, k, hd, by simpa [domainScore] using hs, ?_⟩
      rw [hout]
      simp [domainRowOut, domainScore]
    · rw [h.1] at hcomplete
      cases hcomplete
  · intro henc hall hlen i domain hd hhid hpos
    have hi : i ∈ eligibleDomains S true false := by
      unfold eligibleDomains
      refine List.mem_filter.mpr ⟨List.mem_range.mpr (lookup_some_lt _ _ _ hd), ?_⟩
      simp [eligibleDomain, hd, hex, excludedBy, domainScore, hhid, hpos]
    have hab := getTopDomains_body_isAbort S P istelnet (command client_message ">top-ads")
      (command client_message " for audit") (showblocked_of S.API_QUERY_LOG_SHOW)
      (showpermitted_of S.API_QUERY_LOG_SHOW)
      (if !command client_message " for audit" then S.API_EXCLUDE_DOMAINS else none) henc
    have hem := getTopDomains_body_isEmit S P istelnet (command client_message ">top-ads")
      (command client_message " for audit") (showblocked_of S.API_QUERY_LOG_SHOW)
      (showpermitted_of S.API_QUERY_LOG_SHOW) henc (by rw [hcmd]; simpa using hshow)
    have hn : 1 ≤ n := by
      have : 0 < (eligibleDomains S true false).length := List.length_pos_of_mem hi
      omega
    have hperm : (((P.qsort (if command client_message " asc" then cmpasc else cmpdesc)
        (getTopDomains_temparray S P true)).filter
          (fun e => eligibleDomain S true false e.1)).map Prod.fst).Perm
        ((eligibleDomains S true false).map Nat.cast) := by
      rw [← getTopDomains_passing_ids S P true false hall]
      exact ((hq.perm _ _).filter _).map _
    rw [getTopDomains_rows_eq S P client_message istelnet hlt, hnum]
    simp only [Option.getD_some]
    rw [topLoop_ids_take _ n (fun e => eligibleDomain S (command client_message ">top-ads")
      (command client_message " for audit") e.1) hem hab _ 0 (by omega)]
    rw [hcmd, haudit]
    rw [List.take_of_length_le (by
      rw [hperm.length_eq, List.length_map]
      omega)]
    rw [hperm.count_eq]
    apply List.count_eq_one_of_mem
    · exact (List.Nodup.filter _ (List.nodup_range _)).map Nat.cast_injective
    · exact List.mem_map_of_mem _ hi

/-- Witness for C3: the scenario of the specification in binary mode.  The report
is the denominator 1 followed by the single row ("ads.example.com", 1), and the
theorem applies to it. -/
theorem top_ads_report_witness :
    (getTopDomains scenarioAds refPlatform ">top-ads (5)" false).wire
        = [.pack_int32 1, .pack_str32 "ads.example.com", .pack_int32 1]
      ∧ (getTopDomains scenarioAds refPlatform ">top-ads (5)" false).header
        = [.pack_int32 scenarioAds.blocked_queries]
      ∧ ((getTopDomains scenarioAds refPlatform ">top-ads (5)" false).rows.map
            Row.id).count ((0 : Nat) : Int) = 1 :=
  have h := top_ads_report scenarioAds refPlatform ">top-ads (5)" false 5 qsortRef_contract
    (by decide) (by decide) (by decide) (by decide) (by decide) (by decide)
  ⟨by decide, h.1,
    h.2.2 (Or.inr fun _ => rfl) (by decide) (by decide) 0 ⟨1, 1, 1⟩ (by decide) (by decide)
      (by decide)⟩

/-! ## Privacy gates of the domain reports -/

/-- C4, as stated, fails.  At privacy level HIDE_DOMAINS, `>top-ads` in line mode
writes nothing at all: no row, and no denominator either. -/
theorem top_domains_gate_fails :
    raisedPrivacy.privacylevel = PRIVACY_HIDE_DOMAINS
      ∧ (getTopDomains raisedPrivacy refPlatform ">top-ads" true).wire = [] := by
  decide

/-- C4, amended.  For every snapshot and every top-domains or top-ads command, when
the current privacy level is at least HIDE_DOMAINS the report writes no row; in
binary mode it writes exactly the denominator 0, in line mode it writes nothing. -/
theorem top_domains_gate (S : Snapshot) (P : Platform) (client_message : String)
    (istelnet : Bool) (hlevel : S.privacylevel ≥ PRIVACY_HIDE_DOMAINS) :
    (getTopDomains S P client_message istelnet).rows = []
      ∧ (getTopDomains S P client_message istelnet).wire
        = (if istelnet then [] else [.pack_int32 0]) := by
  cases istelnet <;> simp [getTopDomains, Report.wire, hlevel]

/-- Witness for C4: the scenario of the specification at level HIDE_DOMAINS, binary
mode; at level SHOW_ALL the same command writes a row. -/
theorem top_domains_gate_witness :
    (getTopDomains raisedPrivacy refPlatform ">top-ads" false).rows = []
      ∧ (getTopDomains raisedPrivacy refPlatform ">top-ads" false).wire = [.pack_int32 0]
      ∧ (getTopDomains scenarioAds refPlatform ">top-ads" false).rows ≠ [] :=
  have h := top_domains_gate raisedPrivacy refPlatform ">top-ads" false (by decide)
  ⟨h.1, h.2, by decide⟩

/-- C5, as stated, fails.  With the current privacy level at HIDE_DOMAINS and a
blocked entry that was recorded at SHOW_ALL, `>recentBlocked` writes a row naming
the entry's domain. -/
theorem recent_blocked_gate_fails :
    raisedPrivacy.privacylevel = PRIVACY_HIDE_DOMAINS
      ∧ (getRecentBlocked raisedPrivacy refPlatform ">recentBlocked" true).wire
        = [.ssend "%s\n" [.str "ads.example.com"]] := by
  decide

/-- C5, amended.  `getRecentBlocked` does not look at the current privacy level.
Every row it writes belongs to a present, blocked log entry, and the only string in
it is that entry's domain display string, which is subject to the privacy level
recorded in the entry: for an entry recorded at HIDE_DOMAINS or above it is the
"hidden" placeholder. -/
theorem recent_blocked_rows (S : Snapshot) (P : Platform) (client_message : String)
    (istelnet : Bool) (r : Row)
    (hr : r ∈ (getRecentBlocked S P client_message istelnet).rows) :
    ∃ query, getQuery S r.id = some query ∧ query.blocked = true
      ∧ ∀ o ∈ r.out, ∀ s ∈ o.strings,
          getDomainString S query = some s
            ∧ (query.privacylevel ≥ PRIVACY_HIDE_DOMAINS → s = HIDDEN_DOMAIN) := by
  unfold getRecentBlocked at hr
  obtain ⟨queryID, _, hid, query, domain, hq, hb, hd, hout⟩ :=
    getRecentBlocked_loop_mem S P istelnet _ _ _ r hr
  refine ⟨query, by rw [hid]; exact hq, hb, ?_⟩
  intro o ho s hs
  have hs' : s = domain := by
    rcases hout with ⟨_, hout⟩ | ⟨_, hout⟩
    · rw [hout] at ho
      have ho := List.mem_singleton.mp ho
      subst ho
      cases istelnet <;> simpa [Out.strings] using hs
    · rw [hout] at ho
      cases ho
  subst hs'
  refine ⟨hd, ?_⟩
  intro hlevel
  have hnot : ¬ query.privacylevel < PRIVACY_HIDE_DOMAINS := not_lt.mpr hlevel
  simp only [getDomainString, hnot, if_false] at hd
  exact (Option.some.inj hd).symm

/-- Witness for C5: with the blocked entries recorded at HIDE_DOMAINS, the row of
`>recentBlocked` is the "hidden" placeholder. -/
theorem recent_blocked_rows_witness :
    (getRecentBlocked
        { raisedPrivacy with
          queries := [some blockedQuery, some { blockedQuery with privacylevel := 1 }] }
        refPlatform ">recentBlocked" true).rows
        = [⟨1, [.ssend "%s\n" [.str "hidden"]], true⟩]
      ∧ ∃ query,
          getQuery
              { raisedPrivacy with
                queries := [some blockedQuery, some { blockedQuery with privacylevel := 1 }] }
              (1 : Int) = some query
            ∧ query.blocked = true
            ∧ ∀ o ∈ [Out.ssend "%s\n" [.str "hidden"]], ∀ s ∈ o.strings,
                getDomainString
                    { raisedPrivacy with
                      queries :=
                        [some blockedQuery, some { blockedQuery with privacylevel := 1 }] }
                    query = some s
                  ∧ (query.privacylevel ≥ PRIVACY_HIDE_DOMAINS → s = HIDDEN_DOMAIN) :=
  ⟨by decide,
    recent_blocked_rows
      { raisedPrivacy with
        queries := [some blockedQuery, some { blockedQuery with privacylevel := 1 }] }
      refPlatform ">recentBlocked" true ⟨1, [.ssend "%s\n" [.str "hidden"]], true⟩
      (by decide)⟩

/-! ## Privacy gates of the client reports and of the replay -/

/-- C6. When the current privacy level is at least HIDE_DOMAINS_CLIENTS, for every
snapshot `getTopClients` writes no row (in binary mode only the denominator 0, in
line mode nothing), and `getClientsOverTime` and `getClientNames` write nothing. -/
theorem client_reports_gate (S : Snapshot) (P : Platform) (client_message : String)
    (istelnet : Bool) (hlevel : S.privacylevel ≥ PRIVACY_HIDE_DOMAINS_CLIENTS) :
    (getTopClients S P client_message istelnet).rows = []
      ∧ (getTopClients S P client_message istelnet).wire
        = (if istelnet then [] else [.pack_int32 0])
      ∧ (getClientsOverTime S P istelnet).wire = []
      ∧ (getClientNames S P istelnet).wire = [] := by
  cases istelnet <;>
    simp [getTopClients, getClientsOverTime, getClientNames, Report.wire, hlevel]

/-- Witness for C6: the scenario of the specification at HIDE_DOMAINS_CLIENTS, binary
mode; at SHOW_ALL each of the three reports writes something. -/
theorem client_reports_gate_witness :
    ((getTopClients { scenarioAds with privacylevel := 2 } refPlatform ">top-clients"
          false).rows = []
        ∧ (getTopClients { scenarioAds with privacylevel := 2 } refPlatform ">top-clients"
          false).wire = [.pack_int32 0]
        ∧ (getClientsOverTime { scenarioAds with privacylevel := 2 } refPlatform false).wire
          = []
        ∧ (getClientNames { scenarioAds with privacylevel := 2 } refPlatform false).wire = [])
      ∧ (getTopClients scenarioAds refPlatform ">top-clients" false).rows ≠ []
      ∧ (getClientsOverTime scenarioAds refPlatform false).wire ≠ []
      ∧ (getClientNames scenarioAds refPlatform false).wire ≠ [] :=
  ⟨client_reports_gate { scenarioAds with privacylevel := 2 } refPlatform ">top-clients"
      false (by decide),
    by decide, by decide, by decide⟩

/-- C7. At privacy level MAXIMUM (or above) the query-log replay and the
unknown-query listing write nothing, whatever the log and the command string. -/
theorem maximum_privacy_refuses_replay_and_unknown (S : Snapshot) (P : Platform)
    (client_message : String) (istelnet : Bool)
    (hlevel : S.privacylevel ≥ PRIVACY_MAXIMUM) :
    (getAllQueries S P client_message istelnet).rows = []
      ∧ (getAllQueries S P client_message istelnet).wire = []
      ∧ (getUnknownQueries S P istelnet).rows = []
      ∧ (getUnknownQueries S P istelnet).wire = [] := by
  have h2 : S.privacylevel ≥ PRIVACY_HIDE_DOMAINS := by
    unfold PRIVACY_MAXIMUM at hlevel
    unfold PRIVACY_HIDE_DOMAINS
    omega
  simp [getAllQueries, getUnknownQueries, Report.wire, hlevel, h2]

/-- Witness for C7: the scenario of the specification at level MAXIMUM; at SHOW_ALL
both reports write a row for the log entry. -/
theorem maximum_privacy_refuses_witness :
    ((getAllQueries { scenarioAds with privacylevel := 3 } refPlatform ">getallqueries"
          true).rows = []
        ∧ (getAllQueries { scenarioAds with privacylevel := 3 } refPlatform ">getallqueries"
          true).wire = []
        ∧ (getUnknownQueries { scenarioAds with privacylevel := 3 } refPlatform true).rows = []
        ∧ (getUnknownQueries { scenarioAds with privacylevel := 3 } refPlatform true).wire
          = [])
      ∧ (getAllQueries scenarioAds refPlatform ">getallqueries" true).rows.length = 1
      ∧ (getUnknownQueries
          { scenarioAds with queries := [some { blockedQuery with complete := false }] }
          refPlatform true).rows.length = 1 :=
  ⟨maximum_privacy_refuses_replay_and_unknown { scenarioAds with privacylevel := 3 }
      refPlatform ">getallqueries" true (by decide),
    by decide, by decide⟩

/-- C8. Whatever the current privacy level, the command and the settings, every
row of the query-log replay (also one cut short by an encoder failure) belongs to a
present log entry whose own recorded privacy level is below MAXIMUM. -/
theorem replay_never_shows_maximum_entry (S : Snapshot) (P : Platform)
    (client_message : String) (istelnet : Bool) (r : Row)
    (hr : r ∈ (getAllQueries S P client_message istelnet).rows) :
    ∃ query, getQuery S r.id = some query ∧ query.privacylevel < PRIVACY_MAXIMUM := by
  unfold getAllQueries at hr
  by_cases hlevel : S.privacylevel ≥ PRIVACY_MAXIMUM
  · simp [hlevel] at hr
  · simp only [hlevel, if_false] at hr
    cases hF : getAllQueries_filter S client_message with
    | none => simp [hF] at hr
    | some F =>
      simp only [hF] at hr
      obtain ⟨queryID, _, hid, hw⟩ := queryLoop_mem _ _ r hr
      have hne : getAllQueries_body S P istelnet F queryID ≠ .skip := by
        rcases hw with ⟨h, _⟩ | ⟨h, _⟩ <;> simp [h]
      obtain ⟨query, hq, hp, _⟩ := getAllQueries_body_wrote S P istelnet F queryID hne
      exact ⟨query, by rw [hid]; exact hq, hp⟩

/-- Witness for C8: in a log whose entry 0 was recorded at MAXIMUM and whose entry 1
was recorded at SHOW_ALL, the replay writes exactly one row, for entry 1. -/
theorem replay_never_shows_maximum_entry_witness :
    (getAllQueries mixedPrivacyLog refPlatform ">getallqueries" false).rows
        = [⟨1, [.pack_int32 100, .pack_fixstr "A", .pack_str32 "ads.example.com",
                .pack_str32 "10.0.0.5", .pack_uint8 1, .pack_uint8 0], true⟩]
      ∧ ∃ query, getQuery mixedPrivacyLog (1 : Int) = some query
          ∧ query.privacylevel < PRIVACY_MAXIMUM :=
  ⟨by decide,
    replay_never_shows_maximum_entry mixedPrivacyLog refPlatform ">getallqueries" false
      ⟨1, [.pack_int32 100, .pack_fixstr "A", .pack_str32 "ads.example.com",
            .pack_str32 "10.0.0.5", .pack_uint8 1, .pack_uint8 0], true⟩
      (by decide)⟩

/-! ## Exclusion set of the domain ranking -/

/-- C9, as stated, fails.  With "ads.example.com" in the exclusion set,
`>top-ads for audit` writes a row naming it: with "for audit" the exclusion set is
not loaded. -/
theorem top_domains_exclusion_fails :
    scenarioExcluded.API_EXCLUDE_DOMAINS = some ["ads.example.com"]
      ∧ (getTopDomains scenarioExcluded refPlatform ">top-ads for audit" true).rows
        = [⟨0, [.ssend "%i %i %s\n" [.int 0, .int 1, .str "ads.example.com"]], true⟩] := by
  decide

/-- C9, amended.  For every top-domains or top-ads command without the "for audit"
modifier (with or without "asc") and every configured exclusion set, no string
written in any row is a member of the exclusion set. -/
theorem top_domains_exclusion (S : Snapshot) (P : Platform) (client_message : String)
    (istelnet : Bool) (arr : List String)
    (haudit : command client_message " for audit" = false)
    (hex : S.API_EXCLUDE_DOMAINS = some arr) :
    ∀ r ∈ (getTopDomains S P client_message istelnet).rows,
      ∀ o ∈ r.out, ∀ s ∈ o.strings, insetupVarsArray arr s = false := by
  intro r hr o ho s hs
  rcases getTopDomains_row_inv S P client_message istelnet r hr with h | h
  · obtain ⟨_, domain, k, _, hx, _, _, hout⟩ := h
    have hx' := hx arr (by simp [haudit, hex])
    rw [hout] at ho
    cases istelnet
    · simp only [domainRowOut, Bool.false_eq_true, if_false, List.mem_cons,
        List.mem_singleton, List.not_mem_nil, or_false] at ho
      rcases ho with rfl | rfl
      · simp only [Out.strings, List.mem_singleton] at hs
        rw [hs]
        exact hx'
      · simp [Out.strings] at hs
    · simp only [domainRowOut, if_true, List.mem_singleton] at ho
      subst ho
      simp only [Out.strings, List.filterMap_cons, List.filterMap_nil,
        List.mem_singleton] at hs
      rw [hs]
      exact hx'
  · rw [h.2] at ho
    cases ho

/-- Witness for C9: with "ads.example.com" excluded and no "for audit", `>top-ads`
writes no row at all, while without the exclusion it writes the row. -/
theorem top_domains_exclusion_witness :
    (getTopDomains scenarioExcluded refPlatform ">top-ads" true).rows = []
      ∧ (getTopDomains scenarioAds refPlatform ">top-ads" true).rows ≠ []
      ∧ ∀ r ∈ (getTopDomains scenarioExcluded refPlatform ">top-ads asc" true).rows,
          ∀ o ∈ r.out, ∀ s ∈ o.strings, insetupVarsArray ["ads.example.com"] s = false :=
  ⟨by decide, by decide,
    top_domains_exclusion scenarioExcluded refPlatform ">top-ads asc" true
      ["ads.example.com"] (by decide) rfl⟩

/-! ## Alias-clients in the client ranking -/

/-- C10. For every snapshot and every top-clients command (with a `qsort` that meets
its contract): no row, written in full or cut short, belongs to a client that is not
itself an alias-client aggregate and has an alias linkage id of at least 0; every
row written in full carries the address, the name (line mode) and the score of the
client it belongs to, an aggregate being shown as itself; and, without encoder
failure, an alias-client aggregate that is present, not excluded, not hidden and
passes the score test has a row unless the loop stopped at the requested count. -/
theorem top_clients_alias (S : Snapshot) (P : Platform) (client_message : String)
    (istelnet : Bool) (hq : QsortContract P.qsort) :
    (∀ r ∈ (getTopClients S P client_message istelnet).rows,
        ∃ client, getClient S r.id = some client
          ∧ ¬ (client.aliasclient = false ∧ client.aliasclient_id ≥ 0))
      ∧ (∀ r ∈ (getTopClients S P client_message istelnet).sent,
        ∃ client k, getClient S r.id = some client
          ∧ r.out = if istelnet then
              [.ssend "%i %i %s %s\n"
                [.int k, .int (clientScore (command client_message " blocked") client),
                 .str (S.getstr client.ippos), .str (S.getstr client.namepos)]]
            else
              [.pack_str32 "", .pack_str32 (S.getstr client.ippos),
               .pack_int32 (clientScore (command client_message " blocked") client)])
      ∧ (S.privacylevel < PRIVACY_HIDE_DOMAINS_CLIENTS →
          (istelnet = true ∨ ∀ s, P.pack_str32 s = true) →
          ∀ (i : Nat) (client : clientsData), getClient S i = some client →
            client.aliasclient = true →
            clientExcluded S client = false →
            S.getstr client.ippos ≠ HIDDEN_CLIENT →
            (command client_message " withzero" = true
              ∨ 0 < clientScore (command client_message " blocked") client) →
            (i : Int) ∈ (getTopClients S P client_message istelnet).rows.map Row.id
              ∨ ((getTopClients S P client_message istelnet).rows.length : Int)
                = (sscanf_count client_message).getD 10) := by
  refine ⟨?_, ?_, ?_⟩
  · intro r hr
    obtain ⟨client, hc, hm, _⟩ := getTopClients_row_inv S P client_message istelnet hq r hr
    refine ⟨client, hc, ?_⟩
    rintro ⟨h1, h2⟩
    simp [isAliasMember, h1, h2] at hm
  · intro r hr
    obtain ⟨hrows, hcomplete⟩ := List.mem_filter.mp hr
    obtain ⟨client, hc, _, h | h⟩ :=
      getTopClients_row_inv S P client_message istelnet hq r hrows
    · obtain ⟨_, _, _, k, hout⟩ := h
      refine ⟨client, k, hc, ?_⟩
      rw [hout]
      simp [clientRowOut]
    · rw [h.1] at hcomplete
      cases hcomplete
  · intro hlevel henc i client hc halias hex hhid hscore
    have hab := getTopClients_body_isAbort S P istelnet (command client_message " withzero")
      S.API_EXCLUDE_CLIENTS henc
    have hem := getTopClients_body_isEmit S P istelnet (command client_message " withzero") henc
    have helig : eligibleClient S (command client_message " blocked")
        (command client_message " withzero") i = true := by
      simp only [eligibleClient, hc, isAliasMember, halias, hex]
      rcases hscore with h | h
      · simp [h, hhid]
      · simp [h, hhid]
    obtain ⟨client', hc', _, hslot⟩ := getTopClients_slot_eligible S P
      (command client_message " blocked") (command client_message " withzero") i helig
    have hmem : getTopClients_slot S P (command client_message " blocked") i
        ∈ P.qsort (if command client_message " asc" then cmpasc else cmpdesc)
          (getTopClients_temparray S P (command client_message " blocked")) := by
      apply (hq.perm _ _).symm.subset
      exact List.mem_map_of_mem _ (List.mem_range.mpr (lookup_some_lt _ _ _ hc))
    have hpass := getTopClients_slot_passes S P (command client_message " blocked")
      (command client_message " withzero") i
    rw [helig] at hpass
    rw [getTopClients_rows_eq S P client_message istelnet hlevel]
    rcases topLoop_all_or_cut _ ((sscanf_count client_message).getD 10) _ hem hab
        (P.qsort (if command client_message " asc" then cmpasc else cmpdesc)
          (getTopClients_temparray S P (command client_message " blocked"))) 0 with h | h
    · left
      have := h _ hmem hpass
      rw [hslot] at this
      exact this
    · right
      simpa using h

/-- Witness for C10: the alias scenario of the specification.  `>top-clients` writes
one row, for the aggregate "laptop-group" under its own address and name, and none
for the two clients aggregated under it. -/
theorem top_clients_alias_witness :
    (getTopClients aliasGroup refPlatform ">top-clients" true).rows
        = [⟨0, [.ssend "%i %i %s %s\n"
                [.int 0, .int 3, .str "aliasclient-0", .str "laptop-group"]], true⟩]
      ∧ (∀ r ∈ (getTopClients aliasGroup refPlatform ">top-clients" true).rows,
          ∃ client, getClient aliasGroup r.id = some client
            ∧ ¬ (client.aliasclient = false ∧ client.aliasclient_id ≥ 0))
      ∧ ((0 : Nat) : Int)
          ∈ (getTopClients aliasGroup refPlatform ">top-clients" true).rows.map Row.id :=
  have h := top_clients_alias aliasGroup refPlatform ">top-clients" true qsortRef_contract
  ⟨by decide, h.1,
    (h.2.2 (by decide) (Or.inl rfl) 0 ⟨6, 5, 3, 1, true, 0, [0, 3, 0]⟩ (by decide) rfl
      (by decide) (by decide) (Or.inr (by decide))).resolve_right (by decide)⟩

/-! ## Queries over time -/

/-- C11. Let `from` be the first slot with a positive total or blocked count and a
timestamp not below that of slot 0, and `until` the first slot whose timestamp is at
least "now" (the number of slots when there is none).  Then `getOverTime` writes
something, and in every table it writes (the one table of lines in line mode, each
of the two maps in binary mode) the rows are those of the slots `s` with
`from ≤ s < until`, once each, in increasing slot order; and when no slot has a
positive total or blocked count it writes nothing at all, in either mode. -/
theorem overTime_window (S : Snapshot) (P : Platform) (istelnet : Bool) :
    (∀ from_ until_ : Nat, IsFirstIndex (activeSlot S) S.overTime from_ →
        (IsFirstIndex (futureSlot P) S.overTime until_
          ∨ (until_ = S.overTime.length ∧ ∀ o ∈ S.overTime, o.timestamp < P.time)) →
        getOverTime S P istelnet ≠ []
          ∧ ∀ table ∈ getOverTime S P istelnet,
              table.rows.map Row.id = (List.range' from_ (until_ - from_)).map Nat.cast
                ∧ (∀ s : Nat, (s : Int) ∈ table.rows.map Row.id ↔ from_ ≤ s ∧ s < until_)
                ∧ (table.rows.map Row.id).Pairwise (fun a b => a < b))
      ∧ ((∀ o ∈ S.overTime, ¬ (0 < o.total ∨ 0 < o.blocked)) →
          getOverTime S P istelnet = []) := by
  constructor
  · intro from_ until_ hfrom huntil
    have h1 : firstSlot (fun o => (decide (o.total > 0) || decide (o.blocked > 0))
        && decide (o.timestamp ≥ (S.overTime.head?.map overTimeData.timestamp).getD 0))
        S.overTime 0 = some from_ := by
      rw [overTime_head]
      exact firstSlot_of_first _ _ _ hfrom
    have h2 : (firstSlot (fun o => decide (o.timestamp ≥ P.time)) S.overTime 0).getD
        S.overTime.length = until_ := by
      rcases huntil with h | ⟨hlen, hnone⟩
      · have := firstSlot_of_first _ _ _ h
        unfold futureSlot at this
        rw [this]
        rfl
      · have : firstSlot (fun o => decide (o.timestamp ≥ P.time)) S.overTime 0 = none := by
          rw [firstSlot_none]
          intro o ho
          have := hnone o ho
          simp only [decide_eq_false_iff_not, ge_iff_le, not_le]
          exact this
        rw [this, hlen]
        rfl
    have hids : ∀ (f : Nat → List Out),
        ((List.range' from_ (until_ - from_)).map fun (slot : Nat) =>
          (⟨(slot : Int), f slot, true⟩ : Row)).map Row.id
          = (List.range' from_ (until_ - from_)).map Nat.cast := by
      intro f
      rw [List.map_map]
      rfl
    have hmem : ∀ s : Nat, (s : Int) ∈ (List.range' from_ (until_ - from_)).map Nat.cast
        ↔ from_ ≤ s ∧ s < until_ := by
      intro s
      simp only [List.mem_map, List.mem_range', Nat.cast_inj]
      constructor
      · rintro ⟨a, ⟨i, hi, rfl⟩, rfl⟩
        omega
      · rintro ⟨ha, hb⟩
        exact ⟨s, ⟨s - from_, by omega, by omega⟩, rfl⟩
    have hpw : ((List.range' from_ (until_ - from_)).map (Nat.cast : Nat → Int)).Pairwise
        (fun a b => a < b) := by
      rw [List.pairwise_map]
      exact (List.pairwise_lt_range' from_ (until_ - from_)).imp
        (fun h => by exact_mod_cast h)
    unfold getOverTime
    simp only [h1, h2]
    cases istelnet
    · simp only [Bool.false_eq_true, if_false]
      refine ⟨by simp, ?_⟩
      intro table ht
      simp only [List.mem_cons, List.mem_singleton, List.not_mem_nil, or_false] at ht
      rcases ht with rfl | rfl
      · simp only [hids]
        exact ⟨trivial, hmem, hpw⟩
      · simp only [hids]
        exact ⟨trivial, hmem, hpw⟩
    · simp only [if_true]
      refine ⟨by simp, ?_⟩
      intro table ht
      simp only [List.mem_singleton] at ht
      subst ht
      simp only [hids]
      exact ⟨trivial, hmem, hpw⟩
  · intro hnone
    have : firstSlot (fun o => (decide (o.total > 0) || decide (o.blocked > 0))
        && decide (o.timestamp ≥ (S.overTime.head?.map overTimeData.timestamp).getD 0))
        S.overTime 0 = none := by
      rw [firstSlot_none]
      intro o ho
      have := hnone o ho
      simp only [Bool.and_eq_false_imp, Bool.or_eq_true, decide_eq_true_eq]
      intro h
      exact absurd h this
    unfold getOverTime
    simp only [this]

/-- Witness for C11: in the scenario of the specification the active window is
slots 1 and 2 (`from = 1`, no slot at or after "now", three slots); the line-mode
table and both binary maps have exactly these two rows. -/
theorem overTime_window_witness :
    (getOverTime scenarioAds refPlatform true).map (fun table => table.rows.map Row.id)
        = [[1, 2]]
      ∧ (getOverTime scenarioAds refPlatform false).map (fun table => table.rows.map Row.id)
        = [[1, 2], [1, 2]]
      ∧ (getOverTime scenarioAds refPlatform false ≠ []
        ∧ ∀ table ∈ getOverTime scenarioAds refPlatform false,
            table.rows.map Row.id = (List.range' 1 (3 - 1)).map Nat.cast
              ∧ (∀ s : Nat, (s : Int) ∈ table.rows.map Row.id ↔ 1 ≤ s ∧ s < 3)
              ∧ (table.rows.map Row.id).Pairwise (fun a b => a < b)) :=
  ⟨by decide, by decide,
    (overTime_window scenarioAds refPlatform false).1 1 3
      ⟨⟨⟨1200, 1, 1⟩, by decide, by decide⟩, by
        intro j hj x hx
        have hj0 : j = 0 := by omega
        subst hj0
        have : x = ⟨600, 0, 0⟩ := by
          have h0 : scenarioAds.overTime.get? 0 = some ⟨600, 0, 0⟩ := by decide
          rw [h0] at hx
          exact (Option.some.inj hx).symm
        subst this
        decide⟩
      (Or.inr ⟨by decide, by decide⟩)⟩

/-! ## Clients over time -/

/-- C12, evaluated at a failing input.  In the alias scenario of the specification
client 0 is the alias-client aggregate "laptop-group": it is present, not excluded,
not an alias member and has the lifetime count 3, so the specification lists it as
the one client of the series.  Its alias linkage id is 0, and the main loop of
`getClientsOverTime` skips every client whose alias linkage id is at least 0 without
looking at the aggregate flag: each row is the slot timestamp followed at once by
the end-of-row marker, with no count for the aggregate. -/
theorem clientsOverTime_drops_aggregate :
    (seriesClients aliasGroup).map Prod.fst = [0]
      ∧ (∃ client, getClient aliasGroup 0 = some client ∧ client.aliasclient = true
          ∧ isAliasMember client = false ∧ clientExcluded aliasGroup client = false
          ∧ client.count = 3)
      ∧ shownClients aliasGroup = []
      ∧ (getClientsOverTime aliasGroup refPlatform true).rows
          = [⟨1, [.ssend "%lli" [.int 1200], .ssend "\n" []], true⟩,
             ⟨2, [.ssend "%lli" [.int 1800], .ssend "\n" []], true⟩]
      ∧ (getClientsOverTime aliasGroup refPlatform false).rows
          = [⟨1, [.pack_int32 1200, .pack_int32 (-1)], true⟩,
             ⟨2, [.pack_int32 1800, .pack_int32 (-1)], true⟩] := by
  decide

/-! ## Query-log replay: filters -/

/-- C13. For a replay command with `>getallqueries-time from until` (`from` and
`until` as read by `sscanf`): every row belongs to a present entry whose timestamp
`t` satisfies `(from = 0 or from ≤ t)` and `(until = 0 or t ≤ until)`; and every
entry in the walked part of the log that the replay reaches (no entry before it ends
the replay on an encoder failure), that the same replay without the time bounds
writes in full, and whose timestamp satisfies the condition, is written in full. -/
theorem replay_time_filter (S : Snapshot) (P : Platform) (client_message : String)
    (istelnet : Bool) (from_ until_ : Int)
    (hcmd : command client_message ">getallqueries-time" = true)
    (htm : sscanf_time client_message = (from_, until_)) :
    (∀ r ∈ (getAllQueries S P client_message istelnet).rows,
        ∃ query, getQuery S r.id = some query
          ∧ inTimeRange from_ until_ query.timestamp)
      ∧ (∀ (F : ReplayFilter) (queryID : Nat) (query : queriesData) (out : List Out),
          S.privacylevel < PRIVACY_MAXIMUM →
          getAllQueries_filter S client_message = some F →
          F.ibeg.toNat ≤ queryID → getQuery S queryID = some query →
          (∀ x : Nat, F.ibeg.toNat ≤ x → x < queryID →
            (getAllQueries_body S P istelnet F x).isAbort = false) →
          getAllQueries_body S P istelnet { F with from_ := 0, until_ := 0 } queryID
            = .emit out →
          inTimeRange from_ until_ query.timestamp →
          (⟨(queryID : Int), out, true⟩ : Row)
            ∈ (getAllQueries S P client_message istelnet).rows) := by
  constructor
  · intro r hr
    obtain ⟨F, queryID, query, _, hF, hid, _, _, hq, _, _, hs, _⟩ :=
      getAllQueries_row_inv S P client_message istelnet r hr
    refine ⟨query, by rw [hid]; exact hq, ?_⟩
    have hf := (getAllQueries_filter_some S client_message F hF).1
    rw [hcmd, if_pos rfl, htm] at hf
    have h1 : F.from_ = from_ := congrArg Prod.fst hf
    have h2 : F.until_ = until_ := congrArg Prod.snd hf
    have := ((getAllQueries_skip_false_iff F query).mp hs).2.1
    rw [h1, h2] at this
    exact this
  · intro F queryID query out hlevel hF hbeg hq hreach hemit htime
    have hf := (getAllQueries_filter_some S client_message F hF).1
    rw [hcmd, if_pos rfl, htm] at hf
    have h1 : F.from_ = from_ := congrArg Prod.fst hf
    have h2 : F.until_ = until_ := congrArg Prod.snd hf
    have hne : getAllQueries_body S P istelnet { F with from_ := 0, until_ := 0 } queryID
        ≠ .skip := by simp [hemit]
    obtain ⟨query', hq', _, _, hs0⟩ := getAllQueries_body_wrote S P istelnet _ queryID hne
    rw [hq] at hq'
    have hqq := Option.some.inj hq'
    subst hqq
    have hs : getAllQueries_skip F query = false := by
      rw [getAllQueries_skip_false_iff] at hs0 ⊢
      obtain ⟨a, _, c, d, e, f⟩ := hs0
      refine ⟨a, ?_, c, d, e, f⟩
      rw [h1, h2]
      exact htime
    have hbody : getAllQueries_body S P istelnet F queryID = .emit out := by
      rw [← hemit]
      apply getAllQueries_body_congr
      intro q'' hq''
      rw [hq] at hq''
      have := Option.some.inj hq''
      subst this
      rw [hs, hs0]
    have hlt : queryID < S.queries.length := lookup_some_lt _ _ _ hq
    rw [getAllQueries_rows_eq S P client_message istelnet F hlevel hF]
    apply queryLoop_reaches _ _ _ _ (List.pairwise_lt_range' _ _)
    · exact List.mem_range'.mpr ⟨queryID - F.ibeg.toNat, by omega, by omega⟩
    · intro x hx hxq
      obtain ⟨i, _, hxi⟩ := List.mem_range'.mp hx
      exact hreach x (by omega) hxq
    · exact hbody

/-- Witness for C13: `>getallqueries-time 150 350` on the four-entry log (times 100,
200, 300, 400) writes the entries 1 and 2, and the theorem applies to it. -/
theorem replay_time_filter_witness :
    (getAllQueries replayLog refPlatform ">getallqueries-time 150 350" false).rows.map Row.id
        = [1, 2]
      ∧ ∀ r ∈ (getAllQueries replayLog refPlatform ">getallqueries-time 150 350" false).rows,
          ∃ query, getQuery replayLog r.id = some query
            ∧ inTimeRange 150 350 query.timestamp :=
  ⟨by decide,
    (replay_time_filter replayLog refPlatform ">getallqueries-time 150 350" false 150 350
      (by decide) (by decide)).1⟩

/-- C14. For a replay command with `>getallqueries-domain name`: when `target` is the
smallest index of a present domain whose interned name is exactly `name`, the domain
search resolves to `target`, the filter of the main loop carries `target`, and every
row belongs to an entry whose domain id or CNAME-target domain id is `target`; when
no present domain has the name, the command writes nothing. -/
theorem replay_domain_filter (S : Snapshot) (P : Platform) (client_message : String)
    (istelnet : Bool)
    (hcmd : command client_message ">getallqueries-domain" = true) :
    (∀ target : Nat,
        IsFirstIndex (domainNamed S (sscanf_s ">getallqueries-domain" client_message))
          S.domains target →
        resolveDomain S (sscanf_s ">getallqueries-domain" client_message) = (target : Int)
          ∧ (∀ F, getAllQueries_filter S client_message = some F → F.domainid = (target : Int))
          ∧ ∀ r ∈ (getAllQueries S P client_message istelnet).rows,
              ∃ query, getQuery S r.id = some query ∧ matchesDomain (target : Int) query)
      ∧ ((∀ o ∈ S.domains,
            domainNamed S (sscanf_s ">getallqueries-domain" client_message) o = false) →
          getAllQueries S P client_message istelnet = ⟨[], []⟩
            ∧ (getAllQueries S P client_message istelnet).wire = []) := by
  constructor
  · intro target hfirst
    have hres : resolveDomain S (sscanf_s ">getallqueries-domain" client_message)
        = (target : Int) := by
      rw [resolveDomain_eq, firstSlot_of_first _ _ _ hfirst]
      rfl
    have hdom : ∀ F, getAllQueries_filter S client_message = some F →
        F.domainid = (target : Int) := by
      intro F hF
      obtain ⟨_, _, _, _, _, _, _, h8, _⟩ := getAllQueries_filter_some S client_message F hF
      rw [hcmd, if_pos rfl, hres] at h8
      exact h8
    refine ⟨hres, hdom, ?_⟩
    intro r hr
    obtain ⟨F, queryID, query, _, hF, hid, _, _, hq, _, _, hs, _⟩ :=
      getAllQueries_row_inv S P client_message istelnet r hr
    refine ⟨query, by rw [hid]; exact hq, ?_⟩
    obtain ⟨_, _, _, _, _, _, h7, _⟩ := getAllQueries_filter_some S client_message F hF
    have := ((getAllQueries_skip_false_iff F query).mp hs).2.2.1 (by rw [h7]; exact hcmd)
    rw [hdom F hF] at this
    exact this
  · intro hnone
    have hres : resolveDomain S (sscanf_s ">getallqueries-domain" client_message) < 0 := by
      rw [resolveDomain_eq, (firstSlot_none _ _ 0).mpr hnone]
      decide
    have hF := getAllQueries_filter_isSome_domain S client_message hcmd hres
    have := getAllQueries_of_filter_none S P client_message istelnet hF
    rw [this]
    exact ⟨rfl, rfl⟩

/-- Witness for C14: `>getallqueries-domain tracker.example.net` on the four-entry
log resolves to domain 1 and writes entry 2 (domain 1) and entry 3 (CNAME target 1). -/
theorem replay_domain_filter_witness :
    (getAllQueries replayLog refPlatform ">getallqueries-domain tracker.example.net"
        true).rows.map Row.id = [2, 3]
      ∧ resolveDomain replayLog
          (sscanf_s ">getallqueries-domain" ">getallqueries-domain tracker.example.net") = 1
      ∧ ∀ r ∈ (getAllQueries replayLog refPlatform
            ">getallqueries-domain tracker.example.net" true).rows,
          ∃ query, getQuery replayLog r.id = some query ∧ matchesDomain 1 query :=
  have h := (replay_domain_filter replayLog refPlatform
      ">getallqueries-domain tracker.example.net" true (by decide)).1 1
    ((firstSlot_some _ _ 0 1).mp (by decide)).2
  ⟨by decide, h.1, h.2.2⟩

/-- C15, counterexample.  In the alias scenario with an entry recorded for the
aggregate itself, `>getallqueries-client laptop-group` resolves to client 0, an
alias-client aggregate; entry 2 has client id 0, equal to the resolved id, and the
replay without a filter writes it, yet the filtered replay writes only the entries 0
and 1 of the members. -/
theorem replay_client_filter_fails :
    resolveClient aliasReplay "laptop-group" = 0
      ∧ (getClient aliasReplay 0).map clientsData.aliasclient = some true
      ∧ get_aliasclient_list aliasReplay 0 = [1, 2]
      ∧ (getQuery aliasReplay 2).map queriesData.clientID = some 0
      ∧ (getAllQueries aliasReplay refPlatform ">getallqueries" true).rows.map Row.id
          = [0, 1, 2, 3]
      ∧ (getAllQueries aliasReplay refPlatform ">getallqueries-client laptop-group"
          true).rows.map Row.id = [0, 1] := by
  decide

/-- C15, amended.  When the replay client filter resolves, it resolves to a present
client `c`, and an entry passes the filter tests if and only if it passes the tests
other than the client test and: `c` is not an alias-client aggregate and the entry's
client id is `c`, or `c` is an alias-client aggregate and the entry's client id is in
the list of clients whose alias linkage points to `c`. -/
theorem replay_client_filter (S : Snapshot) (client_message : String) (F : ReplayFilter)
    (hcmd : command client_message ">getallqueries-client" = true)
    (hF : getAllQueries_filter S client_message = some F) :
    ∃ (c : Nat) (client : clientsData), F.clientid = (c : Int)
      ∧ getClient S (c : Int) = some client
      ∧ ∀ query : queriesData, getAllQueries_skip F query = false ↔
          (getAllQueries_skip { F with filterclientname := false } query = false
            ∧ ((client.aliasclient = false ∧ query.clientID = (c : Int))
              ∨ (client.aliasclient = true
                ∧ query.clientID ∈ get_aliasclient_list S (c : Int)))) := by
  obtain ⟨_, _, _, _, _, _, _, _, _, h10, h11, h12, h13, _⟩ :=
    getAllQueries_filter_some S client_message F hF
  rw [hcmd, if_pos rfl] at h11 h13
  have hne := h12 hcmd
  rw [h11] at hne
  obtain ⟨c, client, hc, hclient, _⟩ := resolveClient_present S _ hne
  rw [← h11] at hc
  refine ⟨c, client, hc, hclient, ?_⟩
  rw [hc, hclient] at h13
  intro query
  rw [getAllQueries_skip_false_iff, getAllQueries_skip_false_iff]
  have hfc : F.filterclientname = true := by rw [h10]; exact hcmd
  have hm : matchesClient F.clientid F.clientid_list query ↔
      ((client.aliasclient = false ∧ query.clientID = (c : Int))
        ∨ (client.aliasclient = true ∧ query.clientID ∈ get_aliasclient_list S (c : Int))) := by
    rw [h13, hc]
    cases ha : client.aliasclient <;> simp [matchesClient, ha]
  constructor
  · rintro ⟨a, b, d, e, f, g⟩
    exact ⟨⟨a, b, d, fun h => Bool.noConfusion h, f, g⟩, hm.mp (e hfc)⟩
  · rintro ⟨⟨a, b, d, _, f, g⟩, h⟩
    exact ⟨a, b, d, fun _ => hm.mpr h, f, g⟩

/-- Witness for C15: the filter of `>getallqueries-client laptop-group`, where
"laptop-group" aggregates the clients 1 and 2; the replay writes the entries 0 and 1
of both members. -/
theorem replay_client_filter_witness :
    (getAllQueries aliasReplay refPlatform ">getallqueries-client laptop-group"
        true).rows.map Row.id = [0, 1]
      ∧ ((getQuery aliasReplay 0).map queriesData.clientID = some 1
        ∧ (getQuery aliasReplay 1).map queriesData.clientID = some 2)
      ∧ ∃ (c : Nat) (client : clientsData),
          (0 : Int) = (c : Int) ∧ getClient aliasReplay (c : Int) = some client
            ∧ ∀ query : queriesData,
              getAllQueries_skip
                  { from_ := 0, until_ := 0, showpermitted := true, showblocked := true,
                    filterdomainname := false, domainid := -1, filterclientname := true,
                    clientid := 0, clientid_list := some [1, 2], querytype := 0,
                    filterforwarddest := false, forwarddestid := 0, ibeg := 0 } query = false ↔
                (getAllQueries_skip
                    { from_ := 0, until_ := 0, showpermitted := true, showblocked := true,
                      filterdomainname := false, domainid := -1, filterclientname := false,
                      clientid := 0, clientid_list := some [1, 2], querytype := 0,
                      filterforwarddest := false, forwarddestid := 0, ibeg := 0 } query = false
                  ∧ ((client.aliasclient = false ∧ query.clientID = (c : Int))
                    ∨ (client.aliasclient = true
                      ∧ query.clientID ∈ get_aliasclient_list aliasReplay (c : Int)))) :=
  ⟨by decide, by decide,
    replay_client_filter aliasReplay ">getallqueries-client laptop-group"
      { from_ := 0, until_ := 0, showpermitted := true, showblocked := true,
        filterdomainname := false, domainid := -1, filterclientname := true,
        clientid := 0, clientid_list := some [1, 2], querytype := 0,
        filterforwarddest := false, forwarddestid := 0, ibeg := 0 }
      (by decide) (by decide)⟩

/-- C16. For a replay command with `>getallqueries-client-blocked name`, every
snapshot (so every log and every value of the query-log-show setting): every row
belongs to a present entry whose blocked flag is set. -/
theorem replay_client_blocked (S : Snapshot) (P : Platform) (client_message : String)
    (istelnet : Bool)
    (hcmd : command client_message ">getallqueries-client-blocked" = true) :
    ∀ r ∈ (getAllQueries S P client_message istelnet).rows,
      ∃ query, getQuery S r.id = some query ∧ query.blocked = true := by
  intro r hr
  obtain ⟨F, queryID, query, _, hF, hid, _, _, hq, _, _, hs, _⟩ :=
    getAllQueries_row_inv S P client_message istelnet r hr
  refine ⟨query, by rw [hid]; exact hq, ?_⟩
  obtain ⟨_, _, _, _, _, _, _, _, _, _, _, _, _, h14, _⟩ :=
    getAllQueries_filter_some S client_message F hF
  rw [hcmd, command_client_of_blocked client_message hcmd] at h14
  have hshow := ((getAllQueries_skip_false_iff F query).mp hs).1.2.2
  cases hb : query.blocked with
  | true => rfl
  | false =>
    have := hshow hb
    rw [h14] at this
    simp at this

/-- Witness for C16: `>getallqueries-client-blocked 10.0.0.5` on the four-entry log
writes entry 0 alone, the blocked entry of that client. -/
theorem replay_client_blocked_witness :
    (getAllQueries replayLog refPlatform ">getallqueries-client-blocked 10.0.0.5"
        true).rows.map Row.id = [0]
      ∧ ∀ r ∈ (getAllQueries replayLog refPlatform
            ">getallqueries-client-blocked 10.0.0.5" true).rows,
          ∃ query, getQuery replayLog r.id = some query ∧ query.blocked = true :=
  ⟨by decide,
    replay_client_blocked replayLog refPlatform ">getallqueries-client-blocked 10.0.0.5"
      true (by decide)⟩

/-- C17. For a replay command with `>getallqueries-forward dest` that reaches the main
loop: an entry passes the filter tests if and only if it passes the tests other than
the forward-destination test and, for `dest` "blocklist", its blocked flag is set;
for `dest` "cache", its status is "answered from cache"; for any other `dest`, which
then resolved to an upstream id `u ≥ 0`, its upstream id equals `u`. -/
theorem replay_forward_filter (S : Snapshot) (client_message : String) (F : ReplayFilter)
    (hcmd : command client_message ">getallqueries-forward" = true)
    (hF : getAllQueries_filter S client_message = some F) :
    (sscanf_s ">getallqueries-forward" client_message = "blocklist" →
        ∀ query : queriesData, getAllQueries_skip F query = false ↔
          (getAllQueries_skip { F with filterforwarddest := false } query = false
            ∧ query.blocked = true))
      ∧ (sscanf_s ">getallqueries-forward" client_message = "cache" →
        ∀ query : queriesData, getAllQueries_skip F query = false ↔
          (getAllQueries_skip { F with filterforwarddest := false } query = false
            ∧ query.status = QUERY_CACHE))
      ∧ (sscanf_s ">getallqueries-forward" client_message ≠ "blocklist" →
        sscanf_s ">getallqueries-forward" client_message ≠ "cache" →
        ∃ u : Nat, F.forwarddestid = (u : Int)
          ∧ resolveForward S (sscanf_s ">getallqueries-forward" client_message) = (u : Int)
          ∧ ∀ query : queriesData, getAllQueries_skip F query = false ↔
            (getAllQueries_skip { F with filterforwarddest := false } query = false
              ∧ query.upstreamID = (u : Int))) := by
  obtain ⟨_, _, _, h4, h5, h6, _⟩ := getAllQueries_filter_some S client_message F hF
  rw [hcmd, if_pos rfl] at h5
  have hff : F.filterforwarddest = true := by rw [h4]; exact hcmd
  have key : ∀ (query : queriesData) (C : Prop), (matchesForward F.forwarddestid query ↔ C) →
      (getAllQueries_skip F query = false ↔
        (getAllQueries_skip { F with filterforwarddest := false } query = false ∧ C)) := by
    intro query C hC
    rw [getAllQueries_skip_false_iff, getAllQueries_skip_false_iff]
    constructor
    · rintro ⟨a, b, d, e, f, g⟩
      exact ⟨⟨a, b, d, e, f, fun h => Bool.noConfusion h⟩, hC.mp (g hff)⟩
    · rintro ⟨⟨a, b, d, e, f, _⟩, h⟩
      exact ⟨a, b, d, e, f, fun _ => hC.mpr h⟩
  obtain ⟨r1, r2, r3⟩ := resolveForward_cases S (sscanf_s ">getallqueries-forward" client_message)
  refine ⟨?_, ?_, ?_⟩
  · intro hd query
    apply key
    rw [h5, r2 hd]
    unfold matchesForward
    constructor
    · intro h
      exact h.1 rfl
    · intro h
      exact ⟨fun _ => h, fun h' => by omega, fun h' => by omega⟩
  · intro hd query
    apply key
    rw [h5, r1 hd]
    unfold matchesForward
    constructor
    · intro h
      exact h.2.1 rfl
    · intro h
      exact ⟨fun h' => by omega, fun _ => h, fun h' => by omega⟩
  · intro hd1 hd2
    rcases r3 hd2 hd1 with h3 | ⟨u, hu⟩
    · exact absurd (h5.trans h3) (h6 hcmd)
    · refine ⟨u, h5.trans hu, hu, ?_⟩
      intro query
      apply key
      rw [h5, hu]
      unfold matchesForward
      constructor
      · intro h
        exact h.2.2 (by omega)
      · intro h
        exact ⟨fun h' => by omega, fun h' => by omega, fun _ => h⟩

/-- Witness for C17: `>getallqueries-forward cache` on a log with one blocklist entry
(entry 0) and one cache-answered entry (entry 1) writes exactly entry 1, and every
entry passes its filter exactly when it passes the other tests and has the status
"answered from cache". -/
theorem replay_forward_filter_witness :
    (getAllQueries cacheAndBlocklist refPlatform ">getallqueries-forward cache"
        true).rows.map Row.id = [1]
      ∧ (getAllQueries cacheAndBlocklist refPlatform ">getallqueries-forward blocklist"
        true).rows.map Row.id = [0]
      ∧ (getAllQueries cacheAndBlocklist refPlatform ">getallqueries"
        true).rows.map Row.id = [0, 1]
      ∧ (getAllQueries replayLog refPlatform ">getallqueries-forward dns.google"
        true).rows.map Row.id = [2]
      ∧ ((getQuery cacheAndBlocklist 0).map queriesData.blocked = some true
        ∧ (getQuery cacheAndBlocklist 1).map queriesData.status = some QUERY_CACHE)
      ∧ ∀ query : queriesData,
          getAllQueries_skip
              { from_ := 0, until_ := 0, showpermitted := true, showblocked := true,
                filterdomainname := false, domainid := -1, filterclientname := false,
                clientid := -1, clientid_list := none, querytype := 0,
                filterforwarddest := true, forwarddestid := -1, ibeg := 0 } query = false ↔
            (getAllQueries_skip
                { from_ := 0, until_ := 0, showpermitted := true, showblocked := true,
                  filterdomainname := false, domainid := -1, filterclientname := false,
                  clientid := -1, clientid_list := none, querytype := 0,
                  filterforwarddest := false, forwarddestid := -1, ibeg := 0 } query = false
              ∧ query.status = QUERY_CACHE) :=
  ⟨by decide, by decide, by decide, by decide, by decide,
    (replay_forward_filter cacheAndBlocklist ">getallqueries-forward cache"
      { from_ := 0, until_ := 0, showpermitted := true, showblocked := true,
        filterdomainname := false, domainid := -1, filterclientname := false,
        clientid := -1, clientid_list := none, querytype := 0,
        filterforwarddest := true, forwarddestid := -1, ibeg := 0 }
      (by decide) (by decide)).2.1 (by decide)⟩

/-- C18. For a replay command with `>getallqueries-qtype code` (`code` as read by
`sscanf`): if `code` is outside `[TYPE_A, TYPE_MAX)` the command writes nothing, and
in every case each row belongs to a present entry whose type is `code`.  Without the
qtype command the filter carries the query type 0 and its tests do not look at the
type of the entry: an entry passes them exactly when the same entry with any other
type passes them. -/
theorem replay_qtype_filter (S : Snapshot) (P : Platform) (client_message : String)
    (istelnet : Bool) :
    (command client_message ">getallqueries-qtype" = true →
        ((sscanf_qtype client_message < TYPE_A ∨ TYPE_MAX ≤ sscanf_qtype client_message) →
            getAllQueries S P client_message istelnet = ⟨[], []⟩
              ∧ (getAllQueries S P client_message istelnet).wire = [])
          ∧ ∀ r ∈ (getAllQueries S P client_message istelnet).rows,
              ∃ query, getQuery S r.id = some query
                ∧ query.type = sscanf_qtype client_message)
      ∧ (command client_message ">getallqueries-qtype" = false →
        ∀ F, getAllQueries_filter S client_message = some F →
          F.querytype = 0
            ∧ ∀ (query : queriesData) (t : Int),
                getAllQueries_skip F { query with type := t } = getAllQueries_skip F query) := by
  constructor
  · intro hcmd
    constructor
    · intro hbad
      have hF : getAllQueries_filter S client_message = none := by
        cases hF : getAllQueries_filter S client_message with
        | none => rfl
        | some F =>
          have := (getAllQueries_filter_some S client_message F hF).2.1 hcmd
          omega
      rw [getAllQueries_of_filter_none S P client_message istelnet hF]
      exact ⟨rfl, rfl⟩
    · intro r hr
      obtain ⟨F, queryID, query, _, hF, hid, _, _, hq, _, _, hs, _⟩ :=
        getAllQueries_row_inv S P client_message istelnet r hr
      refine ⟨query, by rw [hid]; exact hq, ?_⟩
      obtain ⟨_, h2, h3, _⟩ := getAllQueries_filter_some S client_message F hF
      rw [hcmd, if_pos rfl] at h3
      have hrange := h2 hcmd
      have ht := ((getAllQueries_skip_false_iff F query).mp hs).2.2.2.2.1
      rw [h3] at ht
      rcases ht with h0 | h0
      · have : TYPE_A = 1 := rfl
        omega
      · exact h0.symm
  · intro hcmd F hF
    obtain ⟨_, _, h3, _⟩ := getAllQueries_filter_some S client_message F hF
    rw [hcmd] at h3
    have hq0 : F.querytype = 0 := h3
    refine ⟨hq0, ?_⟩
    intro query t
    unfold getAllQueries_skip
    simp only [hq0, bne_self_eq_false, Bool.false_and, Bool.false_eq_true, if_false]

/-- Witness for C18: `>getallqueries-qtype 2` on the four-entry log writes entry 1
alone, the one entry of type 2 (AAAA), and `>getallqueries-qtype 0` writes
nothing. -/
theorem replay_qtype_filter_witness :
    (getAllQueries replayLog refPlatform ">getallqueries-qtype 2" true).rows.map Row.id = [1]
      ∧ (getQuery replayLog 1).map queriesData.type = some 2
      ∧ (getAllQueries replayLog refPlatform ">getallqueries-qtype 0" true = ⟨[], []⟩
        ∧ (getAllQueries replayLog refPlatform ">getallqueries-qtype 0" true).wire = [])
      ∧ ∀ r ∈ (getAllQueries replayLog refPlatform ">getallqueries-qtype 2" true).rows,
          ∃ query, getQuery replayLog r.id = some query
            ∧ query.type = sscanf_qtype ">getallqueries-qtype 2" :=
  ⟨by decide, by decide,
    ((replay_qtype_filter replayLog refPlatform ">getallqueries-qtype 0" true).1
      (by decide)).1 (by decide),
    ((replay_qtype_filter replayLog refPlatform ">getallqueries-qtype 2" true).1
      (by decide)).2⟩

/-- C19, evaluated at a failing input.  On the four-entry log the command
`>getallqueries (-2147483648)` gives the count `N = -2147483648`, so
`max(0, len - N) = 2147483652` and no entry has so large an index; the `int`
subtraction `counters->queries - num` wraps to a negative start index, which is reset
to 0, and the replay writes all four entries.  With `(2)` the replay writes the last
two entries. -/
theorem replay_count_wraps :
    sscanf_count ">getallqueries (-2147483648)" = some (-2147483648)
      ∧ max 0 ((replayLog.queries.length : Int) - (-2147483648)) = 2147483652
      ∧ toInt32 ((replayLog.queries.length : Int) - (-2147483648)) = -2147483644
      ∧ (getAllQueries_filter replayLog ">getallqueries (-2147483648)").map ReplayFilter.ibeg
          = some 0
      ∧ (getAllQueries replayLog refPlatform ">getallqueries (-2147483648)" true).rows.map Row.id
          = [0, 1, 2, 3]
      ∧ (getAllQueries replayLog refPlatform ">getallqueries (2)" true).rows.map Row.id
          = [2, 3] := by
  decide

/-- C20. In binary mode: if the encoding of an entry of the walked part of the log
fails, no row of a later entry is written; everything written is an initial segment
of what the same replay writes with an encoder that never fails; and the rows written
in full are the first rows of that replay. -/
theorem replay_encoder_failure (S : Snapshot) (P : Platform) (client_message : String) :
    (∀ (F : ReplayFilter) (queryID : Nat) (out : List Out),
        getAllQueries_filter S client_message = some F → F.ibeg.toNat ≤ queryID →
        getAllQueries_body S P false F queryID = .abort out →
        ∀ r ∈ (getAllQueries S P client_message false).rows, r.id ≤ (queryID : Int))
      ∧ (∀ r ∈ (getAllQueries S P client_message false).rows, r.complete = false →
          ∀ r2 ∈ (getAllQueries S P client_message false).rows, r2.id ≤ r.id)
      ∧ (∃ t, (getAllQueries S P client_message false).wire ++ t
          = (getAllQueries S (acceptingPlatform P) client_message false).wire)
      ∧ (∃ t, (getAllQueries S P client_message false).sent ++ t
          = (getAllQueries S (acceptingPlatform P) client_message false).rows) := by
  have hstop : ∀ (F : ReplayFilter) (queryID : Nat) (out : List Out),
      getAllQueries_filter S client_message = some F → F.ibeg.toNat ≤ queryID →
      getAllQueries_body S P false F queryID = .abort out →
      ∀ r ∈ (getAllQueries S P client_message false).rows, r.id ≤ (queryID : Int) := by
    intro F queryID out hF hbeg hab r hr
    obtain ⟨F2, _, _, hlevel, hF2, _⟩ := getAllQueries_row_inv S P client_message false r hr
    rw [hF] at hF2
    have hFF := Option.some.inj hF2
    subst hFF
    rw [getAllQueries_rows_eq S P client_message false F hlevel hF] at hr
    have hne : getAllQueries_body S P false F queryID ≠ .skip := by simp [hab]
    obtain ⟨query, hq, _⟩ := getAllQueries_body_wrote S P false F queryID hne
    have hlt : queryID < S.queries.length := lookup_some_lt _ _ _ hq
    exact queryLoop_stops _ _ queryID out (List.pairwise_lt_range' _ _)
      (List.mem_range'.mpr ⟨queryID - F.ibeg.toNat, by omega, by omega⟩) hab r hr
  refine ⟨hstop, ?_, ?_, ?_⟩
  · intro r hr hc r2 hr2
    obtain ⟨F, queryID, query, _, hF, hid, hbeg, _, _, _, _, _, hw⟩ :=
      getAllQueries_row_inv S P client_message false r hr
    rcases hw with ⟨_, h⟩ | ⟨hab, _⟩
    · rw [h] at hc
      cases hc
    · rw [hid]
      exact hstop F queryID r.out hF hbeg hab r2 hr2
  · unfold getAllQueries Report.wire
    split
    · exact ⟨[], rfl⟩
    · cases hF : getAllQueries_filter S client_message with
      | none => exact ⟨[], rfl⟩
      | some F =>
        simp only [List.nil_append]
        exact queryLoop_wire_extends _ _ (getAllQueries_body_accepting S P F) _
  · unfold getAllQueries Report.sent
    split
    · exact ⟨[], rfl⟩
    · cases hF : getAllQueries_filter S client_message with
      | none => exact ⟨[], rfl⟩
      | some F =>
        simp only
        exact queryLoop_sent_extends _ _ (getAllQueries_body_accepting S P F) _

/-- Witness for C20: with an encoder that rejects the string "example.org" the binary
replay of the four-entry log writes entry 0 in full, then the time and the type of
entry 1, and stops; the same replay with an encoder that never fails writes four
rows, and the values written first are its first eight values. -/
theorem replay_encoder_failure_witness :
    (getAllQueries replayLog pickyPlatform ">getallqueries" false).rows
        = [⟨0, [.pack_int32 100, .pack_fixstr "A", .pack_str32 "ads.example.com",
                .pack_str32 "10.0.0.5", .pack_uint8 1, .pack_uint8 0], true⟩,
           ⟨1, [.pack_int32 200, .pack_fixstr "AAAA"], false⟩]
      ∧ (getAllQueries replayLog (acceptingPlatform pickyPlatform) ">getallqueries"
          false).rows.map Row.id = [0, 1, 2, 3]
      ∧ (getAllQueries replayLog (acceptingPlatform pickyPlatform) ">getallqueries"
          false).wire.take 8
          = (getAllQueries replayLog pickyPlatform ">getallqueries" false).wire
      ∧ ∃ t, (getAllQueries replayLog pickyPlatform ">getallqueries" false).wire ++ t
          = (getAllQueries replayLog (acceptingPlatform pickyPlatform) ">getallqueries"
              false).wire :=
  ⟨by decide, by decide, by decide,
    (replay_encoder_failure replayLog pickyPlatform ">getallqueries").2.2.1⟩

/-! ## Query-log replay: rows -/

/-- C21, counterexample.  On the four-entry log the replay filtered to the upstream
"dns.google" writes entry 2 in both modes, but the line-mode row carries thirteen
fields (reply type, latency, CNAME target, regex index, upstream name and port and
extended error among them) and the binary-mode row only six; and with an encoder that
rejects the string "example.org" the line-mode replay writes the entries 0 to 3 while
the binary-mode replay stops inside entry 1. -/
theorem replay_modes_differ :
    (getAllQueries replayLog refPlatform ">getallqueries-forward dns.google"
        true).rows.map (fun r => (r.id, fieldsOf r.out))
      = [(2, [.int 300, .str "A", .str "tracker.example.net", .str "10.0.0.5", .int 2,
              .int 0, .int 0, .int 0, .str "N/A", .int (-1), .str "dns.google", .int 53,
              .str ""])]
      ∧ (getAllQueries replayLog refPlatform ">getallqueries-forward dns.google"
          false).rows.map (fun r => (r.id, fieldsOf r.out))
        = [(2, [.int 300, .str "A", .str "tracker.example.net", .str "10.0.0.5", .int 2,
                .int 0])]
      ∧ (getAllQueries replayLog pickyPlatform ">getallqueries" true).rows.map Row.id
        = [0, 1, 2, 3]
      ∧ (getAllQueries replayLog pickyPlatform ">getallqueries" false).rows.map
          (fun r => (r.id, r.complete)) = [(0, true), (1, false)] := by
  decide

/-- C21, amended.  For every log, filter and privacy level: the line-mode replay and
the binary-mode replay with an encoder that never fails write rows for the same
entries in the same order, all in full; the line-mode row of an entry carries the
thirteen fields timestamp, type label, domain, client, status, DNSSEC status, reply
type, latency, CNAME target, regex index, upstream name, upstream port and extended
error in this order (then the entry index when API debugging is on), and the
binary-mode row carries six values, the first six of these fields in the same order
with the timestamp converted to `int32_t`; with an encoder that can fail, the entries
of the binary-mode replay are the first entries of the line-mode replay. -/
theorem replay_modes (S : Snapshot) (P : Platform) (client_message : String) :
    List.Forall₂ (fun (l b : Row) => l.id = b.id ∧ l.complete = true ∧ b.complete = true
        ∧ (fieldsOf l.out).length = 13 + (if S.debug_api then 1 else 0)
        ∧ b.out.length = 6 ∧ fieldsOf b.out = binaryFields (fieldsOf l.out))
      (getAllQueries S P client_message true).rows
      (getAllQueries S (acceptingPlatform P) client_message false).rows
      ∧ (getAllQueries S P client_message true).rows.map Row.id
        = (getAllQueries S (acceptingPlatform P) client_message false).rows.map Row.id
      ∧ (∃ t, (getAllQueries S P client_message false).rows.map Row.id ++ t
        = (getAllQueries S P client_message true).rows.map Row.id)
      ∧ ∀ r ∈ (getAllQueries S P client_message true).rows,
          ∃ (query : queriesData) (domain client CNAME_domain upstream_name ede : String)
            (reply delay regex_idx upstream_port : Int),
            getQuery S r.id = some query ∧ getDomainString S query = some domain
              ∧ (fieldsOf r.out).take 13
                = [.int query.timestamp, .str (qtypeLabel P query), .str domain, .str client,
                   .int query.status, .int query.dnssec, .int reply, .int delay,
                   .str CNAME_domain, .int regex_idx, .str upstream_name,
                   .int upstream_port, .str ede] := by
  have hpairs : List.Forall₂ (fun (l b : Row) => l.id = b.id ∧ l.complete = true
        ∧ b.complete = true
        ∧ (fieldsOf l.out).length = 13 + (if S.debug_api then 1 else 0)
        ∧ b.out.length = 6 ∧ fieldsOf b.out = binaryFields (fieldsOf l.out))
      (getAllQueries S P client_message true).rows
      (getAllQueries S (acceptingPlatform P) client_message false).rows := by
    rcases getAllQueries_rows_shape S client_message with h | ⟨F, _, h⟩
    · rw [h, h]
      exact List.Forall₂.nil
    · rw [h, h]
      exact queryLoop_pairs _ _ _ (getAllQueries_body_modes S P F) _
  have hids := rows_ids_of_pairs _ (fun a b h => h.1) _ _ hpairs
  refine ⟨hpairs, hids, ?_, ?_⟩
  · rw [hids]
    rcases getAllQueries_rows_shape S client_message with h | ⟨F, _, h⟩
    · rw [h, h]
      exact ⟨[], rfl⟩
    · rw [h, h]
      exact queryLoop_ids_extends _ _ (getAllQueries_body_accepting S P F) _
  · intro r hr
    obtain ⟨F, queryID, query, _, _, hid, _, _, hq, _, _, _, hw⟩ :=
      getAllQueries_row_inv S P client_message true r hr
    have hab := getAllQueries_body_isAbort S P true F (Or.inl rfl) queryID
    rcases hw with ⟨hemit, _⟩ | ⟨habort, _⟩
    · obtain ⟨query2, domain, client, hq2, hd, _, CNAME_domain, upstream_name, reply, delay,
        regex_idx, upstream_port, hout, _⟩ := getAllQueries_body_line S P F queryID r.out hemit
      rw [hq] at hq2
      have hqq := Option.some.inj hq2
      subst hqq
      refine ⟨query, domain,
        (if (S.getstr client.namepos).length > 0 then getClientNameString S query
          else getClientIPString S query),
        CNAME_domain, upstream_name,
        (if query.ede = -1 then "" else P.get_edestr query.ede),
        reply, delay, regex_idx, upstream_port, by rw [hid]; exact hq, hd, ?_⟩
      rw [hout]
      cases S.debug_api <;> rfl
    · rw [habort] at hab
      cases hab

/-- Witness for C21: on the log that shows each derived field, the two modes write
the entries 0 to 3, thirteen fields a row in line mode and six values a row in binary
mode. -/
theorem replay_modes_witness :
    (getAllQueries fieldsLog refPlatform ">getallqueries" true).rows.map
        (fun r => (r.id, (fieldsOf r.out).length)) = [(0, 13), (1, 13), (2, 13), (3, 13)]
      ∧ (getAllQueries fieldsLog refPlatform ">getallqueries" false).rows.map
        (fun r => (r.id, (fieldsOf r.out).length)) = [(0, 6), (1, 6), (2, 6), (3, 6)]
      ∧ (getAllQueries fieldsLog refPlatform ">getallqueries" true).rows.map Row.id
        = (getAllQueries fieldsLog (acceptingPlatform refPlatform) ">getallqueries"
            false).rows.map Row.id :=
  ⟨by decide, by decide, (replay_modes fieldsLog refPlatform ">getallqueries").2.1⟩

/-- C22. For every row of the line-mode replay, with `reply` its seventh and `delay`
its eighth field: `delay` is 0 when the entry's response-computed flag is not set;
when the entry's status is "retried" or "still in progress", `reply` is "unknown" and
`delay` is 0 whatever is stored; otherwise, with the flag set, they are the stored
reply type and latency.  A binary-mode row has at most six values and carries neither
of them. -/
theorem replay_reply_and_latency (S : Snapshot) (P : Platform) (client_message : String) :
    (∀ r ∈ (getAllQueries S P client_message true).rows,
        ∃ (query : queriesData) (reply delay : Int), getQuery S r.id = some query
          ∧ (fieldsOf r.out).get? 6 = some (.int reply)
          ∧ (fieldsOf r.out).get? 7 = some (.int delay)
          ∧ (query.response_calculated = false → delay = 0)
          ∧ (query.status = QUERY_RETRIED ∨ query.status = QUERY_IN_PROGRESS →
              reply = REPLY_UNKNOWN ∧ delay = 0)
          ∧ (query.status ≠ QUERY_RETRIED → query.status ≠ QUERY_IN_PROGRESS →
              query.response_calculated = true →
              reply = query.reply ∧ delay = query.response))
      ∧ ∀ r ∈ (getAllQueries S P client_message false).rows, (fieldsOf r.out).length ≤ 6 := by
  constructor
  · intro r hr
    obtain ⟨F, queryID, query, _, _, hid, _, _, hq, _, _, _, hw⟩ :=
      getAllQueries_row_inv S P client_message true r hr
    have hab := getAllQueries_body_isAbort S P true F (Or.inl rfl) queryID
    rcases hw with ⟨hemit, _⟩ | ⟨habort, _⟩
    · obtain ⟨query2, domain, client, hq2, _, _, CNAME_domain, upstream_name, reply, delay,
        regex_idx, upstream_port, hout, hreply, hdelay, _⟩ :=
        getAllQueries_body_line S P F queryID r.out hemit
      rw [hq] at hq2
      have hqq := Option.some.inj hq2
      subst hqq
      refine ⟨query, reply, delay, by rw [hid]; exact hq, by rw [hout]; rfl,
        by rw [hout]; rfl, ?_, ?_, ?_⟩
      · intro hrc
        rw [hdelay]
        split
        · rfl
        · simp [hrc]
      · intro hst
        rw [hreply, hdelay, if_pos hst, if_pos hst]
        exact ⟨rfl, rfl⟩
      · intro h1 h2 hrc
        have hst : ¬ (query.status = QUERY_RETRIED ∨ query.status = QUERY_IN_PROGRESS) := by
          rintro (h | h)
          · exact h1 h
          · exact h2 h
        rw [hreply, hdelay, if_neg hst, if_neg hst]
        simp [hrc]
    · rw [habort] at hab
      cases hab
  · intro r hr
    obtain ⟨F, queryID, query, _, _, _, _, _, _, _, _, _, hw⟩ :=
      getAllQueries_row_inv S P client_message false r hr
    rcases hw with ⟨hemit, _⟩ | ⟨habort, _⟩
    · exact getAllQueries_body_binary_length S P F queryID r.out (Or.inl hemit)
    · exact getAllQueries_body_binary_length S P F queryID r.out (Or.inr habort)

/-- Witness for C22: on the log that shows each derived field the rows carry the
reply types and latencies (4, 37) for entry 0 (response computed), (0, 0) for the
retried entry 1 (stored: 4 and 99) and (0, 0) for entry 2 (no computed response,
stored latency 55). -/
theorem replay_reply_and_latency_witness :
    (getAllQueries fieldsLog refPlatform ">getallqueries" true).rows.map
        (fun r => (r.id, (fieldsOf r.out).get? 6, (fieldsOf r.out).get? 7))
      = [(0, some (.int 4), some (.int 37)), (1, some (.int 0), some (.int 0)),
         (2, some (.int 0), some (.int 0)), (3, some (.int 0), some (.int 0))]
      ∧ ∀ r ∈ (getAllQueries fieldsLog refPlatform ">getallqueries" false).rows,
          (fieldsOf r.out).length ≤ 6 :=
  ⟨by decide, (replay_reply_and_latency fieldsLog refPlatform ">getallqueries").2⟩

/-- C23. For every replay, in either mode: a row that belongs to an entry of status
"unknown" is written only when the command is not the client-blocked variant and the
query-log-show setting is none of "permittedonly", "blockedonly" and "nothing", that
is, when both blocked and permitted entries are shown. -/
theorem replay_unknown_status (S : Snapshot) (P : Platform) (client_message : String)
    (istelnet : Bool) :
    ∀ r ∈ (getAllQueries S P client_message istelnet).rows,
      ∀ query, getQuery S r.id = some query → query.status = QUERY_UNKNOWN →
        command client_message ">getallqueries-client-blocked" = false
          ∧ showpermitted_of S.API_QUERY_LOG_SHOW = true
          ∧ showblocked_of S.API_QUERY_LOG_SHOW = true
          ∧ S.API_QUERY_LOG_SHOW ≠ some "permittedonly"
          ∧ S.API_QUERY_LOG_SHOW ≠ some "blockedonly"
          ∧ S.API_QUERY_LOG_SHOW ≠ some "nothing" := by
  intro r hr query hq hst
  obtain ⟨F, queryID, query2, _, hF, hid, _, _, hq2, _, _, hs, _⟩ :=
    getAllQueries_row_inv S P client_message istelnet r hr
  rw [hid, hq2] at hq
  have hqq := Option.some.inj hq
  subst hqq
  obtain ⟨_, _, _, _, _, _, _, _, _, _, _, _, _, h14, h15, _⟩ :=
    getAllQueries_filter_some S client_message F hF
  obtain ⟨hp, hb⟩ := ((getAllQueries_skip_false_iff F query2).mp hs).1.1 hst
  rw [h14] at hp
  rw [h15] at hb
  simp only [Bool.and_eq_true, Bool.not_eq_true', Bool.and_eq_false_iff] at hp
  obtain ⟨hvar, hperm⟩ := hp
  have hcb : command client_message ">getallqueries-client-blocked" = false := by
    cases hc : command client_message ">getallqueries-client-blocked" with
    | false => rfl
    | true =>
      rcases hvar with h | h
      · rw [command_client_of_blocked client_message hc] at h
        cases h
      · rw [hc] at h
        cases h
  refine ⟨hcb, hperm, hb, ?_, ?_, ?_⟩
  · intro he
    rw [he] at hb
    exact absurd hb (by decide)
  · intro he
    rw [he] at hperm
    exact absurd hperm (by decide)
  · intro he
    rw [he] at hb
    exact absurd hb (by decide)

/-- Witness for C23: the log that shows each derived field has the entry 3 of status
"unknown"; the plain replay writes it, the replay under the setting "permittedonly"
and the replay under "blockedonly" do not. -/
theorem replay_unknown_status_witness :
    ((getQuery fieldsLog 3).map queriesData.status = some QUERY_UNKNOWN
        ∧ (getAllQueries fieldsLog refPlatform ">getallqueries" true).rows.map Row.id
          = [0, 1, 2, 3]
        ∧ (getAllQueries { fieldsLog with API_QUERY_LOG_SHOW := some "permittedonly" }
            refPlatform ">getallqueries" true).rows.map Row.id = [1, 2]
        ∧ (getAllQueries { fieldsLog with API_QUERY_LOG_SHOW := some "blockedonly" }
            refPlatform ">getallqueries" true).rows.map Row.id = [0])
      ∧ ∀ r ∈ (getAllQueries fieldsLog refPlatform ">getallqueries" true).rows,
          ∀ query, getQuery fieldsLog r.id = some query → query.status = QUERY_UNKNOWN →
            command ">getallqueries" ">getallqueries-client-blocked" = false
              ∧ showpermitted_of fieldsLog.API_QUERY_LOG_SHOW = true
              ∧ showblocked_of fieldsLog.API_QUERY_LOG_SHOW = true
              ∧ fieldsLog.API_QUERY_LOG_SHOW ≠ some "permittedonly"
              ∧ fieldsLog.API_QUERY_LOG_SHOW ≠ some "blockedonly"
              ∧ fieldsLog.API_QUERY_LOG_SHOW ≠ some "nothing" :=
  ⟨by decide, replay_unknown_status fieldsLog refPlatform ">getallqueries" true⟩

/-! ## Query-log replay: resolution of the filter targets -/

/-- C24, counterexample.  Upstream 0 of the example log has the address "8.8.8.8",
the port 53 and a host name of 47 characters.  The request for that host name names a
present upstream by its name and default port, and entry 2 of the log was sent to it,
but `sscanf` keeps only the first 45 characters of the name in `serv_addr`, no
upstream matches them, and the command writes nothing; the request for "8.8.8.8"
writes entry 2. -/
theorem forward_resolution_fails :
    "resolver-01.dns.infrastructure.example-corp.net".length = 47
      ∧ longNameUpstream.upstreams.map
          (upstreamNamed longNameUpstream "resolver-01.dns.infrastructure.example-corp.net" 53)
        = [true]
      ∧ (getQuery longNameUpstream 2).map queriesData.upstreamID = some 0
      ∧ sscanf_forward "resolver-01.dns.infrastructure.example-corp.net"
        = ("resolver-01.dns.infrastructure.example-corp.n", 53)
      ∧ resolveForward longNameUpstream "resolver-01.dns.infrastructure.example-corp.net" = -3
      ∧ getAllQueries longNameUpstream refPlatform
          ">getallqueries-forward resolver-01.dns.infrastructure.example-corp.net" true
        = ⟨[], []⟩
      ∧ (getAllQueries longNameUpstream refPlatform ">getallqueries-forward 8.8.8.8"
          true).rows.map Row.id = [2] := by
  decide

/-- C24, amended.  The forward-destination resolution maps "cache" to -1 and
"blocklist" to -2.  Any other string is read as an address, its first 45 characters
up to a `#`, and a port, the unsigned number after the `#` or 53 when there is none:
for an address of 1 to 45 characters without `#` the string `addr` reads as
`(addr, 53)` and the string `addr#rest` as `addr` with the number at the start of
`rest`.  The string resolves to the smallest index of a present upstream whose
address equals the address read exactly, or whose host name equals it without regard
to case, and whose port equals the port read; if no present upstream matches, the
resolution gives -3 and the command writes nothing. -/
theorem forward_resolution (S : Snapshot) :
    resolveForward S "cache" = -1 ∧ resolveForward S "blocklist" = -2
      ∧ (∀ (addr rest : List Char), addr ≠ [] → addr.length ≤ 45 → '#' ∉ addr →
          sscanf_forward (String.mk addr) = (String.mk addr, 53)
            ∧ sscanf_forward (String.mk (addr ++ '#' :: rest))
              = (String.mk addr, ((scan_u rest).map Prod.fst).getD 53))
      ∧ ∀ (forwarddest serv_addr : String) (serv_port : Int),
          forwarddest ≠ "cache" → forwarddest ≠ "blocklist" →
          sscanf_forward forwarddest = (serv_addr, serv_port) →
          (∀ u : Nat, IsFirstIndex (upstreamNamed S serv_addr serv_port) S.upstreams u →
              resolveForward S forwarddest = (u : Int))
            ∧ ((∀ o ∈ S.upstreams, upstreamNamed S serv_addr serv_port o = false) →
              resolveForward S forwarddest = -3
                ∧ ∀ (P : Platform) (client_message : String) (istelnet : Bool),
                    command client_message ">getallqueries-forward" = true →
                    sscanf_s ">getallqueries-forward" client_message = forwarddest →
                    getAllQueries S P client_message istelnet = ⟨[], []⟩) := by
  refine ⟨rfl, rfl, ?_, ?_⟩
  · intro addr rest hne hlen hno
    exact ⟨sscanf_forward_plain addr hne hlen hno, sscanf_forward_port addr rest hne hlen hno⟩
  · intro forwarddest serv_addr serv_port h1 h2 hsf
    have heq := resolveForward_eq S forwarddest h1 h2
    rw [hsf] at heq
    constructor
    · intro u hu
      rw [heq, firstSlot_of_first _ _ _ hu]
      rfl
    · intro hnone
      have hres : resolveForward S forwarddest = -3 := by
        rw [heq, (firstSlot_none _ _ 0).mpr hnone]
        rfl
      refine ⟨hres, ?_⟩
      intro P client_message istelnet hcmd hdest
      apply getAllQueries_of_forward_unresolved S P client_message istelnet hcmd
      rw [hdest]
      exact hres

/-- Witness for C24: on the four-entry log, whose upstream 0 is "8.8.8.8" with the
host name "dns.google" and the port 53, the strings "DNS.Google" and "8.8.8.8#53"
resolve to upstream 0, and "dns.google#5353" reads as the port 5353, matches no
upstream and makes the command write nothing. -/
theorem forward_resolution_witness :
    (resolveForward replayLog "DNS.Google" = 0
        ∧ resolveForward replayLog "8.8.8.8#53" = 0
        ∧ sscanf_forward "dns.google#5353" = ("dns.google", 5353))
      ∧ resolveForward replayLog "DNS.Google" = ((0 : Nat) : Int)
      ∧ (resolveForward replayLog "dns.google#5353" = -3
        ∧ ∀ (P : Platform) (client_message : String) (istelnet : Bool),
            command client_message ">getallqueries-forward" = true →
            sscanf_s ">getallqueries-forward" client_message = "dns.google#5353" →
            getAllQueries replayLog P client_message istelnet = ⟨[], []⟩) :=
  ⟨by decide,
    ((forward_resolution replayLog).2.2.2 "DNS.Google" "DNS.Google" 53 (by decide)
      (by decide) (by decide)).1 0 ((firstSlot_some _ _ 0 0).mp (by decide)).2,
    ((forward_resolution replayLog).2.2.2 "dns.google#5353" "dns.google" 5353 (by decide)
      (by decide) (by decide)).2 (by decide)⟩

/-- C25, evaluated at a failing input.  In the alias scenario client 0 is the
alias-client aggregate "laptop-group", with the alias linkage id 0; it is the first
present client that is not aggregated under an alias-client and whose name matches
the request, so the claim resolves `>getallqueries-client laptop-group` to client 0.
The client search of `getAllQueries` skips every client whose alias linkage id is at
least 0 without looking at the aggregate flag: nothing is found and the command
writes nothing.  The same aggregate with the linkage id -1 is resolved. -/
theorem client_resolution_misses_aggregate :
    firstSlot (clientNamed aliasGroup "laptop-group") aliasGroup.clients 0 = some 0
      ∧ (getClient aliasGroup 0).map
          (fun client => (client.aliasclient, client.aliasclient_id,
            aliasGroup.getstr client.namepos)) = some (true, 0, "laptop-group")
      ∧ resolveClient aliasGroup "laptop-group" = -1
      ∧ getAllQueries aliasGroup refPlatform ">getallqueries-client laptop-group" true
        = ⟨[], []⟩
      ∧ (getAllQueries aliasGroup refPlatform ">getallqueries" true).rows.map Row.id
        = [0, 1, 2]
      ∧ resolveClient aliasReplay "laptop-group" = 0 := by
  decide

/-- C26. For every row of the line-mode replay, with `regex_idx` its tenth field:
`regex_idx` is -1 unless the entry's status is QUERY_REGEX or QUERY_REGEX_CNAME and
the current privacy level is below HIDE_DOMAINS; when both hold, it is the blocking
regex index of the DNS cache record of the entry when that record exists, and -1 when
it does not. -/
theorem replay_regex_index (S : Snapshot) (P : Platform) (client_message : String) :
    ∀ r ∈ (getAllQueries S P client_message true).rows,
      ∃ (query : queriesData) (regex_idx : Int), getQuery S r.id = some query
        ∧ (fieldsOf r.out).get? 9 = some (.int regex_idx)
        ∧ (¬ ((query.status = QUERY_REGEX ∨ query.status = QUERY_REGEX_CNAME)
              ∧ S.privacylevel < PRIVACY_HIDE_DOMAINS) → regex_idx = -1)
        ∧ ((query.status = QUERY_REGEX ∨ query.status = QUERY_REGEX_CNAME) →
            S.privacylevel < PRIVACY_HIDE_DOMAINS →
            (∀ dns_cache,
                S.getDNSCache (S.findCacheID query.domainID query.clientID query.type)
                  = some dns_cache → regex_idx = dns_cache.black_regex_idx)
              ∧ (S.getDNSCache (S.findCacheID query.domainID query.clientID query.type)
                  = none → regex_idx = -1)) := by
  intro r hr
  obtain ⟨F, queryID, query, _, _, hid, _, _, hq, _, _, _, hw⟩ :=
    getAllQueries_row_inv S P client_message true r hr
  have hab := getAllQueries_body_isAbort S P true F (Or.inl rfl) queryID
  rcases hw with ⟨hemit, _⟩ | ⟨habort, _⟩
  · obtain ⟨query2, domain, client, hq2, _, _, CNAME_domain, upstream_name, reply, delay,
      regex_idx, upstream_port, hout, _, _, hregex⟩ :=
      getAllQueries_body_line S P F queryID r.out hemit
    rw [hq] at hq2
    have hqq := Option.some.inj hq2
    subst hqq
    refine ⟨query, regex_idx, by rw [hid]; exact hq, by rw [hout]; rfl, ?_, ?_⟩
    · intro hno
      rw [hregex, if_neg hno]
    · intro hst hlevel
      rw [hregex, if_pos ⟨hst, hlevel⟩]
      constructor
      · intro dns_cache hc
        rw [hc]
        rfl
      · intro hc
        rw [hc]
        rfl
  · rw [habort] at hab
    cases hab

/-- Witness for C26: on the log that shows each derived field, whose entry 0 is
blocked by a regex and whose DNS cache records carry the regex index 7, the rows carry
the regex indices 7, -1, -1, -1; at the privacy level HIDE_DOMAINS they carry -1
throughout. -/
theorem replay_regex_index_witness :
    ((getAllQueries fieldsLog refPlatform ">getallqueries" true).rows.map
          (fun r => (fieldsOf r.out).get? 9)
        = [some (.int 7), some (.int (-1)), some (.int (-1)), some (.int (-1))]
      ∧ (getAllQueries { fieldsLog with privacylevel := 1 } refPlatform ">getallqueries"
          true).rows.map (fun r => (fieldsOf r.out).get? 9)
        = [some (.int (-1)), some (.int (-1)), some (.int (-1)), some (.int (-1))])
      ∧ ∀ r ∈ (getAllQueries fieldsLog refPlatform ">getallqueries" true).rows,
          ∃ (query : queriesData) (regex_idx : Int), getQuery fieldsLog r.id = some query
            ∧ (fieldsOf r.out).get? 9 = some (.int regex_idx)
            ∧ (¬ ((query.status = QUERY_REGEX ∨ query.status = QUERY_REGEX_CNAME)
                  ∧ fieldsLog.privacylevel < PRIVACY_HIDE_DOMAINS) → regex_idx = -1)
            ∧ ((query.status = QUERY_REGEX ∨ query.status = QUERY_REGEX_CNAME) →
                fieldsLog.privacylevel < PRIVACY_HIDE_DOMAINS →
                (∀ dns_cache,
                    fieldsLog.getDNSCache
                        (fieldsLog.findCacheID query.domainID query.clientID query.type)
                      = some dns_cache → regex_idx = dns_cache.black_regex_idx)
                  ∧ (fieldsLog.getDNSCache
                        (fieldsLog.findCacheID query.domainID query.clientID query.type)
                      = none → regex_idx = -1)) :=
  ⟨by decide, replay_regex_index fieldsLog refPlatform ">getallqueries"⟩

/-- C27. For an entry of type OTHER whose numeric type code `q` is below 2^16 and is
not recognised by the type-name table (`querystr` returns nothing or a string that
contains "type="): the type label is "TYPE" followed by the decimal digits of `q`, it
has at most 9 characters, and it is the second field of every row written in full for
the entry, in either mode. -/
theorem replay_type_label (S : Snapshot) (P : Platform) (client_message : String)
    (istelnet : Bool) (query : queriesData)
    (htype : query.type = TYPE_OTHER) (hq16 : query.qtype < 65536)
    (hunknown : P.querystr query.qtype = none
      ∨ ∃ s, P.querystr query.qtype = some s ∧ strstr s.data "type=".data = true) :
    qtypeLabel P query = "TYPE" ++ toString query.qtype
      ∧ (qtypeLabel P query).length ≤ 9
      ∧ ∀ r ∈ (getAllQueries S P client_message istelnet).rows,
          getQuery S r.id = some query → r.complete = true →
          (fieldsOf r.out).get? 1 = some (.str ("TYPE" ++ toString query.qtype)) := by
  have hlabel := qtypeLabel_other P query htype hunknown
  refine ⟨hlabel, by rw [hlabel]; exact type_label_length _ hq16, ?_⟩
  intro r hr hq hc
  obtain ⟨F, queryID, query2, _, _, hid, _, _, hq2, _, _, _, hw⟩ :=
    getAllQueries_row_inv S P client_message istelnet r hr
  rw [hid, hq2] at hq
  have hqq := Option.some.inj hq
  subst hqq
  rcases hw with ⟨hemit, _⟩ | ⟨_, hinc⟩
  · cases istelnet with
    | true =>
      obtain ⟨query3, domain, client, hq3, _, _, CNAME_domain, upstream_name, reply, delay,
        regex_idx, upstream_port, hout, _⟩ := getAllQueries_body_line S P F queryID r.out hemit
      rw [hq2] at hq3
      have hqq := Option.some.inj hq3
      subst hqq
      rw [hout, ← hlabel]
      rfl
    | false =>
      obtain ⟨query3, domain, clientIPName, hq3, _, hout⟩ :=
        getAllQueries_body_binary S P F queryID r.out hemit
      rw [hq2] at hq3
      have hqq := Option.some.inj hq3
      subst hqq
      rw [hout, ← hlabel]
      rfl
  · rw [hinc] at hc
    cases hc

/-- Witness for C27: entry 2 of the log that shows each derived field has the type
OTHER and the numeric type code 65, which the type-name table of the reference
platform does not know; its label is "TYPE65" in both modes. -/
theorem replay_type_label_witness :
    ((getAllQueries fieldsLog refPlatform ">getallqueries" true).rows.map
          (fun r => (fieldsOf r.out).get? 1)
        = [some (.str "A"), some (.str "AAAA"), some (.str "TYPE65"), some (.str "AAAA")]
      ∧ (getAllQueries fieldsLog refPlatform ">getallqueries" false).rows.map
          (fun r => (fieldsOf r.out).get? 1)
        = [some (.str "A"), some (.str "AAAA"), some (.str "TYPE65"), some (.str "AAAA")])
      ∧ qtypeLabel refPlatform
          { cacheQuery with
            timestamp := 300, type := 14, qtype := 65, status := 2, upstreamID := 0,
            response := 55, id := 3 } = "TYPE" ++ toString 65
      ∧ (qtypeLabel refPlatform
          { cacheQuery with
            timestamp := 300, type := 14, qtype := 65, status := 2, upstreamID := 0,
            response := 55, id := 3 }).length ≤ 9 :=
  have h := replay_type_label fieldsLog refPlatform ">getallqueries" true
    { cacheQuery with
      timestamp := 300, type := 14, qtype := 65, status := 2, upstreamID := 0,
      response := 55, id := 3 } (by decide) (by decide) (Or.inl (by decide))
  ⟨by decide, h.1, h.2.1⟩

/-! ## Element counts and most recently blocked domains -/

/-- C28, evaluated at a failing input.  The time-bucket table has the slots
(600, 0, 0), (1200, 1, 1), (1800, 0, 0) and the clock reads 500: `from` is slot 1, the
first slot with activity, and `until` is slot 0, the first slot not before "now".  In
binary mode each of the two map headers declares `(uint16_t)(0 - 1) = 65535` elements
and no pair follows it.  With the clock at 2000 each header declares 2 elements and
two pairs follow. -/
theorem overTime_header_wraps :
    scenarioAds.overTime = [⟨600, 0, 0⟩, ⟨1200, 1, 1⟩, ⟨1800, 0, 0⟩]
      ∧ earlyClock.time = 500
      ∧ getOverTime scenarioAds earlyClock false
        = [⟨[.pack_map16_start 65535], []⟩, ⟨[.pack_map16_start 65535], []⟩]
      ∧ (getOverTime scenarioAds refPlatform false).map
          (fun table => (table.header, table.rows.length))
        = [([.pack_map16_start 2], 2), ([.pack_map16_start 2], 2)] := by
  decide

/-- C29, evaluated at a failing input.  The log has one entry, at index 0; it is
blocked and its domain display string is "ads.example.com".  The loop of
`getRecentBlocked` runs while `queryID > 0`, so index 0 is never visited and the
report with its default parameter writes nothing, in either mode.  On the log with a
second copy of the entry at index 1 the report writes one row, for index 1. -/
theorem recent_blocked_misses_first_entry :
    scenarioAds.queries = [some blockedQuery]
      ∧ blockedQuery.blocked = true
      ∧ getDomainString scenarioAds blockedQuery = some "ads.example.com"
      ∧ sscanf_count ">recentBlocked" = none
      ∧ getRecentBlocked scenarioAds refPlatform ">recentBlocked" true = ⟨[], []⟩
      ∧ getRecentBlocked scenarioAds refPlatform ">recentBlocked" false = ⟨[], []⟩
      ∧ (getRecentBlocked { scenarioAds with queries := [some blockedQuery, some blockedQuery] }
          refPlatform ">recentBlocked" true).rows
        = [⟨1, [.ssend "%s\n" [.str "ads.example.com"]], true⟩] := by
  decide

/-- C30, evaluated at a failing input.  The four-entry log has the blocked entries 0
and 3, both with a domain display string, and `>recentBlocked (2)` gives the count
`N = 2 < 4`, so the claim asks for `min(2, 2) = 2` rows.  Index 0 is never visited
(the loop runs while `queryID > 0`): the report writes the one row of entry 3. -/
theorem recent_blocked_count_misses_first_entry :
    sscanf_count ">recentBlocked (2)" = some 2
      ∧ replayLog.queries.length = 4
      ∧ (List.range replayLog.queries.length).filter (blockedWithDomain replayLog) = [0, 3]
      ∧ (getRecentBlocked replayLog refPlatform ">recentBlocked (2)" true).rows
        = [⟨3, [.ssend "%s\n" [.str "example.org"]], true⟩]
      ∧ (getRecentBlocked replayLog refPlatform ">recentBlocked (2)" false).rows
        = [⟨3, [.pack_str32 "example.org"], true⟩] := by
  decide

/-! ## Upstream destinations -/

/-- C31, evaluated at a failing input.  The upstream table has upstream 0 ("8.8.8.8",
"dns.google", port 53, summed count 1) and a second slot whose record is absent; the
stack slot `temparray[1]`, which the first loop of `getUpstreamDestinations` leaves
unwritten for the absent record, still holds the pair `(0, 100)`.  With one cached and
two blocked queries the total is 4.  The report walks both slots of `temparray`: after
the blocklist and the cache row it writes two rows for upstream 0, one with the stale
count 100 (share 100 over 4) and one with its own count 1, in this order when sorted
and in the opposite order with "unsorted".  With zeros on the stack the report writes
the one row of upstream 0. -/
theorem upstream_destinations_repeat_stale_slot :
    staleUpstreams.upstreams = [some ⟨8, 9, 53, [0, 1, 0]⟩, none]
      ∧ stalePlatform.stack 1 = (0, 100)
      ∧ getUpstreamDestinations_temparray staleUpstreams stalePlatform = [(0, 1), (0, 100)]
      ∧ destinationsTotal staleUpstreams 1 = 4
      ∧ (getUpstreamDestinations staleUpstreams stalePlatform 1 ">forward-dest" true).map
          (fun r => (r.id, r.percentage, rowCount staleUpstreams r))
        = [(-2, some (.of 2 4), 0), (-1, some (.of 1 4), 0), (0, some (.of 100 4), 1),
           (0, some (.of 1 4), 1)]
      ∧ (getUpstreamDestinations staleUpstreams stalePlatform 1 ">forward-dest unsorted"
          true).map (fun r => (r.id, r.percentage, rowCount staleUpstreams r))
        = [(-2, some (.of 2 4), 0), (-1, some (.of 1 4), 0), (0, some (.of 1 4), 1),
           (0, some (.of 100 4), 1)]
      ∧ (getUpstreamDestinations staleUpstreams stalePlatform 1 ">forward-dest" false).map
          (fun r => (r.id, r.out))
        = [(-2, [.pack_str32 "blocklist", .pack_str32 "blocklist", .pack_float (.of 2 4)]),
           (-1, [.pack_str32 "cache", .pack_str32 "cache", .pack_float (.of 1 4)]),
           (0, [.pack_str32 "dns.google", .pack_str32 "8.8.8.8", .pack_float (.of 100 4)]),
           (0, [.pack_str32 "dns.google", .pack_str32 "8.8.8.8", .pack_float (.of 1 4)])]
      ∧ (getUpstreamDestinations staleUpstreams refPlatform 1 ">forward-dest" true).map
          (fun r => (r.id, r.percentage, rowCount staleUpstreams r))
        = [(-2, some (.of 2 4), 0), (-1, some (.of 1 4), 0), (0, some (.of 1 4), 1)] := by
  decide

end FTL
